import Mathlib

/-!
# Tendis: session context and replication manager

A shallow embedding of `src/tendisplus/network/session_ctx.cpp` and
`src/tendisplus/replication/repl_manager.cpp`, followed by the properties
established about it.

Conventions of the embedding:

* A C++ object that is mutated in place becomes a value that is passed in and
  returned (`SessionCtx`, `ReplManager`, `KVStore`, `Catalog`).
* A collaborator whose code lives elsewhere (transaction, store, catalog,
  server) is a record holding its observable state together with the answer it
  gives when called, so that every answer the interface allows can be
  supplied.
* `Run` separates a normal return from the two ways a call can end without
  one: a failed `INVARIANT` / `LOG(FATAL)`, and an access with no defined
  result.
-/

set_option autoImplicit false

namespace tendisplus

/-! ## Status, Expected, Run -/

/-- The error codes used by the two files (`ErrorCodes::ERR_*`), together with
`ERR_NETWORK` and `ERR_DECODE` standing for errors that collaborators pass
through. -/
inductive ErrorCodes where
  | ERR_OK
  | ERR_NETWORK
  | ERR_TIMEOUT
  | ERR_INTERNAL
  | ERR_NOTFOUND
  | ERR_DECODE
  | ERR_BUSY
  | ERR_EXHAUST
  deriving DecidableEq, Repr

/-- A `Status`: an error code and a message, as built by
`{ErrorCodes::ERR_BUSY, "..."}`. -/
structure Status where
  code : ErrorCodes
  msg : String
  deriving DecidableEq, Repr

/-- The method `Status::ok()`. -/
def Status.ok (s : Status) : Bool :=
  decide (s.code = ErrorCodes.ERR_OK)

/-- The status `{ErrorCodes::ERR_OK, ""}`. -/
def Status.OK : Status :=
  { code := ErrorCodes.ERR_OK, msg := "" }

/-- An `Expected<T>`: a status, and the value when there is one. `ok()` is the
status's `ok()`, as the source uses it (`if (!ptxn.ok()) return ptxn.status()`). -/
structure Expected (α : Type) where
  status : Status
  data : Option α
  deriving DecidableEq, Repr

/-- The method `Expected::ok()`. -/
def Expected.ok {α : Type} (e : Expected α) : Bool :=
  e.status.ok

/-- An `Expected<T>` built from a value (`return txn;`). -/
def Expected.ofValue {α : Type} (v : α) : Expected α :=
  { status := Status.OK, data := some v }

/-- An `Expected<T>` built from a status (`return ptxn.status();`). -/
def Expected.ofStatus {α : Type} (s : Status) : Expected α :=
  { status := s, data := none }

/-- How a call ends: `ret` is a normal return, `fatal` a failed `INVARIANT` or a
`LOG(FATAL)` (the process aborts), `undefined` an access that has no defined
result (an index outside a vector, the value of an `Expected` that holds none). -/
inductive Run (α : Type) where
  | ret (a : α)
  | fatal
  | undefined
  deriving DecidableEq, Repr

/-- The method `Expected::value()`: the held value; taking the value of an `Expected` that
holds none has no defined result. -/
def Expected.value {α : Type} (e : Expected α) : Run α :=
  match e.data with
  | some v => Run.ret v
  | none => Run.undefined

/-- A call returns normally, with a result satisfying `P`. -/
def Run.Holds {α : Type} (x : Run α) (P : α → Prop) : Prop :=
  match x with
  | Run.ret a => P a
  | Run.fatal => False
  | Run.undefined => False

/-! ## Transactions and stores -/

/-- A transaction handle. `id` is the identity of the object; `commit` and
`rollback` are the answers its `commit()` and `rollback()` give when called
(the interface is `commit() → txnId`, `rollback() → Status`); `firstBinlog`
is what the first `next()` of its binlog cursor
(`createBinlogCursor(MIN_VALID_TXNID)`) answers: the transaction id of the
first binlog entry, `ERR_EXHAUST` when there is none, or another error. -/
structure Transaction where
  id : Nat
  commit : Expected Nat
  rollback : Status
  firstBinlog : Expected Nat :=
    Expected.ofStatus { code := ErrorCodes.ERR_EXHAUST, msg := "" }
  deriving DecidableEq, Repr

/-- The enumeration `KVStore::StoreMode`. -/
inductive StoreMode where
  | READ_WRITE
  | REPLICATE_ONLY
  deriving DecidableEq, Repr

/-- A store handle (`PStore`). `dbId` is its index and `mode` its current mode;
`setModeStatus` and `createTxn` are the answers its `setMode` and
`createTransaction` give; `txnCreated` counts the `createTransaction` calls it
has served. `truncateLog` is the answer of `getTruncateLog` (the new start
and the binlog entries to delete, each entry named by its id),
`truncateStatus` the answer of `truncateBinlog`, and `truncated` lists the
batches of entries whose truncation has been committed. -/
structure KVStore where
  dbId : Nat
  mode : StoreMode := StoreMode.READ_WRITE
  setModeStatus : Status := Status.OK
  createTxn : Expected Transaction :=
    Expected.ofStatus { code := ErrorCodes.ERR_INTERNAL, msg := "" }
  txnCreated : Nat := 0
  truncateLog : Expected (Nat × List Nat) :=
    Expected.ofStatus { code := ErrorCodes.ERR_INTERNAL, msg := "" }
  truncateStatus : Status := Status.OK
  truncated : List (List Nat) := []
  deriving DecidableEq, Repr

/-- Modelled from the spec: `KVStore::createTransaction` (the store engine is an
external collaborator, `createTransaction(session?) → Transaction`). The store
gives its answer and has served one more call. -/
def KVStore.createTransaction (kv : KVStore) : Expected Transaction × KVStore :=
  (kv.createTxn, { kv with txnCreated := kv.txnCreated + 1 })

/-- Modelled from the spec: `KVStore::setMode` (the store engine is an external
collaborator, `setMode(READ_WRITE | REPLICATE_ONLY) → Status`). The store gives
its answer, and is in the requested mode when that answer is OK. -/
def KVStore.setMode (kv : KVStore) (mode : StoreMode) : Status × KVStore :=
  if kv.setModeStatus.ok then (kv.setModeStatus, { kv with mode := mode })
  else (kv.setModeStatus, kv)

/-! ## SessionCtx -/

/-- The lookup `m.count(k) > 0` followed by `m[k]`, on a map kept as the list of its
entries in iteration order. -/
def mapFind {β : Type} (m : List (Nat × β)) (k : Nat) : Option β :=
  match m with
  | [] => none
  | (k1, v) :: rest => if k1 = k then some v else mapFind rest k

/-- The assignment `m[k] = v`: replaces the entry under `k` when there is one,
and adds the entry otherwise. Modelled from the spec: the container type of
`_txnMap` is declared in `session_ctx.h`; a new entry comes last in iteration
order (the spec's "insertion order"). -/
def mapSet {β : Type} (m : List (Nat × β)) (k : Nat) (v : β) : List (Nat × β) :=
  match m with
  | [] => [(k, v)]
  | (k1, v1) :: rest => if k1 = k then (k, v) :: rest else (k1, v1) :: mapSet rest k v

/-- The lock modes of `mgl::LockMode`. The two files name `LOCK_NONE` and
`LOCK_IX`; the other modes of the multi-granular lock manager are listed with
them. -/
inductive LockMode where
  | LOCK_NONE
  | LOCK_IS
  | LOCK_IX
  | LOCK_S
  | LOCK_X
  deriving DecidableEq, Repr

/-- The modelled part of a `SessionCtx`: `_locks` (the held lock handles, each
`ILock*` named by a number, in list order), `_argsBrief`, `_txnMap` (store id
↦ open transaction) and `_keylockmap` (key ↦ lock mode). -/
structure SessionCtx where
  argsBrief : List String := []
  txnMap : List (Nat × Transaction) := []
  locks : List Nat := []
  keylockmap : List (String × LockMode) := []
  deriving DecidableEq, Repr

/-- The method `SessionCtx::getArgsBrief`. -/
def getArgsBrief (ctx : SessionCtx) : List String :=
  ctx.argsBrief

/-- The constant `constexpr size_t MAX_SIZE = 8;` in `SessionCtx::setArgsBrief`. -/
def MAX_SIZE : Nat := 8

/-- The method `SessionCtx::setArgsBrief`: for `i` from `0` below `min(v.size(), MAX_SIZE)`,
`_argsBrief.push_back(v[i])`. -/
def setArgsBrief (ctx : SessionCtx) (v : List String) : SessionCtx :=
  { ctx with
    argsBrief := (List.range (min v.length MAX_SIZE)).foldl
      (fun acc i =>
        match v[i]? with
        | some x => acc ++ [x]
        | none => acc)
      ctx.argsBrief }

/-- The method `SessionCtx::clearRequestCtx`, on the modelled fields: both containers are
cleared. -/
def clearRequestCtx (ctx : SessionCtx) : SessionCtx :=
  { ctx with txnMap := [], argsBrief := [] }

/-- The method `SessionCtx::createTransaction`. Returns the answer, the session and the
store as they are afterwards. -/
def createTransaction (ctx : SessionCtx) (kvstore : KVStore) :
    Run (Expected Transaction × SessionCtx × KVStore) :=
  match mapFind ctx.txnMap kvstore.dbId with
  | some txn => Run.ret (Expected.ofValue txn, ctx, kvstore)
  | none =>
    let ptxn := kvstore.createTransaction
    if !ptxn.1.ok then
      Run.ret (Expected.ofStatus ptxn.1.status, ctx, ptxn.2)
    else
      match ptxn.1.value with
      | Run.ret t =>
        let ctx1 := { ctx with txnMap := mapSet ctx.txnMap kvstore.dbId t }
        match mapFind ctx1.txnMap kvstore.dbId with
        | some txn => Run.ret (Expected.ofValue txn, ctx1, ptxn.2)
        | none => Run.undefined
      | Run.fatal => Run.fatal
      | Run.undefined => Run.undefined

/-- The result of `commitAll` / `rollbackAll`: the returned status, the session
afterwards, and the store ids whose transaction was called, in call order. -/
structure AllResult where
  status : Status
  ctx : SessionCtx
  calls : List Nat
  deriving DecidableEq, Repr

/-- The body of the loop of `commitAll` for one entry `txn` of `_txnMap`, on the
current `s` and the calls made so far: `commit()` is called, and `s` is
overwritten when the commit is not ok. -/
def commitStep (acc : Status × List Nat) (txn : Nat × Transaction) : Status × List Nat :=
  let exptCommit := txn.2.commit
  if !exptCommit.ok then (exptCommit.status, acc.2 ++ [txn.1])
  else (acc.1, acc.2 ++ [txn.1])

/-- The method `SessionCtx::commitAll`. `Status s;` starts as OK; the loop runs over
`_txnMap` in iteration order; the map is cleared. -/
def commitAll (ctx : SessionCtx) (_cmd : String) : AllResult :=
  let r := ctx.txnMap.foldl commitStep (Status.OK, [])
  { status := r.1, ctx := { ctx with txnMap := [] }, calls := r.2 }

/-- The body of the loop of `rollbackAll` for one entry `txn` of `_txnMap`:
`s = txn.second->rollback();`. -/
def rollbackStep (acc : Status × List Nat) (txn : Nat × Transaction) : Status × List Nat :=
  let s := txn.2.rollback
  (s, acc.2 ++ [txn.1])

/-- The method `SessionCtx::rollbackAll`. `s` starts as `{ERR_OK, ""}`; the loop runs over
`_txnMap` in iteration order; the map is cleared. -/
def rollbackAll (ctx : SessionCtx) : AllResult :=
  let r := ctx.txnMap.foldl rollbackStep (Status.OK, [])
  { status := r.1, ctx := { ctx with txnMap := [] }, calls := r.2 }

/-- The method `SessionCtx::addLock`: `_locks.push_back(lock)`. -/
def addLock (ctx : SessionCtx) (lock : Nat) : SessionCtx :=
  { ctx with locks := ctx.locks ++ [lock] }

/-- The loop of `removeLock` over `_locks` from `begin()`: the first element
equal to `lock` is erased; `none` when the end is reached without a match. -/
def eraseFirstLock : List Nat → Nat → Option (List Nat)
  | [], _ => none
  | x :: rest, lock =>
    if x = lock then some rest
    else
      match eraseFirstLock rest lock with
      | some rest1 => some (x :: rest1)
      | none => none

/-- The method `SessionCtx::removeLock`: erases the first occurrence of `lock`
and returns; reaching the end of the list is `INVARIANT(0)`. -/
def removeLock (ctx : SessionCtx) (lock : Nat) : Run SessionCtx :=
  match eraseFirstLock ctx.locks lock with
  | some locks1 => Run.ret { ctx with locks := locks1 }
  | none => Run.fatal

/-- The lookup `_keylockmap.count(key) > 0` followed by `_keylockmap[key]`, on a
map kept as the list of its entries. -/
def keyFind (m : List (String × LockMode)) (key : String) : Option LockMode :=
  match m with
  | [] => none
  | (k1, v) :: rest => if k1 = key then some v else keyFind rest key

/-- The assignment `_keylockmap[key] = mode`: replaces the mode under `key`
when there is one, and adds the entry otherwise. -/
def keySet (m : List (String × LockMode)) (key : String) (mode : LockMode) :
    List (String × LockMode) :=
  match m with
  | [] => [(key, mode)]
  | (k1, v1) :: rest =>
    if k1 = key then (key, mode) :: rest else (k1, v1) :: keySet rest key mode

/-- The call `_keylockmap.erase(key)`: no entry under `key` is left. -/
def keyErase (m : List (String × LockMode)) (key : String) : List (String × LockMode) :=
  match m with
  | [] => []
  | (k1, v1) :: rest =>
    if k1 = key then keyErase rest key else (k1, v1) :: keyErase rest key

/-- The method `SessionCtx::setKeylock`. -/
def setKeylock (ctx : SessionCtx) (key : String) (mode : LockMode) : SessionCtx :=
  { ctx with keylockmap := keySet ctx.keylockmap key mode }

/-- The method `SessionCtx::unsetKeylock`:
`INVARIANT(_keylockmap.count(key) > 0)`, then the entry is erased. -/
def unsetKeylock (ctx : SessionCtx) (key : String) : Run SessionCtx :=
  match keyFind ctx.keylockmap key with
  | none => Run.fatal
  | some _ => Run.ret { ctx with keylockmap := keyErase ctx.keylockmap key }

/-- The method `SessionCtx::isLockedByMe`. `enum2Int` is `mgl::enum2Int`, the
numeric value of a lock mode. When the key is in the map,
`INVARIANT(enum2Int(mode) <= enum2Int(_keylockmap[key]))` and the answer is
`true`; otherwise the answer is `false`. -/
def isLockedByMe (enum2Int : LockMode → Nat) (ctx : SessionCtx) (key : String)
    (mode : LockMode) : Run Bool :=
  match keyFind ctx.keylockmap key with
  | some held => if enum2Int mode ≤ enum2Int held then Run.ret true else Run.fatal
  | none => Run.ret false

/-- A run of `createTransaction` calls on one session, one call per store of
the list, in order; the answers of the calls are dropped and the session is
passed on. -/
def createTransactions : SessionCtx → List KVStore → Run SessionCtx
  | ctx, [] => Run.ret ctx
  | ctx, kvstore :: rest =>
    match createTransaction ctx kvstore with
    | Run.ret r => createTransactions r.2.1 rest
    | Run.fatal => Run.fatal
    | Run.undefined => Run.undefined

/-! ## Replication metadata and the collaborators of the manager -/

/-- The enumeration `ReplState`. -/
inductive ReplState where
  | REPL_NONE
  | REPL_CONNECT
  | REPL_TRANSFER
  | REPL_CONNECTED
  deriving DecidableEq, Repr

/-- A `StoreMeta`, with the fields the manager reads and writes. `syncFromId` is
an integer because `startup` builds the default meta with `-1`. -/
structure StoreMeta where
  id : Nat
  syncFromHost : String
  syncFromPort : Nat
  syncFromId : Int
  binlogId : Nat
  replState : ReplState
  deriving DecidableEq, Repr

/-- The method `StoreMeta::copy()`. -/
def StoreMeta.copy (m : StoreMeta) : StoreMeta := m

/-- The record `SPovStatus`: the slave point-of-view runtime state of one store. Times are
clock ticks. -/
structure SPovStatus where
  isRunning : Bool
  sessionId : Nat
  nextSchedTime : Nat := 0
  lastSyncTime : Nat := 0
  deriving DecidableEq, Repr

/-- The constant `std::numeric_limits<uint64_t>::max()`. -/
def UINT64_MAX : Nat := 2 ^ 64 - 1

/-- The constant `std::numeric_limits<uint32_t>::max()`. -/
def UINT32_MAX : Nat := 2 ^ 32 - 1

/-- The record `MPovStatus`: the master point-of-view runtime state of one
`(store, client)` pair, without its transport handle. -/
structure MPovStatus where
  isRunning : Bool
  dstStoreId : Nat := 0
  binlogPos : Nat
  nextSchedTime : Nat := 0
  clientId : Nat := 0
  deriving DecidableEq, Repr

/-- The record `RecycleBinlogStatus` of one store. `fs` is the open dump file,
when there is one. -/
structure RecycleBinlogStatus where
  isRunning : Bool
  nextSchedTime : Nat := 0
  firstBinlogId : Nat
  fileSeq : Nat := 0
  fileCreateTime : Nat := 0
  fileSize : Nat := 0
  fs : Option Nat := none
  deriving DecidableEq, Repr

/-- The five worker pools of the manager. -/
inductive Pool where
  | fullPusher
  | incrPusher
  | fullReceiver
  | incrChecker
  | logRecycler
  deriving DecidableEq, Repr

/-- A task handed to a worker pool by the controller:
`_fullReceiver->schedule` / `_incrChecker->schedule` of `slaveSyncRoutine(i)`,
`_incrPusher->schedule` of `masterPushRoutine(i, clientId)`, and
`_logRecycler->schedule` of
`recycleBinlog(i, oldFirstBinlog, endLogId, saveLogs)`. -/
inductive Job where
  | slaveSyncRoutine (pool : Pool) (storeId : Nat)
  | masterPushRoutine (storeId : Nat) (clientId : Nat)
  | recycleBinlog (storeId : Nat) (start : Nat) (endLogId : Nat) (saveLogs : Bool)
  deriving DecidableEq, Repr

/-- The catalog. `setCalls` lists the metas handed to `setStoreMeta`, in call
order; `setAnswer` gives, per store id, the status `setStoreMeta` answers for a
meta of that id (OK when the id is not listed); `metas` gives, per store id,
what `getStoreMeta` answers for that id. -/
structure Catalog where
  setCalls : List StoreMeta := []
  setAnswer : List (Nat × Status) := []
  metas : List (Nat × Expected StoreMeta) := []
  deriving DecidableEq, Repr

/-- Modelled from the spec: `Catalog::getStoreMeta` (the catalog is an external
collaborator, `getStoreMeta(id) → StoreMeta | NOT_FOUND | error`). The catalog
gives the answer it holds for the id, and `NOT_FOUND` when it holds none. -/
def Catalog.getStoreMeta (c : Catalog) (id : Nat) : Expected StoreMeta :=
  (mapFind c.metas id).getD
    (Expected.ofStatus { code := ErrorCodes.ERR_NOTFOUND, msg := "store meta not found" })

/-- Modelled from the spec: `Catalog::setStoreMeta` (the catalog is an external
collaborator, `setStoreMeta(meta) → Status`). The call is recorded and the
catalog gives its answer. -/
def Catalog.setStoreMeta (c : Catalog) (storeMeta : StoreMeta) : Status × Catalog :=
  ((mapFind c.setAnswer storeMeta.id).getD Status.OK,
    { c with setCalls := c.setCalls ++ [storeMeta] })

/-- The server as the manager sees it (`_svr`): the catalog, the stores behind
the segment manager, the answer `cancelSession` gives and the session ids it
has been handed. -/
structure ServerEntry where
  catalog : Catalog := {}
  stores : List KVStore := []
  cancelStatus : Status := Status.OK
  cancelled : List Nat := []
  deriving DecidableEq, Repr

/-- Modelled from the spec: `SegmentMgr::getDb(session?, storeId, lockMode)`
(external collaborator returning the store handle). Store `storeId` is the
entry of that index; there is no handle for an index without a store. -/
def ServerEntry.getDb (svr : ServerEntry) (storeId : Nat) : Expected KVStore :=
  match svr.stores[storeId]? with
  | some kv => Expected.ofValue kv
  | none => Expected.ofStatus { code := ErrorCodes.ERR_INTERNAL, msg := "invalid storeId" }

/-- Modelled from the spec: `ServerEntry::cancelSession(sessionId) → Status`
(external collaborator). The request is recorded and the server gives its
answer. -/
def ServerEntry.cancelSession (svr : ServerEntry) (sessionId : Nat) : Status × ServerEntry :=
  (svr.cancelStatus, { svr with cancelled := svr.cancelled ++ [sessionId] })

/-- The store handle is shared with the segment manager: what `setMode` did to
the store is what the segment manager holds afterwards. -/
def ServerEntry.putStore (svr : ServerEntry) (storeId : Nat) (kv : KVStore) : ServerEntry :=
  { svr with stores := svr.stores.set storeId kv }

/-! ## ReplManager -/

/-- The modelled part of the `ReplManager`: `_svr`, `_syncMeta`, `_syncStatus`,
`_pushStatus` (per store, the map client id ↦ `MPovStatus` as the list of its
entries in iteration order), `_logRecycStatus`, the pools started so far (by
name, with their size), `_isRunning` and whether the controller thread has
been started. `saveBinlogsStatus` is the answer `saveBinlogs` gives and
`savedBinlogs` the batches it has archived, per store. -/
structure ReplManager where
  svr : ServerEntry := {}
  syncMeta : List StoreMeta := []
  syncStatus : List SPovStatus := []
  pushStatus : List (List (Nat × MPovStatus)) := []
  logRecycStatus : List RecycleBinlogStatus := []
  pools : List (String × Nat) := []
  isRunning : Bool := false
  controller : Bool := false
  saveBinlogsStatus : Status := Status.OK
  savedBinlogs : List (Nat × List Nat) := []
  deriving DecidableEq, Repr

/-- The method `ReplManager::changeReplStateInLock`. A failed persist is `LOG(FATAL)`;
`_syncMeta[storeMeta.id]` outside the vector has no defined result. -/
def changeReplStateInLock (st : ReplManager) (storeMeta : StoreMeta) (persist : Bool) :
    Run ReplManager :=
  let afterPersist : Run ReplManager :=
    if persist then
      let r := st.svr.catalog.setStoreMeta storeMeta
      if !r.1.ok then Run.fatal
      else Run.ret { st with svr := { st.svr with catalog := r.2 } }
    else Run.ret st
  match afterPersist with
  | Run.ret st1 =>
    if storeMeta.id < st1.syncMeta.length then
      Run.ret { st1 with syncMeta := st1.syncMeta.set storeMeta.id storeMeta.copy }
    else Run.undefined
  | Run.fatal => Run.fatal
  | Run.undefined => Run.undefined

/-- The wait `_cv.wait_for(lk, 1s, pred)`, which is
`while (!pred()) if (wait(lk, deadline) == timeout) return pred(); return true;`.
The predicate is evaluated under the lock on the current state `st`; while it
is false the thread sleeps with the lock released, and at each wakeup it finds
the state the other threads have left. `later` lists those states in order,
the last one being the state at the deadline. Returns the answer of `wait_for`
and the state the caller holds the lock on. -/
def waitFor (pred : ReplManager → Run Bool) :
    ReplManager → List ReplManager → Run (Bool × ReplManager)
  | st, [] =>
    match pred st with
    | Run.ret b => Run.ret (b, st)
    | Run.fatal => Run.fatal
    | Run.undefined => Run.undefined
  | st, st1 :: rest =>
    match pred st with
    | Run.ret true => Run.ret (true, st)
    | Run.ret false => waitFor pred st1 rest
    | Run.fatal => Run.fatal
    | Run.undefined => Run.undefined

/-- The predicate `[this, storeId] { return !_syncStatus[storeId]->isRunning; }`. -/
def yieldPred (storeId : Nat) (st : ReplManager) : Run Bool :=
  match st.syncStatus[storeId]? with
  | some sp => Run.ret (!sp.isRunning)
  | none => Run.undefined

/-- The method `ReplManager::changeReplSource`. `TXNID_UNINITED` is the constant
`Transaction::TXNID_UNINITED`; `later` is what the wait observes (see
`waitFor`). Returns the status and the manager afterwards. -/
def changeReplSource (TXNID_UNINITED : Nat) (st : ReplManager) (later : List ReplManager)
    (storeId : Nat) (ip : String) (port : Nat) (sourceStoreId : Nat) :
    Run (Status × ReplManager) :=
  match waitFor (yieldPred storeId) st later with
  | Run.fatal => Run.fatal
  | Run.undefined => Run.undefined
  | Run.ret (false, st1) =>
    Run.ret ({ code := ErrorCodes.ERR_TIMEOUT, msg := "wait for yeild failed" }, st1)
  | Run.ret (true, st1) =>
    match yieldPred storeId st1 with
    | Run.undefined => Run.undefined
    | Run.fatal => Run.fatal
    | Run.ret false => Run.fatal
    | Run.ret true =>
    if storeId ≥ st1.syncMeta.length then
      Run.ret ({ code := ErrorCodes.ERR_INTERNAL, msg := "invalid storeId" }, st1)
    else
    let expdb := st1.svr.getDb storeId
    if !expdb.ok then Run.fatal
    else
    match expdb.value, st1.syncMeta[storeId]?, st1.syncStatus[storeId]? with
    | Run.ret kvstore, some cur, some sp =>
      let newMeta := cur.copy
      if ip ≠ "" then
        if cur.syncFromHost ≠ "" then
          Run.ret ({ code := ErrorCodes.ERR_BUSY,
                     msg := "explicit set sync source empty before change it" }, st1)
        else
          let r := kvstore.setMode StoreMode.REPLICATE_ONLY
          let st2 := { st1 with svr := st1.svr.putStore storeId r.2 }
          if !r.1.ok then Run.ret (r.1, st2)
          else
            let newMeta1 := { newMeta with
              syncFromHost := ip
              syncFromPort := port
              syncFromId := (sourceStoreId : Int)
              replState := ReplState.REPL_CONNECT
              binlogId := TXNID_UNINITED }
            match changeReplStateInLock st2 newMeta1 true with
            | Run.ret st3 => Run.ret (Status.OK, st3)
            | Run.fatal => Run.fatal
            | Run.undefined => Run.undefined
      else
        if newMeta.syncFromHost = "" then Run.ret (Status.OK, st1)
        else
          let c := st1.svr.cancelSession sp.sessionId
          let st2 := { st1 with
            svr := c.2
            syncStatus := st1.syncStatus.set storeId { sp with sessionId := UINT64_MAX } }
          let r := kvstore.setMode StoreMode.READ_WRITE
          let st3 := { st2 with svr := st2.svr.putStore storeId r.2 }
          if !r.1.ok then Run.ret (r.1, st3)
          else if ¬ (port = 0 ∧ sourceStoreId = 0) then Run.fatal
          else
            let newMeta1 := { newMeta with
              syncFromHost := ip
              syncFromPort := port
              syncFromId := (sourceStoreId : Int)
              replState := ReplState.REPL_NONE
              binlogId := TXNID_UNINITED }
            match changeReplStateInLock st3 newMeta1 true with
            | Run.ret st4 => Run.ret (Status.OK, st4)
            | Run.fatal => Run.fatal
            | Run.undefined => Run.undefined
    | _, _, _ => Run.undefined

/-! ## maxDumpFileSeq -/

/-- One entry met by `filesystem::recursive_directory_iterator(subpath)`: its
path, and whether `filesystem::is_regular_file` holds of it. -/
structure DirEntry where
  path : String
  isRegular : Bool
  deriving DecidableEq, Repr

/-- The method `std::string::substr(pos, len)`: the characters from `pos`, at most `len` of
them; `pos` beyond the end throws `std::out_of_range` (`none`). -/
def substr (s : List Char) (pos len : Nat) : Option (List Char) :=
  if pos > s.length then none else some ((s.drop pos).take len)

/-- Modelled from the spec: `::tendisplus::stoul` (declared in
`tendisplus/utils/string.h`), which reads "a decimal sequence number" into an
`Expected<uint64_t>`: the value of a non-empty run of decimal digits that fits
64 bits, and an error for any other text. -/
def stoul (s : List Char) : Expected Nat :=
  if s ≠ [] ∧ s.all Char.isDigit = true then
    let n := s.foldl (fun acc c => 10 * acc + (c.toNat - 48)) 0
    if n ≤ UINT64_MAX then Expected.ofValue n
    else Expected.ofStatus { code := ErrorCodes.ERR_DECODE, msg := "out of range" }
  else Expected.ofStatus { code := ErrorCodes.ERR_DECODE, msg := "invalid argument" }

/-- The inner loop of `maxDumpFileSeq` over `relative`, from index `i` with the
current `first` and `start`: counts the `-` characters, sets `start` after the
second one and stops with `end` at the third one. Returns `(start, end)`; `end`
keeps its initial `0` when there is no third `-`. -/
def scanDashes : List Char → Nat → Nat → Nat → Nat × Nat
  | [], _, _, start => (start, 0)
  | c :: cs, i, first, start =>
    if c = '-' then
      let first1 := first + 1
      let start1 := if first1 = 2 then i + 1 else start
      if first1 = 3 then (start1, i)
      else scanDashes cs (i + 1) first1 start1
    else scanDashes cs (i + 1) first start

/-- The text handed to `stoul` for one file: `relative.substr(start, end-start)`
with `start` and `end` from the inner loop; `end-start` is computed in
`size_t`. -/
def seqField (relative : List Char) : Option (List Char) :=
  let se := scanDashes relative 0 0 0
  substr relative se.1 ((se.2 + 2 ^ 64 - se.1) % 2 ^ 64)

/-- The `for` loop of `maxDumpFileSeq` over the directory entries, with the
current `maxFno`. An entry that is not a regular file is skipped. For a
regular file: the path must start with `subpath` (`INVARIANT`); the test
`relative.substr(0, 6) != "binlog"` only writes a log line, so the file is
parsed whatever its name; a thrown exception gives `ERR_INTERNAL`; when
`stoul` fails the code returns `fno.value()`; a number
`>= numeric_limits<uint32_t>::max()` gives `ERR_INTERNAL`; otherwise `maxFno`
becomes `max(maxFno, (uint32_t)fno.value())`. -/
def maxDumpFileSeqLoop (subpath : List Char) : Nat → List DirEntry → Run (Expected Nat)
  | maxFno, [] => Run.ret (Expected.ofValue maxFno)
  | maxFno, p :: rest =>
    if !p.isRegular then maxDumpFileSeqLoop subpath maxFno rest
    else if !(subpath.isPrefixOf p.path.toList) then Run.fatal
    else
      let relative := p.path.toList.drop subpath.length
      match seqField relative with
      | none =>
        Run.ret (Expected.ofStatus { code := ErrorCodes.ERR_INTERNAL, msg := "parse fileno failed" })
      | some field =>
        let fno := stoul field
        if !fno.ok then
          match fno.value with
          | Run.ret v => Run.ret (Expected.ofValue (v % 2 ^ 32))
          | Run.fatal => Run.fatal
          | Run.undefined => Run.undefined
        else
          match fno.value with
          | Run.ret v =>
            if v ≥ UINT32_MAX then
              Run.ret (Expected.ofStatus { code := ErrorCodes.ERR_INTERNAL, msg := "invalid fileno" })
            else maxDumpFileSeqLoop subpath (max maxFno (v % 2 ^ 32)) rest
          | Run.fatal => Run.fatal
          | Run.undefined => Run.undefined

/-- The method `ReplManager::maxDumpFileSeq(storeId)` on a dump directory that exists:
`listing` is what the directory iterator yields for
`subpath = _dumpPath + "/" + std::to_string(storeId)`. -/
def maxDumpFileSeq (dumpPath : String) (storeId : Nat) (listing : List DirEntry) :
    Run (Expected Nat) :=
  let subpath := dumpPath ++ "/" ++ toString storeId
  maxDumpFileSeqLoop subpath.toList 0 listing

/-- The directory entry `p` is a regular file under `subpath` whose sequence
field (`seqField` of its path relative to `subpath`) is read by `stoul` as the
number `n`: the file carries the sequence number `n`. -/
def CarriesSeq (subpath : List Char) (p : DirEntry) (n : Nat) : Prop :=
  p.isRegular = true ∧ subpath.isPrefixOf p.path.toList = true ∧
  ∃ field : List Char, seqField (p.path.toList.drop subpath.length) = some field ∧
    stoul field = Expected.ofValue n

/-! ## startup -/

/-- What `startup` takes from outside the manager: the clock, the number of
CPUs (`std::thread::hardware_concurrency()`), the answers of the five
`WorkerPool::startup` calls, `_dumpPath` with the listing of each store's
dump directory, and the pool sizes `INCR_POOL_SIZE` and `MAX_FULL_PARAL`. -/
structure StartupEnv where
  now : Nat := 0
  cpuNum : Nat := 1
  incrPusherStatus : Status := Status.OK
  fullPusherStatus : Status := Status.OK
  fullReceiverStatus : Status := Status.OK
  incrCheckerStatus : Status := Status.OK
  logRecyclerStatus : Status := Status.OK
  dumpPath : String := "dump"
  listings : List (List DirEntry) := []
  INCR_POOL_SIZE : Nat := 12
  MAX_FULL_PARAL : Nat := 4
  deriving DecidableEq, Repr

/-- The default meta `StoreMeta(i, "", 0, -1, TXNID_UNINITED, REPL_NONE)`. -/
def defaultMeta (TXNID_UNINITED : Nat) (i : Nat) : StoreMeta :=
  { id := i, syncFromHost := "", syncFromPort := 0, syncFromId := -1,
    binlogId := TXNID_UNINITED, replState := ReplState.REPL_NONE }

/-- The first loop of `startup`, over the store indices `i` still to do: the
meta of the catalog is appended to `_syncMeta`; on `ERR_NOTFOUND` the default
meta is persisted and appended, a failed persist returning its status; any
other read error is returned. `none` when the loop runs to its end. -/
def loadStoreMetas (TXNID_UNINITED : Nat) :
    List Nat → ReplManager → Run (Option Status × ReplManager)
  | [], st => Run.ret (none, st)
  | i :: rest, st =>
    let storeMeta := st.svr.catalog.getStoreMeta i
    if storeMeta.ok then
      match storeMeta.value with
      | Run.ret m =>
        loadStoreMetas TXNID_UNINITED rest { st with syncMeta := st.syncMeta ++ [m] }
      | Run.fatal => Run.fatal
      | Run.undefined => Run.undefined
    else if storeMeta.status.code = ErrorCodes.ERR_NOTFOUND then
      let pMeta := defaultMeta TXNID_UNINITED i
      let r := st.svr.catalog.setStoreMeta pMeta
      let st1 := { st with svr := { st.svr with catalog := r.2 } }
      if !r.1.ok then Run.ret (some r.1, st1)
      else loadStoreMetas TXNID_UNINITED rest { st1 with syncMeta := st1.syncMeta ++ [pMeta] }
    else Run.ret (some storeMeta.status, st)

/-- The second loop of `startup`, from index `i`: the first meta whose `id` is
not its index gives `ERR_INTERNAL` with the message
`"meta:" << i << " has id:" << id`. -/
def checkMetaIds : Nat → List StoreMeta → Option Status
  | _, [] => none
  | i, m :: rest =>
    if i ≠ m.id then
      some { code := ErrorCodes.ERR_INTERNAL,
             msg := "meta:" ++ toString i ++ " has id:" ++ toString m.id }
    else checkMetaIds (i + 1) rest

/-- Modelled from the spec: `WorkerPool::startup(size)` of the pool `name` (the
pools are external collaborators). The pool gives its answer and is running
when that answer is ok. -/
def startPool (st : ReplManager) (name : String) (size : Nat) (answer : Status) :
    Status × ReplManager :=
  if answer.ok then (answer, { st with pools := st.pools ++ [(name, size)] })
  else (answer, st)

/-- The body of the last loop of `startup` for store `i`: the store's mode is
set from its meta (the status of `setMode` is not looked at), the largest
dump file number is read, and the first binlog id is read through a binlog
cursor; the recycle status of the store is appended to `_logRecycStatus`.
`some s` when `startup` returns `s` from inside the body, `none` when the
loop goes on. -/
def initStore (TXNID_UNINITED : Nat) (env : StartupEnv) (i : Nat) (st : ReplManager) :
    Run (Option Status × ReplManager) :=
  let expdb := st.svr.getDb i
  if !expdb.ok then Run.fatal
  else
    match expdb.value, st.syncMeta[i]? with
    | Run.ret store0, some m =>
      let store :=
        if m.syncFromHost = "" then (store0.setMode StoreMode.READ_WRITE).2
        else (store0.setMode StoreMode.REPLICATE_ONLY).2
      let st1 := { st with svr := st.svr.putStore i store }
      match maxDumpFileSeq env.dumpPath i (env.listings.getD i []) with
      | Run.ret efileSeq =>
        if !efileSeq.ok then Run.ret (some efileSeq.status, st1)
        else
          match efileSeq.value with
          | Run.ret fileSeq =>
            let recBinlogStat : RecycleBinlogStatus :=
              { isRunning := false, nextSchedTime := env.now,
                firstBinlogId := TXNID_UNINITED, fileSeq := fileSeq,
                fileCreateTime := env.now, fileSize := 0, fs := none }
            let ptxn := store.createTransaction
            let st2 := { st1 with svr := st1.svr.putStore i ptxn.2 }
            if !ptxn.1.ok then Run.ret (some ptxn.1.status, st2)
            else
              match ptxn.1.value with
              | Run.ret txn =>
                let explog := txn.firstBinlog
                if explog.ok then
                  match explog.value with
                  | Run.ret txnId =>
                    Run.ret (none,
                      { st2 with
                        logRecycStatus := st2.logRecycStatus ++
                          [{ recBinlogStat with firstBinlogId := txnId }] })
                  | Run.fatal => Run.fatal
                  | Run.undefined => Run.undefined
                else if explog.status.code = ErrorCodes.ERR_EXHAUST then
                  Run.ret (none,
                    { st2 with
                      logRecycStatus := st2.logRecycStatus ++
                        [{ recBinlogStat with firstBinlogId := TXNID_UNINITED }] })
                else Run.ret (some explog.status, st2)
              | Run.fatal => Run.fatal
              | Run.undefined => Run.undefined
          | Run.fatal => Run.fatal
          | Run.undefined => Run.undefined
      | Run.fatal => Run.fatal
      | Run.undefined => Run.undefined
    | Run.fatal, _ => Run.fatal
    | _, _ => Run.undefined

/-- The last loop of `startup`, over the store indices still to do. `none` when
the loop runs to its end. -/
def initStores (TXNID_UNINITED : Nat) (env : StartupEnv) :
    List Nat → ReplManager → Run (Option Status × ReplManager)
  | [], st => Run.ret (none, st)
  | i :: rest, st =>
    match initStore TXNID_UNINITED env i st with
    | Run.ret (none, st1) => initStores TXNID_UNINITED env rest st1
    | Run.ret (some s, st1) => Run.ret (some s, st1)
    | Run.fatal => Run.fatal
    | Run.undefined => Run.undefined

/-- The part of `startup` from `_pushStatus` on: the push maps are created
empty, the stores are initialised, `INVARIANT(_logRecycStatus.size() ==
INSTANCE_NUM)`, and the controller is started. -/
def startupStores (TXNID_UNINITED INSTANCE_NUM : Nat) (env : StartupEnv) (st : ReplManager) :
    Run (Status × ReplManager) :=
  let st1 := { st with pushStatus := st.pushStatus ++ List.replicate INSTANCE_NUM [] }
  match initStores TXNID_UNINITED env (List.range INSTANCE_NUM) st1 with
  | Run.ret (some s, st2) => Run.ret (s, st2)
  | Run.ret (none, st2) =>
    if st2.logRecycStatus.length ≠ INSTANCE_NUM then Run.fatal
    else Run.ret (Status.OK, { st2 with isRunning := true, controller := true })
  | Run.fatal => Run.fatal
  | Run.undefined => Run.undefined

/-- The part of `startup` from the CPU count to the pools: no CPU gives
`ERR_INTERNAL`; the pools are started in the order `repl-minc`,
`repl-mfull`, `repl-sfull`, `repl-scheck`, `log-recyc`, a failed start
returning its status. -/
def startupPools (TXNID_UNINITED INSTANCE_NUM : Nat) (env : StartupEnv) (st : ReplManager) :
    Run (Status × ReplManager) :=
  if env.cpuNum = 0 then
    Run.ret ({ code := ErrorCodes.ERR_INTERNAL, msg := "cpu num cannot be detected" }, st)
  else
    let p1 := startPool st "repl-minc" env.INCR_POOL_SIZE env.incrPusherStatus
    if !p1.1.ok then Run.ret (p1.1, p1.2)
    else
      let p2 := startPool p1.2 "repl-mfull" env.MAX_FULL_PARAL env.fullPusherStatus
      if !p2.1.ok then Run.ret (p2.1, p2.2)
      else
        let p3 := startPool p2.2 "repl-sfull" env.MAX_FULL_PARAL env.fullReceiverStatus
        if !p3.1.ok then Run.ret (p3.1, p3.2)
        else
          let p4 := startPool p3.2 "repl-scheck" 2 env.incrCheckerStatus
          if !p4.1.ok then Run.ret (p4.1, p4.2)
          else
            let p5 := startPool p4.2 "log-recyc" env.INCR_POOL_SIZE env.logRecyclerStatus
            if !p5.1.ok then Run.ret (p5.1, p5.2)
            else startupStores TXNID_UNINITED INSTANCE_NUM env p5.2

/-- The method `ReplManager::startup`. `INSTANCE_NUM` is `KVStore::INSTANCE_NUM`
and `TXNID_UNINITED` is `Transaction::TXNID_UNINITED`. Returns the status and
the manager afterwards. -/
def startup (TXNID_UNINITED INSTANCE_NUM : Nat) (env : StartupEnv) (st : ReplManager) :
    Run (Status × ReplManager) :=
  match loadStoreMetas TXNID_UNINITED (List.range INSTANCE_NUM) st with
  | Run.ret (some s, st1) => Run.ret (s, st1)
  | Run.ret (none, st1) =>
    if st1.syncMeta.length ≠ INSTANCE_NUM then Run.fatal
    else
      match checkMetaIds 0 st1.syncMeta with
      | some s => Run.ret (s, st1)
      | none =>
        let st2 := { st1 with
          syncStatus := st1.syncStatus ++ List.replicate INSTANCE_NUM
            { isRunning := false, sessionId := UINT64_MAX, nextSchedTime := env.now,
              lastSyncTime := env.now } }
        startupPools TXNID_UNINITED INSTANCE_NUM env st2
  | Run.fatal => Run.fatal
  | Run.undefined => Run.undefined

/-- The method `ReplManager::changeReplState`: `changeReplStateInLock` under
the manager mutex. -/
def changeReplState (st : ReplManager) (storeMeta : StoreMeta) (persist : Bool) :
    Run ReplManager :=
  changeReplStateInLock st storeMeta persist

/-- The slot `i` of the catalog `c` loads: the read is ok and holds a meta, or
the read answers `ERR_NOTFOUND` and the catalog accepts the default meta. -/
def slotLoads (TXNID_UNINITED : Nat) (c : Catalog) (i : Nat) : Prop :=
  ((c.getStoreMeta i).ok = true ∧ (c.getStoreMeta i).data ≠ none) ∨
  ((c.getStoreMeta i).status.code = ErrorCodes.ERR_NOTFOUND ∧
    (c.setStoreMeta (defaultMeta TXNID_UNINITED i)).1.ok = true)

/-- The slot `i` of the catalog `c` fails: the read answers an error other than
`ERR_NOTFOUND`, or it answers `ERR_NOTFOUND` and the catalog refuses the
default meta. -/
def slotFails (TXNID_UNINITED : Nat) (c : Catalog) (i : Nat) : Prop :=
  (c.getStoreMeta i).ok = false ∧
  ((c.getStoreMeta i).status.code = ErrorCodes.ERR_NOTFOUND →
    (c.setStoreMeta (defaultMeta TXNID_UNINITED i)).1.ok = false)

/-- The error of a failing slot `i` of the catalog `c`: the status of the
refused persist after `ERR_NOTFOUND`, the status of the read otherwise. -/
def slotError (TXNID_UNINITED : Nat) (c : Catalog) (i : Nat) : Status :=
  if (c.getStoreMeta i).status.code = ErrorCodes.ERR_NOTFOUND then
    (c.setStoreMeta (defaultMeta TXNID_UNINITED i)).1
  else (c.getStoreMeta i).status

/-- The meta a loading slot `i` of the catalog `c` installs: the meta read, or
the default meta of `i` after `ERR_NOTFOUND`. -/
def installedMeta (TXNID_UNINITED : Nat) (c : Catalog) (i : Nat) : StoreMeta :=
  if (c.getStoreMeta i).ok then
    match (c.getStoreMeta i).data with
    | some m => m
    | none => defaultMeta TXNID_UNINITED i
  else defaultMeta TXNID_UNINITED i

/-- The invariant on the metas of a manager of `N` stores: there are `N` of
them and each sits in the slot of its `id`. -/
def MetaInv (N : Nat) (st : ReplManager) : Prop :=
  st.syncMeta.length = N ∧ ∀ (i : Nat) (m : StoreMeta), st.syncMeta[i]? = some m → m.id = i

/-! ## The controller scans -/

/-- A `for` loop over the elements of a vector, or the entries of a map, in
order, from index `i`. `body i a` is the loop body on element `a` at index
`i`: whether it set `doSth`, the element afterwards and the jobs it
scheduled. The loop gives whether `doSth` was set, the elements afterwards
and the jobs in scheduling order; it ends at the first body that does not
return. -/
def forEach {α : Type} (body : Nat → α → Run (Bool × α × List Job)) :
    Nat → List α → Run (Bool × List α × List Job)
  | _, [] => Run.ret (false, [], [])
  | i, a :: rest =>
    match body i a with
    | Run.ret r1 =>
      match forEach body (i + 1) rest with
      | Run.ret r2 => Run.ret (r1.1 || r2.1, r1.2.1 :: r2.2.1, r1.2.2 ++ r2.2.2)
      | Run.fatal => Run.fatal
      | Run.undefined => Run.undefined
    | Run.fatal => Run.fatal
    | Run.undefined => Run.undefined

/-- The body of the loop of `schedSlaveInLock` for store `i`, on
`_syncStatus[i]`. -/
def schedSlaveBody (syncMeta : List StoreMeta) (now : Nat) (i : Nat) (sp : SPovStatus) :
    Run (Bool × SPovStatus × List Job) :=
  if sp.isRunning || decide (now < sp.nextSchedTime) then Run.ret (false, sp, [])
  else
    match syncMeta[i]? with
    | none => Run.undefined
    | some m =>
      if m.replState = ReplState.REPL_NONE then Run.ret (false, sp, [])
      else if m.replState = ReplState.REPL_CONNECT then
        Run.ret (true, { sp with isRunning := true },
          [Job.slaveSyncRoutine Pool.fullReceiver i])
      else if m.replState = ReplState.REPL_CONNECTED then
        Run.ret (true, { sp with isRunning := true },
          [Job.slaveSyncRoutine Pool.incrChecker i])
      else if m.replState = ReplState.REPL_TRANSFER then Run.fatal
      else Run.ret (true, sp, [])

/-- The lambda `schedSlaveInLock(now)` of `controlRoutine`: `doSth`, the manager
afterwards and the jobs scheduled. -/
def schedSlaveInLock (st : ReplManager) (now : Nat) : Run (Bool × ReplManager × List Job) :=
  match forEach (schedSlaveBody st.syncMeta now) 0 st.syncStatus with
  | Run.ret r => Run.ret (r.1, { st with syncStatus := r.2.1 }, r.2.2)
  | Run.fatal => Run.fatal
  | Run.undefined => Run.undefined

/-- The body of the inner loop of `schedMasterInLock` for store `i`, on one
entry `mpov` of `_pushStatus[i]`. -/
def schedMasterEntry (now : Nat) (i : Nat) (_pos : Nat) (mpov : Nat × MPovStatus) :
    Run (Bool × (Nat × MPovStatus) × List Job) :=
  if mpov.2.isRunning || decide (now < mpov.2.nextSchedTime) then Run.ret (false, mpov, [])
  else
    let clientId := mpov.1
    Run.ret (true, (mpov.1, { mpov.2 with isRunning := true }),
      [Job.masterPushRoutine i clientId])

/-- The body of the outer loop of `schedMasterInLock` for store `i`: the inner
loop over the entries of `_pushStatus[i]`. -/
def schedMasterBody (now : Nat) (i : Nat) (m : List (Nat × MPovStatus)) :
    Run (Bool × List (Nat × MPovStatus) × List Job) :=
  forEach (schedMasterEntry now i) 0 m

/-- The lambda `schedMasterInLock(now)` of `controlRoutine`. -/
def schedMasterInLock (st : ReplManager) (now : Nat) : Run (Bool × ReplManager × List Job) :=
  match forEach (schedMasterBody now) 0 st.pushStatus with
  | Run.ret r => Run.ret (r.1, { st with pushStatus := r.2.1 }, r.2.2)
  | Run.fatal => Run.fatal
  | Run.undefined => Run.undefined

/-- The value of `endLogId` in `schedRecycLogInLock`: it starts as
`std::numeric_limits<uint64_t>::max()` and takes
`std::min(endLogId, mpov.second->binlogPos)` over the entries of
`_pushStatus[i]`. -/
def endLogIdOf (push : List (Nat × MPovStatus)) : Nat :=
  push.foldl (fun endLogId mpov => min endLogId mpov.2.binlogPos) UINT64_MAX

/-- The body of the loop of `schedRecycLogInLock` for store `i`, on
`_logRecycStatus[i]`. -/
def schedRecycLogBody (pushStatus : List (List (Nat × MPovStatus))) (now : Nat) (i : Nat)
    (r : RecycleBinlogStatus) : Run (Bool × RecycleBinlogStatus × List Job) :=
  if r.isRunning || decide (now < r.nextSchedTime) then Run.ret (false, r, [])
  else
    match pushStatus[i]? with
    | none => Run.undefined
    | some push =>
      let saveLogs := decide (push.length = 0)
      let endLogId := endLogIdOf push
      let oldFirstBinlog := r.firstBinlogId
      Run.ret (true, { r with isRunning := true },
        [Job.recycleBinlog i oldFirstBinlog endLogId saveLogs])

/-- The lambda `schedRecycLogInLock(now)` of `controlRoutine`. -/
def schedRecycLogInLock (st : ReplManager) (now : Nat) :
    Run (Bool × ReplManager × List Job) :=
  match forEach (schedRecycLogBody st.pushStatus now) 0 st.logRecycStatus with
  | Run.ret r => Run.ret (r.1, { st with logRecycStatus := r.2.1 }, r.2.2)
  | Run.fatal => Run.fatal
  | Run.undefined => Run.undefined

/-! ## recycleBinlog -/

/-- The duration `std::chrono::seconds(n)` in ticks of `SCLOCK`, taken as
nanoseconds. -/
def chronoSeconds (n : Nat) : Nat := n * 1000000000

/-- Modelled from the spec: `KVStore::getTruncateLog(start, end, txn)` (the store
engine is an external collaborator,
`getTruncateLog(start, end, txn) → (newStart, entries)`). The store gives its
answer. -/
def KVStore.getTruncateLog (kv : KVStore) (_start _endLogId : Nat) :
    Expected (Nat × List Nat) :=
  kv.truncateLog

/-- Modelled from the spec: `KVStore::truncateBinlog(entries, txn)` (the store
engine is an external collaborator, `truncateBinlog(entries, txn) → Status`).
The deletion is staged in the transaction and the store gives its answer. -/
def KVStore.truncateBinlog (kv : KVStore) (_entries : List Nat) : Status :=
  kv.truncateStatus

/-- Modelled from the spec: `Transaction::commit()` of a transaction in which
the deletion of `entries` is staged. The transaction gives its answer, and
the deletion is committed to the store when that answer is ok. -/
def KVStore.commitTruncate (kv : KVStore) (txn : Transaction) (entries : List Nat) :
    Expected Nat × KVStore :=
  if txn.commit.ok then (txn.commit, { kv with truncated := kv.truncated ++ [entries] })
  else (txn.commit, kv)

/-- Modelled from the spec: `ReplManager::saveBinlogs(storeId, entries)`, which
is defined outside the two files: it archives `entries` to a dump file of the
store and "any archival failure aborts truncation". The manager gives its
answer, and the batch is archived when that answer is ok. -/
def ReplManager.saveBinlogs (st : ReplManager) (storeId : Nat) (entries : List Nat) :
    Status × ReplManager :=
  if st.saveBinlogsStatus.ok then
    (st.saveBinlogsStatus, { st with savedBinlogs := st.savedBinlogs ++ [(storeId, entries)] })
  else (st.saveBinlogsStatus, st)

/-- The scope guard of `recycleBinlog`, run when the routine returns, with the
values `nextSched` and `start` have at that moment: `INVARIANT(v->isRunning)`,
then `isRunning = false`, `nextSchedTime = nextSched`,
`firstBinlogId = start`. -/
def recycleGuard (st : ReplManager) (storeId nextSched start : Nat) : Run ReplManager :=
  match st.logRecycStatus[storeId]? with
  | none => Run.undefined
  | some v =>
    if !v.isRunning then Run.fatal
    else
      Run.ret { st with
        logRecycStatus := st.logRecycStatus.set storeId
          { v with isRunning := false, nextSchedTime := nextSched, firstBinlogId := start } }

/-- The end of `recycleBinlog`, from `kvstore->truncateBinlog` on: a failed
truncation or a failed commit returns with `start` unchanged; after a
successful commit `start = toDel.value().first`. -/
def recycleTruncate (st : ReplManager) (kvstore : KVStore) (txn : Transaction)
    (storeId nextSched start : Nat) (toDel : Nat × List Nat) : Run ReplManager :=
  let s := kvstore.truncateBinlog toDel.2
  if !s.ok then recycleGuard st storeId nextSched start
  else
    let commitStat := kvstore.commitTruncate txn toDel.2
    let st1 := { st with svr := st.svr.putStore storeId commitStat.2 }
    if !commitStat.1.ok then recycleGuard st1 storeId nextSched start
    else recycleGuard st1 storeId nextSched toDel.1

/-- The method `ReplManager::recycleBinlog(storeId, start, end, saveLogs)`,
entered at time `now`. The local session and its `setArgsBrief` leave the
manager untouched. A failed `INVARIANT` aborts the process before the scope
guard runs; every `return` runs the guard. -/
def recycleBinlog (st : ReplManager) (now : Nat) (storeId start endLogId : Nat)
    (saveLogs : Bool) : Run ReplManager :=
  let nextSched := now
  let expdb := st.svr.getDb storeId
  if !expdb.ok then Run.fatal
  else
    match expdb.value with
    | Run.fatal => Run.fatal
    | Run.undefined => Run.undefined
    | Run.ret kvstore0 =>
      let ptxn := kvstore0.createTransaction
      let kvstore := ptxn.2
      let st1 := { st with svr := st.svr.putStore storeId kvstore }
      if !ptxn.1.ok then recycleGuard st1 storeId nextSched start
      else
        match ptxn.1.value with
        | Run.fatal => Run.fatal
        | Run.undefined => Run.undefined
        | Run.ret txn =>
          let toDel := kvstore.getTruncateLog start endLogId
          if !toDel.ok then recycleGuard st1 storeId nextSched start
          else
            match toDel.value with
            | Run.fatal => Run.fatal
            | Run.undefined => Run.undefined
            | Run.ret td =>
              if start = td.1 then
                if td.2.length ≠ 0 then Run.fatal
                else recycleGuard st1 storeId (nextSched + chronoSeconds 1) start
              else if saveLogs then
                let s := st1.saveBinlogs storeId td.2
                if !s.1.ok then recycleGuard s.2 storeId nextSched start
                else recycleTruncate s.2 kvstore txn storeId nextSched start td
              else recycleTruncate st1 kvstore txn storeId nextSched start td

/-- Whether a call `recycleBinlog(storeId, start, end, saveLogs)` on the store
`kv` finds nothing to truncate: the transaction is created, `getTruncateLog`
answers, and its new start is `start`. -/
def recycleNothingToDo (kv : KVStore) (start : Nat) : Bool :=
  kv.createTxn.ok && kv.truncateLog.ok &&
    (match kv.truncateLog.data with
     | some td => decide (td.1 = start)
     | none => false)

/-- Whether a call `recycleBinlog(storeId, start, end, saveLogs)` on the store
`kv` commits a truncation: the transaction is created, `getTruncateLog`
answers with a new start other than `start`, the archival (when asked for)
succeeds, `truncateBinlog` succeeds and the commit succeeds. -/
def recycleCommits (st : ReplManager) (kv : KVStore) (start : Nat) (saveLogs : Bool) : Bool :=
  kv.createTxn.ok && kv.truncateLog.ok &&
    (match kv.truncateLog.data with
     | some td => decide (td.1 ≠ start)
     | none => false) &&
    (!saveLogs || st.saveBinlogsStatus.ok) && kv.truncateStatus.ok &&
    (match kv.createTxn.data with
     | some txn => txn.commit.ok
     | none => false)

/-- What a job runs on: the slave routine of a store, the push routine of a
`(store, client)` pair, or the recycler of a store. -/
inductive Subject where
  | slave (storeId : Nat)
  | master (storeId : Nat) (clientId : Nat)
  | recycle (storeId : Nat)
  deriving DecidableEq, Repr

/-- The subject a job runs on. -/
def Job.subject : Job → Subject
  | Job.slaveSyncRoutine _ i => Subject.slave i
  | Job.masterPushRoutine i c => Subject.master i c
  | Job.recycleBinlog i _ _ _ => Subject.recycle i

/-- The `isRunning` flag of a subject: `_syncStatus[i]->isRunning`,
`_pushStatus[i][clientId]->isRunning` or `_logRecycStatus[i]->isRunning`;
`none` when the manager has no status for the subject. -/
def ReplManager.isRunningOf (st : ReplManager) : Subject → Option Bool
  | Subject.slave i =>
    match st.syncStatus[i]? with
    | some sp => some sp.isRunning
    | none => none
  | Subject.master i c =>
    match st.pushStatus[i]? with
    | some m =>
      match mapFind m c with
      | some mpov => some mpov.isRunning
      | none => none
    | none => none
  | Subject.recycle i =>
    match st.logRecycStatus[i]? with
    | some r => some r.isRunning
    | none => none

/-- A map has one entry per key: the client ids of every `_pushStatus[i]` are
pairwise distinct. -/
def ReplManager.pushKeysDistinct (st : ReplManager) : Prop :=
  ∀ m ∈ st.pushStatus, (m.map Prod.fst).Nodup

/-- The property of a scan on the manager `st` at time `now`. When the scan
returns:
* no two jobs it scheduled run on the same subject;
* every job it scheduled runs on a subject whose `isRunning` flag was false
  before the scan and is true after it;
* the `isRunning` flag of every subject it scheduled no job on is what it was
  before the scan;
* a second run of the scan, at any time, on the manager the first run left,
  schedules no job on a subject of a job of the first run. -/
def DispatchesOnlyIdle (scan : ReplManager → Nat → Run (Bool × ReplManager × List Job))
    (st : ReplManager) (now : Nat) : Prop :=
  ∀ d st1 jobs, scan st now = Run.ret (d, st1, jobs) →
    (jobs.map Job.subject).Nodup ∧
    (∀ job ∈ jobs,
      st.isRunningOf job.subject = some false ∧ st1.isRunningOf job.subject = some true) ∧
    (∀ sub, sub ∉ jobs.map Job.subject → st1.isRunningOf sub = st.isRunningOf sub) ∧
    (∀ now2 d2 st2 jobs2, scan st1 now2 = Run.ret (d2, st2, jobs2) →
      ∀ job ∈ jobs, ∀ job2 ∈ jobs2, job2.subject ≠ job.subject)

/-- The three scans of `controlRoutine`. -/
def controllerScans : List (ReplManager → Nat → Run (Bool × ReplManager × List Job)) :=
  [schedSlaveInLock, schedMasterInLock, schedRecycLogInLock]

/-- The manager together with the workers: the jobs the controller has handed
to the pools and that have not ended yet. -/
structure Dispatch where
  mgr : ReplManager
  workers : List Job

/-- One step of the manager, as far as the dispatch of workers is concerned.
* `slaveScan`, `masterScan`, `recycleScan`: the controller runs one of its
  scans, and the jobs it schedules become workers.
* `complete`: modelled from the spec ("the worker sets it true before enqueue
  and clears it on completion via a scope-guarded release"; of the worker
  routines only `recycleBinlog` is in the two files): a worker ends; its own
  flag is released, or its status is torn down, and the flags of the
  subjects of the other workers are left alone.
* `other`: anything that leaves the flags of the subjects of the workers
  alone.
The push maps are `std::map`s, so they have one entry per client id after
every step. -/
inductive DispatchStep : Dispatch → Dispatch → Prop where
  | slaveScan (s : Dispatch) (now : Nat) (d : Bool) (mgr1 : ReplManager) (jobs : List Job) :
      schedSlaveInLock s.mgr now = Run.ret (d, mgr1, jobs) →
      DispatchStep s { mgr := mgr1, workers := s.workers ++ jobs }
  | masterScan (s : Dispatch) (now : Nat) (d : Bool) (mgr1 : ReplManager) (jobs : List Job) :
      schedMasterInLock s.mgr now = Run.ret (d, mgr1, jobs) →
      DispatchStep s { mgr := mgr1, workers := s.workers ++ jobs }
  | recycleScan (s : Dispatch) (now : Nat) (d : Bool) (mgr1 : ReplManager) (jobs : List Job) :
      schedRecycLogInLock s.mgr now = Run.ret (d, mgr1, jobs) →
      DispatchStep s { mgr := mgr1, workers := s.workers ++ jobs }
  | complete (s : Dispatch) (job : Job) (mgr1 : ReplManager) :
      job ∈ s.workers → mgr1.pushKeysDistinct →
      mgr1.isRunningOf job.subject ≠ some true →
      (∀ w ∈ s.workers.erase job, mgr1.isRunningOf w.subject = s.mgr.isRunningOf w.subject) →
      DispatchStep s { mgr := mgr1, workers := s.workers.erase job }
  | other (s : Dispatch) (mgr1 : ReplManager) :
      mgr1.pushKeysDistinct →
      (∀ w ∈ s.workers, mgr1.isRunningOf w.subject = s.mgr.isRunningOf w.subject) →
      DispatchStep s { mgr := mgr1, workers := s.workers }

/-- The state `s1` is reached from `s` by any number of dispatch steps. -/
def DispatchReach (s s1 : Dispatch) : Prop :=
  Relation.ReflTransGen DispatchStep s s1

/-- The meta `cur` after a source change: source fields, replication state and
binlog id replaced, `id` kept. -/
def StoreMeta.withSource (cur : StoreMeta) (host : String) (port : Nat) (fromId : Int)
    (state : ReplState) (binlogId : Nat) : StoreMeta :=
  { cur with
    syncFromHost := host
    syncFromPort := port
    syncFromId := fromId
    replState := state
    binlogId := binlogId }

/-! ## The life of the recycle statuses -/

/-- The store a job is for. -/
def Job.storeId : Job → Nat
  | Job.slaveSyncRoutine _ i => i
  | Job.masterPushRoutine i _ => i
  | Job.recycleBinlog i _ _ _ => i

/-- The manager together with the recycle jobs that the scans have handed to
the pool `log-recyc` and that have not run yet. -/
structure Sys where
  mgr : ReplManager
  jobs : List Job

/-- The store of `storeId` answers `getTruncateLog(start, end)` within its
bounds: whenever it answers with a new start, `start ≤ newStart ≤ end`. -/
def TruncateLogWithin (st : ReplManager) (storeId start endLogId : Nat) : Prop :=
  ∀ (kv : KVStore) (td : Nat × List Nat), (st.svr.getDb storeId).value = Run.ret kv →
    (kv.createTransaction.2.getTruncateLog start endLogId).value = Run.ret td →
    start ≤ td.1 ∧ td.1 ≤ endLogId

/-- Modelled from the spec: what master pushes do to `_pushStatus`
(`masterPushRoutine` is defined outside the two files): "on success advances
`binlogPos` to the last delivered id + 1", "on transport error, tears down
the `MPovStatus` entry", "releases the `isRunning` flag and sets
`nextSchedTime`". Every entry afterwards is an entry of the same store and
client before, whose `binlogPos` has not gone back; no map is added or
removed. -/
def PushAdvances (old new : List (List (Nat × MPovStatus))) : Prop :=
  new.length = old.length ∧
  ∀ (i : Nat) (l1 : List (Nat × MPovStatus)), new[i]? = some l1 →
    ∃ l0, old[i]? = some l0 ∧
      ∀ e1 ∈ l1, ∃ e0 ∈ l0, e0.1 = e1.1 ∧ e0.2.binlogPos ≤ e1.2.binlogPos

/-- One step of the manager, as far as the recycle statuses are concerned.
* `scan`: the controller runs `schedRecycLogInLock`, and the jobs it schedules
  wait in the pool.
* `complete`: a waiting `recycleBinlog` job runs to its end, on a store that
  answers `getTruncateLog` within its bounds.
* `push`: master pushes advance `binlogPos`.
* `other`: anything that leaves `_logRecycStatus` and `_pushStatus` alone
  (writes to the stores, the slave side, `changeReplSource`). -/
inductive Step : Sys → Sys → Prop where
  | scan (s : Sys) (now : Nat) (d : Bool) (mgr1 : ReplManager) (jobs : List Job) :
      schedRecycLogInLock s.mgr now = Run.ret (d, mgr1, jobs) →
      Step s { mgr := mgr1, jobs := s.jobs ++ jobs }
  | complete (s : Sys) (now storeId start endLogId : Nat) (saveLogs : Bool)
      (mgr1 : ReplManager) :
      Job.recycleBinlog storeId start endLogId saveLogs ∈ s.jobs →
      TruncateLogWithin s.mgr storeId start endLogId →
      recycleBinlog s.mgr now storeId start endLogId saveLogs = Run.ret mgr1 →
      Step s { mgr := mgr1,
               jobs := s.jobs.erase (Job.recycleBinlog storeId start endLogId saveLogs) }
  | push (s : Sys) (pushStatus1 : List (List (Nat × MPovStatus))) :
      PushAdvances s.mgr.pushStatus pushStatus1 →
      Step s { mgr := { s.mgr with pushStatus := pushStatus1 }, jobs := s.jobs }
  | other (s : Sys) (mgr1 : ReplManager) :
      mgr1.logRecycStatus = s.mgr.logRecycStatus → mgr1.pushStatus = s.mgr.pushStatus →
      Step s { mgr := mgr1, jobs := s.jobs }

/-- The state `s1` is reached from `s` by any number of steps. -/
def Reach (s s1 : Sys) : Prop :=
  Relation.ReflTransGen Step s s1

/-- The `firstBinlogId` of every store is at most every `binlogPos` of the
store. -/
def BoundedByPush (st : ReplManager) : Prop :=
  ∀ (i : Nat) (r : RecycleBinlogStatus) (l : List (Nat × MPovStatus)),
    st.logRecycStatus[i]? = some r → st.pushStatus[i]? = some l →
    ∀ e ∈ l, r.firstBinlogId ≤ e.2.binlogPos

/-- A state the manager starts from: no recycle job waits, no recycler is
running, and `firstBinlogId` is at most every `binlogPos`. -/
def Sys.Initial (s : Sys) : Prop :=
  s.jobs = [] ∧ (∀ r ∈ s.mgr.logRecycStatus, r.isRunning = false) ∧ BoundedByPush s.mgr

/-- No `firstBinlogId` of `a` is larger in `b`: every store with a recycle
status in `a` has one in `b`, with a `firstBinlogId` at least as large. -/
def FirstBinlogLe (a b : ReplManager) : Prop :=
  ∀ (i : Nat) (r : RecycleBinlogStatus), a.logRecycStatus[i]? = some r →
    ∃ r1, b.logRecycStatus[i]? = some r1 ∧ r.firstBinlogId ≤ r1.firstBinlogId

/-- The invariant of the steps: `firstBinlogId` is at most every `binlogPos`;
every waiting job is `recycleBinlog(i, start, end, _)` for a store `i` whose
recycler is marked running, with `start` the store's `firstBinlogId` and
`end` at most every `binlogPos` of the store; and no two waiting jobs are
for the same store. -/
def Sys.Inv (s : Sys) : Prop :=
  BoundedByPush s.mgr ∧
  (∀ job ∈ s.jobs, ∃ r, s.mgr.logRecycStatus[job.storeId]? = some r ∧ r.isRunning = true ∧
    ∃ e sl, job = Job.recycleBinlog job.storeId r.firstBinlogId e sl ∧
      ∀ l, s.mgr.pushStatus[job.storeId]? = some l → ∀ x ∈ l, e ≤ x.2.binlogPos) ∧
  (s.jobs.map Job.storeId).Nodup

/-! ## Concrete sessions used as examples -/

/-- A transaction whose commit and rollback both succeed. -/
def txnGood (i : Nat) : Transaction :=
  { id := i, commit := Expected.ofValue i, rollback := Status.OK }

/-- A transaction whose commit and rollback both fail. -/
def txnBad (i : Nat) : Transaction :=
  { id := i
    commit := Expected.ofStatus { code := ErrorCodes.ERR_INTERNAL, msg := "commit failed" }
    rollback := { code := ErrorCodes.ERR_INTERNAL, msg := "rollback failed" } }

/-- A session with open transactions on stores 0, 1 and 2, the middle one
failing. -/
def sessionMiddleFails : SessionCtx :=
  { txnMap := [(0, txnGood 10), (1, txnBad 11), (2, txnGood 12)] }

/-- A session with open transactions on stores 0 and 1, the first one
failing. -/
def sessionFirstFails : SessionCtx :=
  { txnMap := [(0, txnBad 10), (1, txnGood 11)] }

/-- A session that holds a transaction for store 0 only. -/
def sessionOneTxn : SessionCtx :=
  { txnMap := [(0, txnGood 10)] }

/-- Store 1, able to create the transaction `txnGood 11`. -/
def storeCreates : KVStore :=
  { dbId := 1, createTxn := Expected.ofValue (txnGood 11) }

/-- Store 1, unable to create a transaction. -/
def storeRefuses : KVStore :=
  { dbId := 1
    createTxn := Expected.ofStatus { code := ErrorCodes.ERR_BUSY, msg := "no txn" } }

/-- Store 0, for which `sessionOneTxn` already holds a transaction. -/
def storeHeld : KVStore :=
  { dbId := 0, createTxn := Expected.ofValue (txnGood 99) }

/-- A numbering of the lock modes: weaker modes have smaller values. -/
def lockModeValue : LockMode → Nat
  | LockMode.LOCK_NONE => 0
  | LockMode.LOCK_IS => 1
  | LockMode.LOCK_IX => 2
  | LockMode.LOCK_S => 3
  | LockMode.LOCK_X => 4

/-- A session that holds the locks 7 and 8, in that order. -/
def sessionTwoLocks : SessionCtx :=
  { locks := [7, 8] }

/-- A session whose key lock map holds `a` in mode `LOCK_S` and `b` in mode
`LOCK_X`. -/
def sessionTwoKeys : SessionCtx :=
  { keylockmap := [("a", LockMode.LOCK_S), ("b", LockMode.LOCK_X)] }

/-- Store 2, able to create a transaction whose commit and rollback fail. -/
def storeCreatesBad : KVStore :=
  { dbId := 2, createTxn := Expected.ofValue (txnBad 12) }

/-- A session whose brief arguments already hold eight entries. -/
def sessionEightArgs : SessionCtx :=
  { argsBrief := ["set", "a", "b", "c", "d", "e", "f", "g"] }

/-! ## Concrete managers used as examples -/

/-- The meta of store `i` with no source, as `startup` builds it (with
`TXNID_UNINITED` taken as `0`). -/
def metaNoSource (i : Nat) : StoreMeta :=
  { id := i, syncFromHost := "", syncFromPort := 0, syncFromId := -1, binlogId := 0,
    replState := ReplState.REPL_NONE }

/-- The meta of store `i` replicating from `10.0.0.1:7000`, store 5. -/
def metaWithSource (i : Nat) : StoreMeta :=
  { id := i, syncFromHost := "10.0.0.1", syncFromPort := 7000, syncFromId := 5, binlogId := 77,
    replState := ReplState.REPL_CONNECTED }

/-- A slave status that is not running and has no session. -/
def spovIdle : SPovStatus :=
  { isRunning := false, sessionId := UINT64_MAX }

/-- Four stores, none with a source, none running (scenario S2 before the
call). -/
def managerIdle : ReplManager :=
  { svr := { stores := [{ dbId := 0 }, { dbId := 1 }, { dbId := 2 }, { dbId := 3 }] }
    syncMeta := [metaNoSource 0, metaNoSource 1, metaNoSource 2, metaNoSource 3]
    syncStatus := [spovIdle, spovIdle, spovIdle, spovIdle] }

/-- As `managerIdle`, but store 2 refuses to change its mode. -/
def managerModeRefused : ReplManager :=
  { managerIdle with
    svr := { stores := [{ dbId := 0 }, { dbId := 1 },
      { dbId := 2, setModeStatus := { code := ErrorCodes.ERR_INTERNAL, msg := "setMode failed" } },
      { dbId := 3 }] } }

/-- As `managerIdle`, but the catalog refuses a meta of store 2. -/
def managerCatalogRefuses : ReplManager :=
  { managerIdle with
    svr := { managerIdle.svr with
      catalog := { setAnswer := [(2, { code := ErrorCodes.ERR_INTERNAL, msg := "write failed" })] } } }

/-- Four stores, store 2 replicating from `10.0.0.1:7000` through session 42 and
not running (scenario S3 before the call). -/
def managerSlave : ReplManager :=
  { svr := { stores := [{ dbId := 0 }, { dbId := 1 },
      { dbId := 2, mode := StoreMode.REPLICATE_ONLY }, { dbId := 3 }] }
    syncMeta := [metaNoSource 0, metaNoSource 1, metaWithSource 2, metaNoSource 3]
    syncStatus := [spovIdle, spovIdle, { isRunning := false, sessionId := 42 }, spovIdle] }

/-- As `managerSlave`, but store 2 refuses to change its mode. -/
def managerSlaveModeRefused : ReplManager :=
  { managerSlave with
    svr := { stores := [{ dbId := 0 }, { dbId := 1 },
      { dbId := 2, mode := StoreMode.REPLICATE_ONLY,
        setModeStatus := { code := ErrorCodes.ERR_INTERNAL, msg := "setMode failed" } },
      { dbId := 3 }] } }

/-- As `managerSlave`, but the catalog refuses a meta of store 2. -/
def managerSlaveCatalogRefuses : ReplManager :=
  { managerSlave with
    svr := { managerSlave.svr with
      catalog := { setAnswer := [(2, { code := ErrorCodes.ERR_INTERNAL, msg := "write failed" })] } } }

/-- As `managerSlave`, but the server answers the cancel request with an
error. -/
def managerSlaveCancelFails : ReplManager :=
  { managerSlave with
    svr := { managerSlave.svr with
      cancelStatus := { code := ErrorCodes.ERR_NOTFOUND, msg := "session not found" } } }

/-- As `managerSlave`, but the slave routine of store 2 is running. -/
def managerSlaveRunning : ReplManager :=
  { managerSlave with
    syncStatus := [spovIdle, spovIdle, { isRunning := true, sessionId := 42 }, spovIdle] }

/-- The manager `managerSlave` after the source of store 2 has been cleared
(with `TXNID_UNINITED` taken as `0`). -/
def managerSlaveCleared : ReplManager :=
  { svr := {
      stores := [{ dbId := 0 }, { dbId := 1 }, { dbId := 2 }, { dbId := 3 }]
      catalog := {
        setCalls := [{ id := 2, syncFromHost := "", syncFromPort := 0, syncFromId := 0,
                       binlogId := 0, replState := ReplState.REPL_NONE }] }
      cancelled := [42] }
    syncMeta := [metaNoSource 0, metaNoSource 1,
      { id := 2, syncFromHost := "", syncFromPort := 0, syncFromId := 0, binlogId := 0,
        replState := ReplState.REPL_NONE },
      metaNoSource 3]
    syncStatus := [spovIdle, spovIdle, spovIdle, spovIdle] }

/-- The meta of store `i` in replication state `state`, with a source. -/
def metaInState (i : Nat) (state : ReplState) : StoreMeta :=
  { id := i, syncFromHost := "10.0.0.1", syncFromPort := 7000, syncFromId := 5, binlogId := 77,
    replState := state }

/-- A manager of three stores seen by the controller at time 100.
Slave side: store 0 is in `CONNECT` and due, store 1 is in `CONNECTED` and
running, store 2 has no source. Master side: store 0 has the clients 5 and 6
at binlog positions 50 and 80, both due; store 2 has client 9, running.
Recycler: store 0 is due with `firstBinlogId = 10`, store 1 is due with
`firstBinlogId = 20`, store 2 is not due before time 200. -/
def managerScan : ReplManager :=
  { svr := { stores := [{ dbId := 0 }, { dbId := 1 }, { dbId := 2 }] }
    syncMeta := [metaInState 0 ReplState.REPL_CONNECT, metaInState 1 ReplState.REPL_CONNECTED,
      metaNoSource 2]
    syncStatus := [{ isRunning := false, sessionId := 1 }, { isRunning := true, sessionId := 2 },
      spovIdle]
    pushStatus := [[(5, { isRunning := false, binlogPos := 50, clientId := 5 }),
        (6, { isRunning := false, binlogPos := 80, clientId := 6 })],
      [],
      [(9, { isRunning := true, binlogPos := 30, clientId := 9 })]]
    logRecycStatus := [{ isRunning := false, firstBinlogId := 10 },
      { isRunning := false, firstBinlogId := 20 },
      { isRunning := false, firstBinlogId := 5, nextSchedTime := 200 }] }

/-- A manager of one store whose recycler has been dispatched with
`firstBinlogId = 100`; `kv` is the store. -/
def managerRecycling (kv : KVStore) : ReplManager :=
  { svr := { stores := [kv] }
    syncMeta := [metaNoSource 0]
    syncStatus := [spovIdle]
    pushStatus := [[]]
    logRecycStatus := [{ isRunning := true, firstBinlogId := 100 }] }

/-- A store that reports nothing to truncate from 100 (scenario S5). -/
def storeNothingToTruncate : KVStore :=
  { dbId := 0, createTxn := Expected.ofValue (txnGood 1),
    truncateLog := Expected.ofValue (100, []) }

/-- A store that reports the entries 100 to 149 as truncatable, with new start
150, and whose transaction commits. -/
def storeTruncates : KVStore :=
  { dbId := 0, createTxn := Expected.ofValue (txnGood 1),
    truncateLog := Expected.ofValue (150, List.range' 100 50) }

/-- As `storeTruncates`, but the commit of the transaction fails. -/
def storeCommitFails : KVStore :=
  { dbId := 0, createTxn := Expected.ofValue (txnBad 1),
    truncateLog := Expected.ofValue (150, List.range' 100 50) }

/-- A server with four stores whose binlogs are empty, and a catalog that holds
no meta (scenario S1). -/
def serverFresh : ServerEntry :=
  { stores := [{ dbId := 0, createTxn := Expected.ofValue (txnGood 1) },
      { dbId := 1, createTxn := Expected.ofValue (txnGood 2) },
      { dbId := 2, createTxn := Expected.ofValue (txnGood 3) },
      { dbId := 3, createTxn := Expected.ofValue (txnGood 4) }] }

/-- As `serverFresh`, but the catalog holds the meta `metaWithSource 1` for
store 1 and answers the read of store 2 with an error. -/
def serverReadError : ServerEntry :=
  { serverFresh with
    catalog := {
      metas := [(1, Expected.ofValue (metaWithSource 1)),
        (2, Expected.ofStatus { code := ErrorCodes.ERR_NETWORK, msg := "read failed" })] } }

/-- As `serverFresh`, but the catalog holds the meta `metaWithSource 1` for
store 1 and refuses to persist a meta of store 2. -/
def serverPersistError : ServerEntry :=
  { serverFresh with
    catalog := {
      metas := [(1, Expected.ofValue (metaWithSource 1))]
      setAnswer := [(2, { code := ErrorCodes.ERR_INTERNAL, msg := "write failed" })] } }

/-- As `serverFresh`, but the catalog holds for store 1 a meta whose id is 3. -/
def serverWrongId : ServerEntry :=
  { serverFresh with
    catalog := { metas := [(1, Expected.ofValue (metaWithSource 3))] } }

/-- As `serverFresh`, but the catalog holds the meta `metaWithSource 1` for
store 1. -/
def serverOneMeta : ServerEntry :=
  { serverFresh with
    catalog := { metas := [(1, Expected.ofValue (metaWithSource 1))] } }

/-- As `managerScan`, but store 0 creates transactions that commit and reports
the entries 10 to 39 as truncatable, with new start 40. -/
def managerTruncating : ReplManager :=
  { managerScan with
    svr := { stores := [{ dbId := 0, createTxn := Expected.ofValue (txnGood 1),
                          truncateLog := Expected.ofValue (40, List.range' 10 30) },
                        { dbId := 1 }, { dbId := 2 }] } }

/-- The manager `managerTruncating` after the recycle scan at time 100: the
recyclers of the stores 0 and 1 are marked running. -/
def managerTruncatingScanned : ReplManager :=
  { managerTruncating with
    logRecycStatus := [{ isRunning := true, firstBinlogId := 10 },
      { isRunning := true, firstBinlogId := 20 },
      { isRunning := false, firstBinlogId := 5, nextSchedTime := 200 }] }

/-- The manager `managerTruncatingScanned` after `recycleBinlog(0, 10, 50, false)`
has run at time 150: the entries 10 to 39 of store 0 are truncated and its
`firstBinlogId` is 40. -/
def managerTruncated : ReplManager :=
  { managerTruncatingScanned with
    svr := { stores := [{ dbId := 0, createTxn := Expected.ofValue (txnGood 1),
                          truncateLog := Expected.ofValue (40, List.range' 10 30),
                          txnCreated := 1, truncated := [List.range' 10 30] },
                        { dbId := 1 }, { dbId := 2 }] }
    logRecycStatus := [{ isRunning := false, firstBinlogId := 40, nextSchedTime := 150 },
      { isRunning := true, firstBinlogId := 20 },
      { isRunning := false, firstBinlogId := 5, nextSchedTime := 200 }] }

/-- As `managerScan`, but no slave routine is running: store 0 is in `CONNECT`,
store 1 in `CONNECTED`, both due at time 100, and store 2 has no source. -/
def managerScanIdle : ReplManager :=
  { managerScan with
    syncStatus := [{ isRunning := false, sessionId := 1 }, { isRunning := false, sessionId := 2 },
      spovIdle] }

/-- As `managerScanIdle`, but store 1 is in `TRANSFER`. -/
def managerScanTransfer : ReplManager :=
  { managerScanIdle with
    syncMeta := [metaInState 0 ReplState.REPL_CONNECT, metaInState 1 ReplState.REPL_TRANSFER,
      metaNoSource 2] }

/-- As `managerIdle`, but the meta of store 3 is missing: `_syncStatus` has four
entries and `_syncMeta` three. -/
def managerMetaMissing : ReplManager :=
  { managerIdle with syncMeta := [metaNoSource 0, metaNoSource 1, metaNoSource 2] }

/-- The manager `managerScan` after the three scans at time 100: the slave
routine of store 0, the push routines of the clients 5 and 6 of store 0 and
the recyclers of the stores 0 and 1 are marked running. -/
def managerScanned : ReplManager :=
  { managerScan with
    syncStatus := [{ isRunning := true, sessionId := 1 }, { isRunning := true, sessionId := 2 },
      spovIdle]
    pushStatus := [[(5, { isRunning := true, binlogPos := 50, clientId := 5 }),
        (6, { isRunning := true, binlogPos := 80, clientId := 6 })],
      [],
      [(9, { isRunning := true, binlogPos := 30, clientId := 9 })]]
    logRecycStatus := [{ isRunning := true, firstBinlogId := 10 },
      { isRunning := true, firstBinlogId := 20 },
      { isRunning := false, firstBinlogId := 5, nextSchedTime := 200 }] }

/-! # Properties -/

/-! ## commitAll and rollbackAll -/

theorem commitFold_calls (l : List (Nat × Transaction)) (acc : Status × List Nat) :
    (l.foldl commitStep acc).2 = acc.2 ++ l.map Prod.fst := by
  induction l generalizing acc with
  | nil => simp
  | cons e rest ih =>
    rw [List.foldl_cons, ih]
    by_cases h : e.2.commit.ok = true <;> simp [commitStep, h]

theorem commitFold_all_ok (l : List (Nat × Transaction)) (acc : Status × List Nat)
    (h : ∀ e ∈ l, e.2.commit.ok = true) : (l.foldl commitStep acc).1 = acc.1 := by
  induction l generalizing acc with
  | nil => rfl
  | cons e rest ih =>
    rw [List.foldl_cons, ih _ (fun x hx => h x (List.mem_cons_of_mem _ hx))]
    have he := h e (List.mem_cons_self _ _)
    simp [commitStep, he]

theorem commitFold_ok_iff (l : List (Nat × Transaction)) (acc : Status × List Nat) :
    (l.foldl commitStep acc).1.ok = true ↔
      acc.1.ok = true ∧ ∀ e ∈ l, e.2.commit.ok = true := by
  induction l generalizing acc with
  | nil => simp
  | cons e rest ih =>
    rw [List.foldl_cons, ih]
    by_cases he : e.2.commit.ok = true
    · simp [commitStep, he]
    · have hs : e.2.commit.status.ok = false := by
        simpa [Expected.ok] using he
      simp [commitStep, he, hs]

theorem commitFold_last_failure (pre post : List (Nat × Transaction)) (e : Nat × Transaction)
    (acc : Status × List Nat) (he : e.2.commit.ok = false)
    (hpost : ∀ x ∈ post, x.2.commit.ok = true) :
    ((pre ++ e :: post).foldl commitStep acc).1 = e.2.commit.status := by
  rw [List.foldl_append, List.foldl_cons, commitFold_all_ok _ _ hpost]
  simp [commitStep, he]

/-- C1. `commitAll` calls `commit()` once for every entry of the transaction
map, in iteration order, whatever the earlier commits answered; the returned
status is OK exactly when every commit was ok; and when a commit fails and
all the commits after it succeed, the returned status is that commit's
error. -/
theorem commitAll_commits_every_txn (ctx : SessionCtx) (cmd : String) :
    (commitAll ctx cmd).calls = ctx.txnMap.map Prod.fst ∧
    ((commitAll ctx cmd).status.ok = true ↔ ∀ e ∈ ctx.txnMap, e.2.commit.ok = true) ∧
    (∀ pre post e, ctx.txnMap = pre ++ e :: post → e.2.commit.ok = false →
      (∀ x ∈ post, x.2.commit.ok = true) →
      (commitAll ctx cmd).status = e.2.commit.status) := by
  refine ⟨?_, ?_, ?_⟩
  · simp [commitAll, commitFold_calls]
  · simp only [commitAll]
    rw [commitFold_ok_iff]
    simp [Status.OK, Status.ok]
  · intro pre post e hsplit he hpost
    simp only [commitAll, hsplit]
    exact commitFold_last_failure pre post e _ he hpost

/-- Scenario S4: three open transactions, the middle one failing. All three
commits are called and the middle error is returned. -/
theorem commitAll_commits_every_txn_witness :
    (commitAll sessionMiddleFails "mset").calls = [0, 1, 2] ∧
    (commitAll sessionMiddleFails "mset").status =
      { code := ErrorCodes.ERR_INTERNAL, msg := "commit failed" } :=
  ⟨(commitAll_commits_every_txn sessionMiddleFails "mset").1,
   (commitAll_commits_every_txn sessionMiddleFails "mset").2.2
      [(0, txnGood 10)] [(2, txnGood 12)] (1, txnBad 11) rfl (by decide) (by decide)⟩

theorem rollbackFold_calls (l : List (Nat × Transaction)) (acc : Status × List Nat) :
    (l.foldl rollbackStep acc).2 = acc.2 ++ l.map Prod.fst := by
  induction l generalizing acc with
  | nil => simp
  | cons e rest ih =>
    rw [List.foldl_cons, ih]
    simp [rollbackStep]

/-- The status `rollbackAll` returns is the one of the rollback called last,
whatever the earlier rollbacks answered. -/
theorem rollbackAll_status_of_last (ctx : SessionCtx) (pre : List (Nat × Transaction))
    (e : Nat × Transaction) (h : ctx.txnMap = pre ++ [e]) :
    (rollbackAll ctx).status = e.2.rollback := by
  simp [rollbackAll, h, List.foldl_append, rollbackStep]

/-- C2. With open transactions on stores 0 and 1, where the rollback of store 0
fails and the rollback of store 1 succeeds, `rollbackAll` calls both rollbacks
and returns OK: the failure of the first rollback is overwritten by the
status of the second. -/
theorem rollbackAll_loses_earlier_failure :
    (rollbackAll sessionFirstFails).calls = [0, 1] ∧
    (rollbackAll sessionFirstFails).status = Status.OK ∧
    (∃ e ∈ sessionFirstFails.txnMap, e.2.rollback.ok = false) ∧
    (commitAll sessionFirstFails "del").status.ok = false := by
  decide

/-! ## createTransaction -/

theorem mapFind_mapSet_self {β : Type} (m : List (Nat × β)) (k : Nat) (v : β) :
    mapFind (mapSet m k v) k = some v := by
  induction m with
  | nil => simp [mapSet, mapFind]
  | cons e rest ih =>
    obtain ⟨k1, v1⟩ := e
    by_cases h : k1 = k
    · simp [mapSet, mapFind, h]
    · simp [mapSet, mapFind, h, ih]

theorem mapFind_mapSet_other {β : Type} (m : List (Nat × β)) (k k2 : Nat) (v : β)
    (hne : k2 ≠ k) : mapFind (mapSet m k v) k2 = mapFind m k2 := by
  induction m with
  | nil => simp [mapSet, mapFind, Ne.symm hne]
  | cons e rest ih =>
    obtain ⟨k1, v1⟩ := e
    by_cases h : k1 = k
    · subst h
      simp [mapSet, mapFind, Ne.symm hne]
    · by_cases h2 : k1 = k2
      · subst h2
        simp [mapSet, mapFind, h]
      · simp [mapSet, mapFind, h, h2, ih]

theorem mapSet_of_absent {β : Type} (m : List (Nat × β)) (k : Nat) (v : β)
    (h : mapFind m k = none) : mapSet m k v = m ++ [(k, v)] := by
  induction m with
  | nil => rfl
  | cons e rest ih =>
    obtain ⟨k1, v1⟩ := e
    by_cases hk : k1 = k
    · simp [mapFind, hk] at h
    · simp only [mapFind, hk, if_false] at h
      simp [mapSet, hk, ih h]

/-- C3. `createTransaction` on a session and a store.
* When the session holds a transaction under the store's id, that transaction
  is returned, and neither the session nor the store changes (the store is
  not asked to create anything).
* Otherwise, when the store creates the transaction `t`: `t` is returned; the
  map is the old one with `t` assigned under the store's id, so that the
  store's id now maps to `t` and every other id maps to what it did; the
  store has served one creation; and a second call returns `t` again without
  any further change to the session or the store.
* Otherwise, when the store's creation is not ok: the store's status is
  returned and the session is unchanged. -/
theorem createTransaction_contract (ctx : SessionCtx) (kvstore : KVStore) :
    (∀ txn, mapFind ctx.txnMap kvstore.dbId = some txn →
      createTransaction ctx kvstore = Run.ret (Expected.ofValue txn, ctx, kvstore)) ∧
    (mapFind ctx.txnMap kvstore.dbId = none → ∀ t, kvstore.createTxn = Expected.ofValue t →
      createTransaction ctx kvstore =
        Run.ret (Expected.ofValue t,
          { ctx with txnMap := mapSet ctx.txnMap kvstore.dbId t },
          { kvstore with txnCreated := kvstore.txnCreated + 1 }) ∧
      mapFind (mapSet ctx.txnMap kvstore.dbId t) kvstore.dbId = some t ∧
      (∀ k, k ≠ kvstore.dbId →
        mapFind (mapSet ctx.txnMap kvstore.dbId t) k = mapFind ctx.txnMap k) ∧
      createTransaction { ctx with txnMap := mapSet ctx.txnMap kvstore.dbId t }
          { kvstore with txnCreated := kvstore.txnCreated + 1 } =
        Run.ret (Expected.ofValue t,
          { ctx with txnMap := mapSet ctx.txnMap kvstore.dbId t },
          { kvstore with txnCreated := kvstore.txnCreated + 1 })) ∧
    (mapFind ctx.txnMap kvstore.dbId = none → kvstore.createTxn.ok = false →
      createTransaction ctx kvstore =
        Run.ret (Expected.ofStatus kvstore.createTxn.status, ctx,
          { kvstore with txnCreated := kvstore.txnCreated + 1 })) := by
  refine ⟨?_, ?_, ?_⟩
  · intro txn h
    simp [createTransaction, h]
  · intro h t ht
    have hself := mapFind_mapSet_self ctx.txnMap kvstore.dbId t
    refine ⟨?_, hself, ?_, ?_⟩
    · simp [createTransaction, h, KVStore.createTransaction, ht, Expected.ofValue,
        Expected.ok, Status.OK, Status.ok, Expected.value, hself]
    · intro k hk
      exact mapFind_mapSet_other _ _ _ _ hk
    · simp [createTransaction, hself]
  · intro h hfail
    simp [createTransaction, h, KVStore.createTransaction, hfail]

/-- The three cases of `createTransaction` on concrete sessions and stores. -/
theorem createTransaction_contract_witness :
    createTransaction sessionOneTxn storeHeld =
      Run.ret (Expected.ofValue (txnGood 10), sessionOneTxn, storeHeld) ∧
    createTransaction sessionOneTxn storeCreates =
      Run.ret (Expected.ofValue (txnGood 11),
        { sessionOneTxn with txnMap := [(0, txnGood 10), (1, txnGood 11)] },
        { storeCreates with txnCreated := 1 }) ∧
    createTransaction sessionOneTxn storeRefuses =
      Run.ret (Expected.ofStatus { code := ErrorCodes.ERR_BUSY, msg := "no txn" },
        sessionOneTxn, { storeRefuses with txnCreated := 1 }) :=
  ⟨(createTransaction_contract sessionOneTxn storeHeld).1 (txnGood 10) rfl,
   ((createTransaction_contract sessionOneTxn storeCreates).2.1 rfl (txnGood 11) rfl).1,
   (createTransaction_contract sessionOneTxn storeRefuses).2.2 rfl rfl⟩

/-! ## setArgsBrief -/

theorem pushLoop_eq_take (v : List String) (acc : List String) (n : Nat) (hn : n ≤ v.length) :
    (List.range n).foldl
      (fun acc i =>
        match v[i]? with
        | some x => acc ++ [x]
        | none => acc) acc = acc ++ v.take n := by
  induction n with
  | zero => simp
  | succ n ih =>
    have hlt : n < v.length := hn
    rw [List.range_succ, List.foldl_append, ih (Nat.le_of_lt hlt)]
    rw [List.take_succ, List.getElem?_eq_getElem hlt]
    simp only [List.foldl_cons, List.foldl_nil, List.getElem?_eq_getElem hlt,
      Option.toList, List.append_assoc]

/-- What `setArgsBrief` does to any session: the first `min(|v|, 8)` elements of
`v` are appended, in order, to the brief arguments already stored. -/
theorem setArgsBrief_appends (ctx : SessionCtx) (v : List String) :
    getArgsBrief (setArgsBrief ctx v) = ctx.argsBrief ++ v.take (min v.length 8) := by
  simp only [getArgsBrief, setArgsBrief, MAX_SIZE]
  exact pushLoop_eq_take v ctx.argsBrief _ (Nat.min_le_left _ _)

/-- C4, as the claim states it, fails: on a session that already stores eight
brief arguments, `setArgsBrief ["get", "k"]` leaves ten entries stored, which
are not the first two elements of the vector. -/
theorem setArgsBrief_keeps_old_entries :
    getArgsBrief (setArgsBrief sessionEightArgs ["get", "k"]) ≠
        ["get", "k"].take (min ["get", "k"].length 8) ∧
    (getArgsBrief (setArgsBrief sessionEightArgs ["get", "k"])).length = 10 := by
  decide

/-- C4, amended. On a session whose stored brief arguments are empty (a new
session, or one just reset by `clearRequestCtx`), after `setArgsBrief(v)` the
stored brief arguments are exactly the first `min(|v|, 8)` elements of `v`, in
order, and there are at most 8 of them. -/
theorem setArgsBrief_on_empty (ctx : SessionCtx) (v : List String)
    (hempty : ctx.argsBrief = []) :
    getArgsBrief (setArgsBrief ctx v) = v.take (min v.length 8) ∧
    (getArgsBrief (setArgsBrief ctx v)).length = min v.length 8 ∧
    (getArgsBrief (setArgsBrief ctx v)).length ≤ 8 := by
  have h := setArgsBrief_appends ctx v
  rw [hempty, List.nil_append] at h
  refine ⟨h, ?_, ?_⟩ <;> rw [h, List.length_take] <;> omega

/-- A session reset by `clearRequestCtx` that is handed ten arguments keeps the
first eight. -/
theorem setArgsBrief_on_empty_witness :
    getArgsBrief (setArgsBrief (clearRequestCtx sessionEightArgs)
        ["mset", "1", "2", "3", "4", "5", "6", "7", "8", "9"]) =
      ["mset", "1", "2", "3", "4", "5", "6", "7"] :=
  (setArgsBrief_on_empty (clearRequestCtx sessionEightArgs)
    ["mset", "1", "2", "3", "4", "5", "6", "7", "8", "9"] rfl).1

/-! ## changeReplSource -/

theorem waitFor_of_true (pred : ReplManager → Run Bool) (st : ReplManager)
    (later : List ReplManager) (h : pred st = Run.ret true) :
    waitFor pred st later = Run.ret (true, st) := by
  cases later <;> simp [waitFor, h]

theorem yieldPred_of_idle (storeId : Nat) (st : ReplManager) (sp : SPovStatus)
    (hsp : st.syncStatus[storeId]? = some sp) (hq : sp.isRunning = false) :
    yieldPred storeId st = Run.ret true := by
  simp [yieldPred, hsp, hq]

theorem lt_length_of_getElem? {α : Type} (l : List α) (i : Nat) (a : α)
    (h : l[i]? = some a) : i < l.length := by
  rcases Nat.lt_or_ge i l.length with hlt | hge
  · exact hlt
  · rw [List.getElem?_eq_none hge] at h
    cases h

/-- C6. For a store whose slave routine is not running and whose current source
host is non-empty, `changeReplSource` with a non-empty `ip` returns `ERR_BUSY`
and the manager is exactly as before: no meta, store mode, session id or
cancel request changes, and the catalog has received no call. -/
theorem changeReplSource_busy (TXNID_UNINITED : Nat) (st : ReplManager)
    (later : List ReplManager) (storeId : Nat) (ip : String) (port sourceStoreId : Nat)
    (sp : SPovStatus) (cur : StoreMeta) (kv : KVStore)
    (hsp : st.syncStatus[storeId]? = some sp) (hq : sp.isRunning = false)
    (hmeta : st.syncMeta[storeId]? = some cur) (hkv : st.svr.stores[storeId]? = some kv)
    (hhost : cur.syncFromHost ≠ "") (hip : ip ≠ "") :
    changeReplSource TXNID_UNINITED st later storeId ip port sourceStoreId =
      Run.ret ({ code := ErrorCodes.ERR_BUSY,
                 msg := "explicit set sync source empty before change it" }, st) := by
  have hpred := yieldPred_of_idle storeId st sp hsp hq
  have hlt := lt_length_of_getElem? _ _ _ hmeta
  simp [changeReplSource, waitFor_of_true _ st later hpred, hpred, hlt, ServerEntry.getDb, hkv,
    Expected.ofValue, Expected.ok, Status.OK, Status.ok, Expected.value, hmeta, hsp,
    StoreMeta.copy, hhost, hip]

/-- C5, as the claim states it, fails: store 2 is not running and has no source
and the new `ip` is non-empty. When the store refuses the mode switch,
`changeReplSource` returns the store's error, not OK, and nothing has
changed. When the catalog refuses the write, the call ends in `LOG(FATAL)`
and does not return. -/
theorem changeReplSource_set_mode_refused :
    (managerModeRefused.syncStatus[2]?.map (fun sp => sp.isRunning) = some false ∧
      managerModeRefused.syncMeta[2]?.map (fun m => m.syncFromHost) = some "") ∧
    changeReplSource 0 managerModeRefused [] 2 "10.0.0.1" 7000 5 =
      Run.ret ({ code := ErrorCodes.ERR_INTERNAL, msg := "setMode failed" },
        managerModeRefused) ∧
    Status.ok { code := ErrorCodes.ERR_INTERNAL, msg := "setMode failed" } = false ∧
    (managerCatalogRefuses.syncStatus[2]?.map (fun sp => sp.isRunning) = some false ∧
      managerCatalogRefuses.syncMeta[2]?.map (fun m => m.syncFromHost) = some "") ∧
    changeReplSource 0 managerCatalogRefuses [] 2 "10.0.0.1" 7000 5 = Run.fatal := by
  decide

/-- C5, amended. For a store that is not running, whose meta sits in its own
slot (`syncMeta[storeId].id = storeId`) and has an empty source host: when the
store accepts `setMode` and the catalog accepts the write, `changeReplSource`
with a non-empty `ip` returns OK; the store's mode is `REPLICATE_ONLY`;
`syncMeta[storeId]` is the old meta with `syncFromHost = ip`,
`syncFromPort = port`, `syncFromId = sourceStoreId`, `replState = CONNECT`,
`binlogId = TXNID_UNINITED` and the same `id`; the catalog has received
exactly that meta; every other meta, store and status is unchanged. -/
theorem changeReplSource_set_source (TXNID_UNINITED : Nat) (st : ReplManager)
    (later : List ReplManager) (storeId : Nat) (ip : String) (port sourceStoreId : Nat)
    (sp : SPovStatus) (cur : StoreMeta) (kv : KVStore)
    (hsp : st.syncStatus[storeId]? = some sp) (hq : sp.isRunning = false)
    (hmeta : st.syncMeta[storeId]? = some cur) (hid : cur.id = storeId)
    (hkv : st.svr.stores[storeId]? = some kv)
    (hhost : cur.syncFromHost = "") (hip : ip ≠ "")
    (hmode : kv.setModeStatus.ok = true)
    (hcat : (st.svr.catalog.setStoreMeta
      (cur.withSource ip port sourceStoreId ReplState.REPL_CONNECT TXNID_UNINITED)).1.ok = true) :
    changeReplSource TXNID_UNINITED st later storeId ip port sourceStoreId =
      Run.ret (Status.OK,
        { st with
          svr := { st.svr with
            stores := st.svr.stores.set storeId { kv with mode := StoreMode.REPLICATE_ONLY }
            catalog := { st.svr.catalog with
              setCalls := st.svr.catalog.setCalls ++
                [cur.withSource ip port sourceStoreId ReplState.REPL_CONNECT TXNID_UNINITED] } }
          syncMeta := st.syncMeta.set storeId
            (cur.withSource ip port sourceStoreId ReplState.REPL_CONNECT TXNID_UNINITED) }) := by
  have hpred := yieldPred_of_idle storeId st sp hsp hq
  have hlt := lt_length_of_getElem? _ _ _ hmeta
  have hle : ¬ st.syncMeta.length ≤ storeId := Nat.not_le.mpr hlt
  simp only [Catalog.setStoreMeta, StoreMeta.withSource, Status.ok, Status.OK, hid,
    decide_eq_true_eq] at hcat hmode
  simp [changeReplSource, waitFor_of_true _ st later hpred, hpred, hlt, hle, ServerEntry.getDb,
    hkv, Expected.ofValue, Expected.ok, Status.OK, Status.ok, Expected.value, hmeta, hsp,
    StoreMeta.copy, hhost, hip, KVStore.setMode, hmode, hcat, changeReplStateInLock,
    Catalog.setStoreMeta, ServerEntry.putStore, StoreMeta.withSource, hid]


/-- Scenario S2: `changeReplSource(2, "10.0.0.1", 7000, 5)` on four idle stores
without a source. -/
theorem changeReplSource_set_source_witness :
    changeReplSource 0 managerIdle [] 2 "10.0.0.1" 7000 5 =
      Run.ret (Status.OK,
        { managerIdle with
          svr := { managerIdle.svr with
            stores := [{ dbId := 0 }, { dbId := 1 },
              { dbId := 2, mode := StoreMode.REPLICATE_ONLY }, { dbId := 3 }]
            catalog := { setCalls := [(metaNoSource 2).withSource "10.0.0.1" 7000 5
              ReplState.REPL_CONNECT 0] } }
          syncMeta := [metaNoSource 0, metaNoSource 1,
            (metaNoSource 2).withSource "10.0.0.1" 7000 5 ReplState.REPL_CONNECT 0,
            metaNoSource 3] }) :=
  changeReplSource_set_source 0 managerIdle [] 2 "10.0.0.1" 7000 5 spovIdle (metaNoSource 2)
    { dbId := 2 } rfl rfl rfl rfl rfl rfl (by decide) rfl rfl

/-- Scenario S3: `changeReplSource(2, "10.0.0.2", ..)` while store 2 already
replicates from `10.0.0.1`. -/
theorem changeReplSource_busy_witness :
    changeReplSource 0 managerSlave [] 2 "10.0.0.2" 7000 5 =
      Run.ret ({ code := ErrorCodes.ERR_BUSY,
                 msg := "explicit set sync source empty before change it" }, managerSlave) :=
  changeReplSource_busy 0 managerSlave [] 2 "10.0.0.2" 7000 5
    { isRunning := false, sessionId := 42 } (metaWithSource 2)
    { dbId := 2, mode := StoreMode.REPLICATE_ONLY } rfl rfl rfl rfl (by decide) (by decide)

/-- C7, as the claim states it, fails: store 2 is not running and replicates
from `10.0.0.1`, and the new `ip` is empty with port 0 and source store 0.
When the store refuses the mode switch, `changeReplSource` returns the
store's error, not OK; the cancel request has been made and the session id
reset, while the mode, the meta and the catalog are as before. When the
catalog refuses the write, the call ends in `LOG(FATAL)` and does not
return. -/
theorem changeReplSource_clear_mode_refused :
    (managerSlaveModeRefused.syncStatus[2]?.map (fun sp => sp.isRunning) = some false ∧
      managerSlaveModeRefused.syncMeta[2]?.map (fun m => m.syncFromHost) = some "10.0.0.1") ∧
    changeReplSource 0 managerSlaveModeRefused [] 2 "" 0 0 =
      Run.ret ({ code := ErrorCodes.ERR_INTERNAL, msg := "setMode failed" },
        { managerSlaveModeRefused with
          svr := { managerSlaveModeRefused.svr with cancelled := [42] }
          syncStatus := [spovIdle, spovIdle, spovIdle, spovIdle] }) ∧
    Status.ok { code := ErrorCodes.ERR_INTERNAL, msg := "setMode failed" } = false ∧
    (managerSlaveCatalogRefuses.syncStatus[2]?.map (fun sp => sp.isRunning) = some false ∧
      managerSlaveCatalogRefuses.syncMeta[2]?.map (fun m => m.syncFromHost) = some "10.0.0.1") ∧
    changeReplSource 0 managerSlaveCatalogRefuses [] 2 "" 0 0 = Run.fatal := by
  decide

/-- C7, amended. For a store that is not running, `changeReplSource` with empty
`ip`, port 0 and source store 0:
* when the source host is already empty, returns OK and the manager is exactly
  as before (no catalog call);
* otherwise, when the meta sits in its own slot, the store accepts `setMode`
  and the catalog accepts the write, returns OK, whatever the server answers
  to the cancel request; the server has been asked to cancel the store's
  session; the store's `sessionId` is `UINT64_MAX`; its mode is `READ_WRITE`;
  `syncMeta[storeId]` is the old meta with host `""`, port 0, `syncFromId` 0,
  `replState = NONE`, `binlogId = TXNID_UNINITED`; the catalog has received
  exactly that meta; everything else is unchanged. -/
theorem changeReplSource_clear_source (TXNID_UNINITED : Nat) (st : ReplManager)
    (later : List ReplManager) (storeId : Nat)
    (sp : SPovStatus) (cur : StoreMeta) (kv : KVStore)
    (hsp : st.syncStatus[storeId]? = some sp) (hq : sp.isRunning = false)
    (hmeta : st.syncMeta[storeId]? = some cur)
    (hkv : st.svr.stores[storeId]? = some kv) :
    (cur.syncFromHost = "" →
      changeReplSource TXNID_UNINITED st later storeId "" 0 0 = Run.ret (Status.OK, st)) ∧
    (cur.syncFromHost ≠ "" → cur.id = storeId → kv.setModeStatus.ok = true →
      (st.svr.catalog.setStoreMeta
        (cur.withSource "" 0 0 ReplState.REPL_NONE TXNID_UNINITED)).1.ok = true →
      changeReplSource TXNID_UNINITED st later storeId "" 0 0 =
        Run.ret (Status.OK,
          { st with
            svr := { st.svr with
              stores := st.svr.stores.set storeId { kv with mode := StoreMode.READ_WRITE }
              catalog := { st.svr.catalog with
                setCalls := st.svr.catalog.setCalls ++
                  [cur.withSource "" 0 0 ReplState.REPL_NONE TXNID_UNINITED] }
              cancelled := st.svr.cancelled ++ [sp.sessionId] }
            syncMeta := st.syncMeta.set storeId
              (cur.withSource "" 0 0 ReplState.REPL_NONE TXNID_UNINITED)
            syncStatus := st.syncStatus.set storeId { sp with sessionId := UINT64_MAX } })) := by
  have hpred := yieldPred_of_idle storeId st sp hsp hq
  have hlt := lt_length_of_getElem? _ _ _ hmeta
  have hle : ¬ st.syncMeta.length ≤ storeId := Nat.not_le.mpr hlt
  constructor
  · intro hhost
    simp [changeReplSource, waitFor_of_true _ st later hpred, hpred, hlt, hle, ServerEntry.getDb,
      hkv, Expected.ofValue, Expected.ok, Status.OK, Status.ok, Expected.value, hmeta, hsp,
      StoreMeta.copy, hhost]
  · intro hhost hid hmode hcat
    simp only [Catalog.setStoreMeta, StoreMeta.withSource, Status.ok, Status.OK, hid,
      decide_eq_true_eq] at hcat hmode
    simp [changeReplSource, waitFor_of_true _ st later hpred, hpred, hlt, hle, ServerEntry.getDb,
      hkv, Expected.ofValue, Expected.ok, Status.OK, Status.ok, Expected.value, hmeta, hsp,
      StoreMeta.copy, hhost, KVStore.setMode, hmode, hcat, changeReplStateInLock,
      Catalog.setStoreMeta, ServerEntry.putStore, StoreMeta.withSource, hid,
      ServerEntry.cancelSession]

/-- Clearing the source of store 2, which replicates from `10.0.0.1` through
session 42, while the server answers the cancel request with an error; and
clearing the source of store 1, which has none. -/
theorem changeReplSource_clear_source_witness :
    changeReplSource 0 managerSlaveCancelFails [] 2 "" 0 0 =
      Run.ret (Status.OK,
        { managerSlaveCancelFails with
          svr := { managerSlaveCancelFails.svr with
            stores := [{ dbId := 0 }, { dbId := 1 }, { dbId := 2 }, { dbId := 3 }]
            catalog := { setCalls := [(metaNoSource 2).withSource "" 0 0 ReplState.REPL_NONE 0] }
            cancelled := [42] }
          syncMeta := [metaNoSource 0, metaNoSource 1,
            (metaNoSource 2).withSource "" 0 0 ReplState.REPL_NONE 0,
            metaNoSource 3]
          syncStatus := [spovIdle, spovIdle, spovIdle, spovIdle] }) ∧
    changeReplSource 0 managerSlaveCancelFails [] 1 "" 0 0 =
      Run.ret (Status.OK, managerSlaveCancelFails) :=
  ⟨(changeReplSource_clear_source 0 managerSlaveCancelFails [] 2
      { isRunning := false, sessionId := 42 } (metaWithSource 2)
      { dbId := 2, mode := StoreMode.REPLICATE_ONLY } rfl rfl rfl rfl).2
      (by decide) rfl rfl rfl,
   (changeReplSource_clear_source 0 managerSlaveCancelFails [] 1 spovIdle (metaNoSource 1)
      { dbId := 1 } rfl rfl rfl rfl).1 rfl⟩

theorem waitFor_all_false (pred : ReplManager → Run Bool) (st : ReplManager)
    (later : List ReplManager) (h : ∀ m ∈ st :: later, pred m = Run.ret false) :
    waitFor pred st later = Run.ret (false, later.getLastD st) := by
  induction later generalizing st with
  | nil => simp [waitFor, h st (List.mem_cons_self _ _)]
  | cons st1 rest ih =>
    have h1 := ih st1 (fun m hm => h m (List.mem_cons_of_mem _ hm))
    simp only [waitFor, h st (List.mem_cons_self _ _), h1]
    cases rest <;> rfl

theorem waitFor_ret (pred : ReplManager → Run Bool) (st : ReplManager)
    (later : List ReplManager) (b : Bool) (m : ReplManager)
    (h : waitFor pred st later = Run.ret (b, m)) :
    m ∈ st :: later ∧ pred m = Run.ret b := by
  induction later generalizing st with
  | nil =>
    simp only [waitFor] at h
    cases hp : pred st with
    | ret b1 =>
      rw [hp] at h
      simp only [Run.ret.injEq, Prod.mk.injEq] at h
      obtain ⟨hb, hm⟩ := h
      subst hb hm
      exact ⟨List.mem_cons_self _ _, hp⟩
    | fatal => rw [hp] at h; cases h
    | undefined => rw [hp] at h; cases h
  | cons st1 rest ih =>
    simp only [waitFor] at h
    cases hp : pred st with
    | ret b1 =>
      rw [hp] at h
      cases b1 with
      | true =>
        simp only [Run.ret.injEq, Prod.mk.injEq] at h
        obtain ⟨hb, hm⟩ := h
        subst hb hm
        exact ⟨List.mem_cons_self _ _, hp⟩
      | false =>
        obtain ⟨hmem, hpm⟩ := ih st1 h
        exact ⟨List.mem_cons_of_mem _ hmem, hpm⟩
    | fatal => rw [hp] at h; cases h
    | undefined => rw [hp] at h; cases h

/-- C8. `later` lists the states the wait of `changeReplSource` observes after
the state `st` it starts from.
* When the store's `isRunning` is true in `st` and in every observed state,
  `changeReplSource` returns `ERR_TIMEOUT` and the manager is the last
  observed state, untouched: metas, store modes, session ids and catalog are
  what the other threads left.
* Let `m` be the state the wait ends on. Whenever `changeReplSource` returns a
  manager that differs from `m`, the store's `isRunning` is false in `m`. -/
theorem changeReplSource_requires_idle (TXNID_UNINITED : Nat) (st : ReplManager)
    (later : List ReplManager) (storeId : Nat) (ip : String) (port sourceStoreId : Nat) :
    ((∀ m ∈ st :: later, ∃ sp, m.syncStatus[storeId]? = some sp ∧ sp.isRunning = true) →
      changeReplSource TXNID_UNINITED st later storeId ip port sourceStoreId =
        Run.ret ({ code := ErrorCodes.ERR_TIMEOUT, msg := "wait for yeild failed" },
          later.getLastD st)) ∧
    (∀ b m s st1, waitFor (yieldPred storeId) st later = Run.ret (b, m) →
      changeReplSource TXNID_UNINITED st later storeId ip port sourceStoreId =
        Run.ret (s, st1) →
      st1 ≠ m → ∃ sp, m.syncStatus[storeId]? = some sp ∧ sp.isRunning = false) := by
  constructor
  · intro hrun
    have hfalse : ∀ m ∈ st :: later, yieldPred storeId m = Run.ret false := by
      intro m hm
      obtain ⟨sp, hsp, hr⟩ := hrun m hm
      simp [yieldPred, hsp, hr]
    simp [changeReplSource, waitFor_all_false _ st later hfalse]
  · intro b m s st1 hw h hne
    obtain ⟨_, hpm⟩ := waitFor_ret _ _ _ _ _ hw
    cases b with
    | false =>
      simp [changeReplSource, hw] at h
      exact absurd h.2.symm hne
    | true =>
      unfold yieldPred at hpm
      cases hsp : m.syncStatus[storeId]? with
      | none => simp [hsp] at hpm
      | some sp =>
        simp only [hsp, Run.ret.injEq, Bool.not_eq_true'] at hpm
        exact ⟨sp, rfl, hpm⟩

/-- Store 2 is running when `changeReplSource` is called and still running at
the deadline: the call times out and the manager is untouched. When the
routine has ended by the deadline, the wait ends on a state in which store 2
is not running, and the source is cleared there. -/
theorem changeReplSource_requires_idle_witness :
    changeReplSource 0 managerSlaveRunning [managerSlaveRunning] 2 "" 0 0 =
      Run.ret ({ code := ErrorCodes.ERR_TIMEOUT, msg := "wait for yeild failed" },
        managerSlaveRunning) ∧
    (∃ sp, managerSlave.syncStatus[2]? = some sp ∧ sp.isRunning = false) :=
  ⟨(changeReplSource_requires_idle 0 managerSlaveRunning [managerSlaveRunning] 2 "" 0 0).1
      (by decide),
   (changeReplSource_requires_idle 0 managerSlaveRunning [managerSlave] 2 "" 0 0).2
      true managerSlave Status.OK managerSlaveCleared (by decide) (by decide) (by decide)⟩

/-! ## maxDumpFileSeq -/

/-- C9. Two listings of the dump directory of store 0 under `dump`.
* A single regular file `foo-1-7-x`, whose name does not start with `binlog`:
  the code writes its "ignore" log line and goes on to parse the name, so the
  call returns 7, not 0.
* The regular files `binlog-0-3-x` and `README`: the malformed name is not
  ignored; its empty sequence field fails to parse and the call ends in
  `return fno.value()` on the failed parse instead of returning 3.
A directory, by contrast, is skipped. -/
theorem maxDumpFileSeq_parses_every_regular_file :
    maxDumpFileSeq "dump" 0 [{ path := "dump/0/foo-1-7-x", isRegular := true }] =
      Run.ret (Expected.ofValue 7) ∧
    maxDumpFileSeq "dump" 0
      [{ path := "dump/0/binlog-0-3-x", isRegular := true },
       { path := "dump/0/README", isRegular := true }] = Run.undefined ∧
    maxDumpFileSeq "dump" 0
      [{ path := "dump/0/binlog-0-3-x", isRegular := true },
       { path := "dump/0/foo-1-7-x", isRegular := false }] = Run.ret (Expected.ofValue 3) := by
  decide

/-- C10, as the claim states it, fails: the sequence number `4294967295`
(`2^32 - 1`) is below `2^32`, and a dump file carrying it makes the call fail
with `ERR_INTERNAL`. -/
theorem maxDumpFileSeq_rejects_uint32_max :
    4294967295 < 2 ^ 32 ∧
    maxDumpFileSeq "dump" 0 [{ path := "dump/0/binlog-0-4294967295-x", isRegular := true }] =
      Run.ret (Expected.ofStatus { code := ErrorCodes.ERR_INTERNAL, msg := "invalid fileno" }) := by
  decide

/-- One turn of the loop of `maxDumpFileSeq` on a regular file under `subpath`
whose sequence field parses to `n`. -/
theorem maxDumpFileSeqLoop_parsed (subpath : List Char) (maxFno : Nat) (p : DirEntry)
    (rest : List DirEntry) (field : List Char) (n : Nat)
    (hreg : p.isRegular = true)
    (hpre : subpath.isPrefixOf p.path.toList = true)
    (hfield : seqField (p.path.toList.drop subpath.length) = some field)
    (hn : stoul field = Expected.ofValue n) :
    maxDumpFileSeqLoop subpath maxFno (p :: rest) =
      if n ≥ UINT32_MAX then
        Run.ret (Expected.ofStatus { code := ErrorCodes.ERR_INTERNAL, msg := "invalid fileno" })
      else maxDumpFileSeqLoop subpath (max maxFno (n % 2 ^ 32)) rest := by
  rw [maxDumpFileSeqLoop]
  simp only [hreg, hpre, hfield, hn, Expected.ofValue, Expected.ok, Status.OK, Status.ok,
    Expected.value, decide_True, Bool.not_true, Bool.false_eq_true, if_false]

theorem CarriesSeq_unique (subpath : List Char) (p : DirEntry) (n k : Nat)
    (hn : CarriesSeq subpath p n) (hk : CarriesSeq subpath p k) : n = k := by
  obtain ⟨_, _, f1, hf1, hs1⟩ := hn
  obtain ⟨_, _, f2, hf2, hs2⟩ := hk
  rw [hf1] at hf2
  cases hf2
  rw [hs1] at hs2
  simp only [Expected.ofValue, Expected.mk.injEq, Option.some.injEq, true_and] at hs2
  exact hs2

theorem stoul_value_of_not_ok (field : List Char) (h : (stoul field).ok = false) :
    (stoul field).value = Run.undefined := by
  have hdata : (stoul field).data = none ∨ (stoul field).ok = true := by
    unfold stoul
    dsimp only
    split_ifs <;> simp [Expected.ofValue, Expected.ofStatus, Expected.ok, Status.OK, Status.ok]
  rcases hdata with hd | hok
  · simp [Expected.value, hd]
  · rw [h] at hok
    cases hok

theorem maxDumpFileSeqLoop_carried (subpath : List Char) (maxFno : Nat) (p : DirEntry)
    (rest : List DirEntry) (n : Nat) (h : CarriesSeq subpath p n) :
    maxDumpFileSeqLoop subpath maxFno (p :: rest) =
      if n ≥ UINT32_MAX then
        Run.ret (Expected.ofStatus { code := ErrorCodes.ERR_INTERNAL, msg := "invalid fileno" })
      else maxDumpFileSeqLoop subpath (max maxFno (n % 2 ^ 32)) rest := by
  obtain ⟨hreg, hpre, field, hfield, hn⟩ := h
  exact maxDumpFileSeqLoop_parsed subpath maxFno p rest field n hreg hpre hfield hn

/-- The loop of `maxDumpFileSeq` on entries whose regular files all carry a
number below `2^32 - 1`: it returns the largest of `maxFno` and these
numbers. -/
theorem maxDumpFileSeqLoop_accepts (subpath : List Char) (listing : List DirEntry) :
    ∀ maxFno : Nat,
      (∀ p ∈ listing, p.isRegular = true → ∃ n, CarriesSeq subpath p n ∧ n < 2 ^ 32 - 1) →
      ∃ m, maxDumpFileSeqLoop subpath maxFno listing = Run.ret (Expected.ofValue m) ∧
        maxFno ≤ m ∧ (∀ p ∈ listing, ∀ n, CarriesSeq subpath p n → n ≤ m) ∧
        (m = maxFno ∨ ∃ p ∈ listing, CarriesSeq subpath p m) := by
  induction listing with
  | nil =>
    intro maxFno _
    refine ⟨maxFno, by rw [maxDumpFileSeqLoop], Nat.le_refl _, ?_, Or.inl rfl⟩
    intro p hp
    cases hp
  | cons p rest ih =>
    intro maxFno hall
    have hrest : ∀ q ∈ rest, q.isRegular = true →
        ∃ n, CarriesSeq subpath q n ∧ n < 2 ^ 32 - 1 :=
      fun q hq => hall q (List.mem_cons_of_mem _ hq)
    cases hreg : p.isRegular with
    | false =>
      obtain ⟨m, hm, hle, hmax, hwho⟩ := ih maxFno hrest
      refine ⟨m, ?_, hle, ?_, ?_⟩
      · rw [maxDumpFileSeqLoop]
        simp only [hreg, Bool.not_false, if_true]
        exact hm
      · intro q hq n hn
        rcases List.mem_cons.mp hq with h | h
        · subst h
          rw [hn.1] at hreg
          cases hreg
        · exact hmax q h n hn
      · rcases hwho with h | ⟨q, hq, hc⟩
        · exact Or.inl h
        · exact Or.inr ⟨q, List.mem_cons_of_mem _ hq, hc⟩
    | true =>
      obtain ⟨n, hn, hlt⟩ := hall p (List.mem_cons_self _ _) hreg
      have hmod : n % 2 ^ 32 = n := Nat.mod_eq_of_lt (by omega)
      have hnot : ¬ n ≥ UINT32_MAX := by unfold UINT32_MAX; omega
      obtain ⟨m, hm, hle, hmax, hwho⟩ := ih (max maxFno n) hrest
      refine ⟨m, ?_, by omega, ?_, ?_⟩
      · rw [maxDumpFileSeqLoop_carried subpath maxFno p rest n hn, if_neg hnot, hmod]
        exact hm
      · intro q hq k hk
        rcases List.mem_cons.mp hq with h | h
        · subst h
          rw [CarriesSeq_unique subpath q k n hk hn]
          omega
        · exact hmax q h k hk
      · rcases hwho with h | ⟨q, hq, hc⟩
        · rcases Nat.le_total maxFno n with h1 | h1
          · rw [Nat.max_eq_right h1] at h
            exact Or.inr ⟨p, List.mem_cons_self _ _, by rw [h]; exact hn⟩
          · rw [Nat.max_eq_left h1] at h
            exact Or.inl h
        · exact Or.inr ⟨q, List.mem_cons_of_mem _ hq, hc⟩

/-- The loop of `maxDumpFileSeq` reaches, after entries whose regular files all
carry a number below `2^32 - 1`, a file that carries a number of at least
`2^32 - 1`: it returns `ERR_INTERNAL`, whatever `maxFno` is by then. -/
theorem maxDumpFileSeqLoop_rejects (subpath : List Char) (p : DirEntry)
    (rest : List DirEntry) (n : Nat) (hn : CarriesSeq subpath p n) (hge : 2 ^ 32 - 1 ≤ n)
    (pre : List DirEntry) :
    ∀ maxFno : Nat,
      (∀ q ∈ pre, q.isRegular = true → ∃ k, CarriesSeq subpath q k ∧ k < 2 ^ 32 - 1) →
      maxDumpFileSeqLoop subpath maxFno (pre ++ p :: rest) =
        Run.ret (Expected.ofStatus
          { code := ErrorCodes.ERR_INTERNAL, msg := "invalid fileno" }) := by
  have hge1 : n ≥ UINT32_MAX := by unfold UINT32_MAX; omega
  induction pre with
  | nil =>
    intro maxFno _
    rw [List.nil_append, maxDumpFileSeqLoop_carried subpath maxFno p rest n hn, if_pos hge1]
  | cons q pre1 ih =>
    intro maxFno hall
    have hrest : ∀ x ∈ pre1, x.isRegular = true →
        ∃ k, CarriesSeq subpath x k ∧ k < 2 ^ 32 - 1 :=
      fun x hx => hall x (List.mem_cons_of_mem _ hx)
    cases hreg : q.isRegular with
    | false =>
      rw [List.cons_append, maxDumpFileSeqLoop]
      simp only [hreg, Bool.not_false, if_true]
      exact ih maxFno hrest
    | true =>
      obtain ⟨k, hk, hlt⟩ := hall q (List.mem_cons_self _ _) hreg
      have hnot : ¬ k ≥ UINT32_MAX := by unfold UINT32_MAX; omega
      rw [List.cons_append, maxDumpFileSeqLoop_carried subpath maxFno q _ k hk, if_neg hnot]
      exact ih _ hrest

/-- The loop of `maxDumpFileSeq` on entries one of which carries a number of at
least `2^32 - 1` never returns a number. -/
theorem maxDumpFileSeqLoop_never_ok (subpath : List Char) (p : DirEntry) (n : Nat)
    (hn : CarriesSeq subpath p n) (hge : 2 ^ 32 - 1 ≤ n) (listing : List DirEntry) :
    p ∈ listing → ∀ (maxFno : Nat) (e : Expected Nat),
      maxDumpFileSeqLoop subpath maxFno listing = Run.ret e → e.ok = false := by
  have hge1 : n ≥ UINT32_MAX := by unfold UINT32_MAX; omega
  induction listing with
  | nil => intro hp; cases hp
  | cons q rest ih =>
    intro hp maxFno e h
    rcases List.mem_cons.mp hp with hpq | hprest
    · subst hpq
      rw [maxDumpFileSeqLoop_carried subpath maxFno p rest n hn, if_pos hge1] at h
      simp only [Run.ret.injEq] at h
      rw [← h]
      rfl
    · rw [maxDumpFileSeqLoop] at h
      split at h
      · exact ih hprest _ _ h
      · split at h
        · cases h
        · dsimp only at h
          split at h
          · simp only [Run.ret.injEq] at h
            rw [← h]
            rfl
          · rename_i field _
            split at h
            · rename_i hnok
              simp only [Bool.not_eq_true'] at hnok
              rw [stoul_value_of_not_ok field hnok] at h
              cases h
            · split at h
              · split at h
                · simp only [Run.ret.injEq] at h
                  rw [← h]
                  rfl
                · exact ih hprest _ _ h
              · cases h
              · cases h

/-- C10, amended. A file carries the sequence number `n` when it is a regular
file under the store's dump directory whose sequence field `stoul` reads as
`n` (`CarriesSeq`). For every listing of the directory:
* when every regular file carries a number below `2^32 - 1`, the call returns
  the largest number carried (`0` when there is none); so a file carrying
  `n < 2^32 - 1` that no other file exceeds makes the call return `n`,
  wherever it stands in the listing;
* when a file carrying a number of at least `2^32 - 1` stands after entries
  whose regular files all carry a number below `2^32 - 1`, the call returns
  `ERR_INTERNAL` ("invalid fileno"), whatever follows;
* when any file of the listing carries a number of at least `2^32 - 1`, the
  call returns no number at all. -/
theorem maxDumpFileSeq_accepts_below_uint32_max (dumpPath : String) (storeId : Nat)
    (listing : List DirEntry) :
    ((∀ p ∈ listing, p.isRegular = true →
        ∃ n, CarriesSeq (dumpPath ++ "/" ++ toString storeId).toList p n ∧ n < 2 ^ 32 - 1) →
      (∃ m, maxDumpFileSeq dumpPath storeId listing = Run.ret (Expected.ofValue m) ∧
        (∀ p ∈ listing, ∀ n,
          CarriesSeq (dumpPath ++ "/" ++ toString storeId).toList p n → n ≤ m) ∧
        (m = 0 ∨ ∃ p ∈ listing, CarriesSeq (dumpPath ++ "/" ++ toString storeId).toList p m)) ∧
      (∀ p ∈ listing, ∀ n, CarriesSeq (dumpPath ++ "/" ++ toString storeId).toList p n →
        (∀ q ∈ listing, ∀ k,
          CarriesSeq (dumpPath ++ "/" ++ toString storeId).toList q k → k ≤ n) →
        maxDumpFileSeq dumpPath storeId listing = Run.ret (Expected.ofValue n))) ∧
    (∀ (pre : List DirEntry) (p : DirEntry) (rest : List DirEntry) (n : Nat),
      listing = pre ++ p :: rest →
      CarriesSeq (dumpPath ++ "/" ++ toString storeId).toList p n → 2 ^ 32 - 1 ≤ n →
      (∀ q ∈ pre, q.isRegular = true →
        ∃ k, CarriesSeq (dumpPath ++ "/" ++ toString storeId).toList q k ∧ k < 2 ^ 32 - 1) →
      maxDumpFileSeq dumpPath storeId listing =
        Run.ret (Expected.ofStatus
          { code := ErrorCodes.ERR_INTERNAL, msg := "invalid fileno" })) ∧
    (∀ p ∈ listing, ∀ n,
      CarriesSeq (dumpPath ++ "/" ++ toString storeId).toList p n → 2 ^ 32 - 1 ≤ n →
      ∀ e, maxDumpFileSeq dumpPath storeId listing = Run.ret e → e.ok = false) := by
  refine ⟨?_, ?_, ?_⟩
  · intro hall
    obtain ⟨m, hm, _, hmax, hwho⟩ :=
      maxDumpFileSeqLoop_accepts (dumpPath ++ "/" ++ toString storeId).toList listing 0 hall
    refine ⟨⟨m, hm, hmax, hwho⟩, ?_⟩
    intro p hp n hn hlargest
    have h1 := hmax p hp n hn
    have h2 : m ≤ n := by
      rcases hwho with h | ⟨q, hq, hc⟩
      · omega
      · exact hlargest q hq m hc
    have h3 : m = n := Nat.le_antisymm h2 h1
    rw [← h3]
    exact hm
  · intro pre p rest n hl hn hge hpre
    rw [hl]
    exact maxDumpFileSeqLoop_rejects _ p rest n hn hge pre 0 hpre
  · intro p hp n hn hge e h
    exact maxDumpFileSeqLoop_never_ok _ p n hn hge listing hp 0 e h

/-- Under `dump/0`: the largest accepted number, `4294967294`, is returned as the
maximum when it stands after a smaller number; the smallest rejected one,
`4294967295`, makes the call fail with `ERR_INTERNAL` when it stands after
an accepted file and before another; and a listing that holds it anywhere
returns no number. -/
theorem maxDumpFileSeq_accepts_below_uint32_max_witness :
    maxDumpFileSeq "dump" 0
      [{ path := "dump/0/binlog-0-5-x", isRegular := true },
       { path := "dump/0/binlog-0-4294967294-x", isRegular := true }] =
      Run.ret (Expected.ofValue 4294967294) ∧
    maxDumpFileSeq "dump" 0
      [{ path := "dump/0/binlog-0-5-x", isRegular := true },
       { path := "dump/0/binlog-0-4294967295-x", isRegular := true },
       { path := "dump/0/binlog-0-1-x", isRegular := true }] =
      Run.ret (Expected.ofStatus { code := ErrorCodes.ERR_INTERNAL, msg := "invalid fileno" }) ∧
    (∀ e, maxDumpFileSeq "dump" 0
      [{ path := "dump/0/binlog-0-5-x", isRegular := true },
       { path := "dump/0/binlog-0-4294967296-x", isRegular := true }] = Run.ret e →
      e.ok = false) := by
  have h5 : CarriesSeq ("dump" ++ "/" ++ toString 0).toList
      { path := "dump/0/binlog-0-5-x", isRegular := true } 5 :=
    ⟨rfl, by decide, "5".toList, by decide, by decide⟩
  have hbig : CarriesSeq ("dump" ++ "/" ++ toString 0).toList
      { path := "dump/0/binlog-0-4294967294-x", isRegular := true } 4294967294 :=
    ⟨rfl, by decide, "4294967294".toList, by decide, by decide⟩
  have hmax : CarriesSeq ("dump" ++ "/" ++ toString 0).toList
      { path := "dump/0/binlog-0-4294967295-x", isRegular := true } 4294967295 :=
    ⟨rfl, by decide, "4294967295".toList, by decide, by decide⟩
  have hover : CarriesSeq ("dump" ++ "/" ++ toString 0).toList
      { path := "dump/0/binlog-0-4294967296-x", isRegular := true } 4294967296 :=
    ⟨rfl, by decide, "4294967296".toList, by decide, by decide⟩
  refine ⟨?_, ?_, ?_⟩
  · refine ((maxDumpFileSeq_accepts_below_uint32_max "dump" 0
      [{ path := "dump/0/binlog-0-5-x", isRegular := true },
       { path := "dump/0/binlog-0-4294967294-x", isRegular := true }]).1 ?_).2
      { path := "dump/0/binlog-0-4294967294-x", isRegular := true } (by decide)
      4294967294 hbig ?_
    · intro p hp _
      simp only [List.mem_cons, List.mem_singleton, List.not_mem_nil, or_false] at hp
      rcases hp with hp | hp
      · subst hp; exact ⟨5, h5, by decide⟩
      · subst hp; exact ⟨4294967294, hbig, by decide⟩
    · intro q hq k hk
      simp only [List.mem_cons, List.mem_singleton, List.not_mem_nil, or_false] at hq
      rcases hq with hq | hq
      · subst hq
        rw [CarriesSeq_unique _ _ k 5 hk h5]
        decide
      · subst hq
        rw [CarriesSeq_unique _ _ k 4294967294 hk hbig]
  · exact (maxDumpFileSeq_accepts_below_uint32_max "dump" 0
      [{ path := "dump/0/binlog-0-5-x", isRegular := true },
       { path := "dump/0/binlog-0-4294967295-x", isRegular := true },
       { path := "dump/0/binlog-0-1-x", isRegular := true }]).2.1
      [{ path := "dump/0/binlog-0-5-x", isRegular := true }]
      { path := "dump/0/binlog-0-4294967295-x", isRegular := true }
      [{ path := "dump/0/binlog-0-1-x", isRegular := true }] 4294967295 rfl hmax (by decide)
      (by
        intro q hq _
        rw [List.mem_singleton] at hq
        subst hq
        exact ⟨5, h5, by decide⟩)
  · exact (maxDumpFileSeq_accepts_below_uint32_max "dump" 0
      [{ path := "dump/0/binlog-0-5-x", isRegular := true },
       { path := "dump/0/binlog-0-4294967296-x", isRegular := true }]).2.2
      { path := "dump/0/binlog-0-4294967296-x", isRegular := true } (by decide)
      4294967296 hover (by decide)

/-! ## Locks and key locks of a session -/

theorem eraseFirstLock_append_self (locks : List Nat) (lock : Nat) (h : lock ∉ locks) :
    eraseFirstLock (locks ++ [lock]) lock = some locks := by
  induction locks with
  | nil => simp [eraseFirstLock]
  | cons x rest ih =>
    have hx : x ≠ lock := fun he => h (he ▸ List.mem_cons_self _ _)
    have hrest : lock ∉ rest := fun hm => h (List.mem_cons_of_mem _ hm)
    simp [eraseFirstLock, hx, ih hrest]

theorem eraseFirstLock_of_not_mem (locks : List Nat) (lock : Nat) (h : lock ∉ locks) :
    eraseFirstLock locks lock = none := by
  induction locks with
  | nil => rfl
  | cons x rest ih =>
    have hx : x ≠ lock := fun he => h (he ▸ List.mem_cons_self _ _)
    have hrest : lock ∉ rest := fun hm => h (List.mem_cons_of_mem _ hm)
    simp [eraseFirstLock, hx, ih hrest]

/-- C16, as the claim states it, fails: on a session that holds the locks
`[7, 8]`, `addLock(7)` followed by `removeLock(7)` erases the first `7` and
leaves `[8, 7]`, which is the same elements in another order. -/
theorem addLock_removeLock_reorders :
    removeLock (addLock sessionTwoLocks 7) 7 = Run.ret { sessionTwoLocks with locks := [8, 7] } ∧
    ([8, 7] : List Nat) ≠ sessionTwoLocks.locks := by
  decide

/-- C16, amended. For every session and every lock `l` that is not already in
the session's lock list: `addLock(l)` followed by `removeLock(l)` returns the
session exactly as it was (same locks, same order), and `removeLock(l)`
without the `addLock` hits `INVARIANT(0)`. -/
theorem addLock_removeLock_restores (ctx : SessionCtx) (l : Nat) (h : l ∉ ctx.locks) :
    removeLock (addLock ctx l) l = Run.ret ctx ∧ removeLock ctx l = Run.fatal := by
  constructor
  · simp [removeLock, addLock, eraseFirstLock_append_self ctx.locks l h]
  · simp [removeLock, eraseFirstLock_of_not_mem ctx.locks l h]

/-- Lock 9 is not held by the session holding `[7, 8]`: adding and removing it
restores the session, and removing it directly is fatal. -/
theorem addLock_removeLock_restores_witness :
    removeLock (addLock sessionTwoLocks 9) 9 = Run.ret sessionTwoLocks ∧
    removeLock sessionTwoLocks 9 = Run.fatal :=
  addLock_removeLock_restores sessionTwoLocks 9 (by decide)

theorem keyFind_keySet_self (m : List (String × LockMode)) (k : String) (v : LockMode) :
    keyFind (keySet m k v) k = some v := by
  induction m with
  | nil => simp [keySet, keyFind]
  | cons e rest ih =>
    obtain ⟨k1, v1⟩ := e
    by_cases h : k1 = k
    · simp [keySet, keyFind, h]
    · simp [keySet, keyFind, h, ih]

theorem keyFind_keyErase_self (m : List (String × LockMode)) (k : String) :
    keyFind (keyErase m k) k = none := by
  induction m with
  | nil => rfl
  | cons e rest ih =>
    obtain ⟨k1, v1⟩ := e
    by_cases h : k1 = k
    · simp [keyErase, h, ih]
    · simp [keyErase, keyFind, h, ih]

theorem keyFind_keyErase_other (m : List (String × LockMode)) (k k2 : String) (hne : k2 ≠ k) :
    keyFind (keyErase m k) k2 = keyFind m k2 := by
  induction m with
  | nil => rfl
  | cons e rest ih =>
    obtain ⟨k1, v1⟩ := e
    by_cases h : k1 = k
    · subst h
      simp [keyErase, keyFind, Ne.symm hne, ih]
    · by_cases h2 : k1 = k2
      · subst h2
        simp [keyErase, keyFind, h]
      · simp [keyErase, keyFind, h, h2, ih]

/-- C17. For every numbering `enum2Int` of the lock modes, every session, key
`k` and modes `m1`, `m2`: after `setKeylock(k, m1)`, `isLockedByMe(k, m2)`
returns `true` when `enum2Int m2 ≤ enum2Int m1` and hits the `INVARIANT` when
`enum2Int m2 > enum2Int m1`; and on a session whose key lock map has no entry
for `k`, `isLockedByMe(k, m2)` returns `false`. -/
theorem isLockedByMe_after_setKeylock (enum2Int : LockMode → Nat) (ctx : SessionCtx)
    (k : String) (m1 m2 : LockMode) :
    (enum2Int m2 ≤ enum2Int m1 →
      isLockedByMe enum2Int (setKeylock ctx k m1) k m2 = Run.ret true) ∧
    (enum2Int m1 < enum2Int m2 →
      isLockedByMe enum2Int (setKeylock ctx k m1) k m2 = Run.fatal) ∧
    (keyFind ctx.keylockmap k = none → isLockedByMe enum2Int ctx k m2 = Run.ret false) := by
  refine ⟨?_, ?_, ?_⟩
  · intro hle
    simp [isLockedByMe, setKeylock, keyFind_keySet_self, hle]
  · intro hlt
    simp [isLockedByMe, setKeylock, keyFind_keySet_self, Nat.not_le.mpr hlt]
  · intro hnone
    simp [isLockedByMe, hnone]

/-- With the numbering `lockModeValue`: after `setKeylock("c", LOCK_S)`, asking
for `LOCK_IX` answers `true`, asking for `LOCK_X` is fatal, and a key that was
never set answers `false`. -/
theorem isLockedByMe_after_setKeylock_witness :
    isLockedByMe lockModeValue (setKeylock sessionTwoKeys "c" LockMode.LOCK_S) "c"
        LockMode.LOCK_IX = Run.ret true ∧
    isLockedByMe lockModeValue (setKeylock sessionTwoKeys "c" LockMode.LOCK_S) "c"
        LockMode.LOCK_X = Run.fatal ∧
    isLockedByMe lockModeValue sessionTwoKeys "c" LockMode.LOCK_X = Run.ret false :=
  ⟨(isLockedByMe_after_setKeylock lockModeValue sessionTwoKeys "c" LockMode.LOCK_S
      LockMode.LOCK_IX).1 (by decide),
   (isLockedByMe_after_setKeylock lockModeValue sessionTwoKeys "c" LockMode.LOCK_S
      LockMode.LOCK_X).2.1 (by decide),
   (isLockedByMe_after_setKeylock lockModeValue sessionTwoKeys "c" LockMode.LOCK_S
      LockMode.LOCK_X).2.2 (by decide)⟩

/-- C19. `unsetKeylock(k)` hits the `INVARIANT` exactly when the session's key
lock map has no entry for `k`. When it has one, `unsetKeylock(k)` returns the
session with that map changed only: `k` has no entry any more, every other
key keeps its mode, and `isLockedByMe(k, m)` then answers `false` for every
mode `m` (and every numbering of the modes). -/
theorem unsetKeylock_contract (ctx : SessionCtx) (k : String) :
    (unsetKeylock ctx k = Run.fatal ↔ keyFind ctx.keylockmap k = none) ∧
    (∀ held, keyFind ctx.keylockmap k = some held →
      unsetKeylock ctx k = Run.ret { ctx with keylockmap := keyErase ctx.keylockmap k } ∧
      keyFind (keyErase ctx.keylockmap k) k = none ∧
      (∀ k2, k2 ≠ k → keyFind (keyErase ctx.keylockmap k) k2 = keyFind ctx.keylockmap k2) ∧
      (∀ enum2Int m,
        isLockedByMe enum2Int { ctx with keylockmap := keyErase ctx.keylockmap k } k m =
          Run.ret false)) := by
  constructor
  · cases h : keyFind ctx.keylockmap k <;> simp [unsetKeylock, h]
  · intro held h
    refine ⟨by simp [unsetKeylock, h], keyFind_keyErase_self _ _, ?_, ?_⟩
    · intro k2 hne
      exact keyFind_keyErase_other _ _ _ hne
    · intro enum2Int m
      simp [isLockedByMe, keyFind_keyErase_self]

/-- On the session holding `a` in `LOCK_S` and `b` in `LOCK_X`:
`unsetKeylock("a")` leaves only `b`, and `unsetKeylock("c")` is fatal. -/
theorem unsetKeylock_contract_witness :
    unsetKeylock sessionTwoKeys "a" =
      Run.ret { sessionTwoKeys with keylockmap := [("b", LockMode.LOCK_X)] } ∧
    unsetKeylock sessionTwoKeys "c" = Run.fatal :=
  ⟨((unsetKeylock_contract sessionTwoKeys "a").2 LockMode.LOCK_S rfl).1,
   (unsetKeylock_contract sessionTwoKeys "c").1.mpr rfl⟩

/-- C18. Whatever session a run of `createTransaction` calls ends in, the
transaction map is empty after `commitAll` and after `rollbackAll`, whatever
the commits and rollbacks answered. -/
theorem txnMap_empty_after_commitAll_or_rollbackAll (ctx : SessionCtx)
    (stores : List KVStore) (cmd : String) (ctx1 : SessionCtx) :
    createTransactions ctx stores = Run.ret ctx1 →
    (commitAll ctx1 cmd).ctx.txnMap = [] ∧ (rollbackAll ctx1).ctx.txnMap = [] :=
  fun _ => ⟨rfl, rfl⟩

/-- Transactions are created on stores 1 and 2 in a session that holds one for
store 0; the commit and the rollback of store 2 fail; the map is empty after
either call. -/
theorem txnMap_empty_after_commitAll_or_rollbackAll_witness :
    createTransactions sessionOneTxn [storeCreates, storeCreatesBad, storeCreates] =
      Run.ret { txnMap := [(0, txnGood 10), (1, txnGood 11), (2, txnBad 12)] } ∧
    (commitAll { txnMap := [(0, txnGood 10), (1, txnGood 11), (2, txnBad 12)] } "mset").status.ok
      = false ∧
    (commitAll { txnMap := [(0, txnGood 10), (1, txnGood 11), (2, txnBad 12)] } "mset").ctx.txnMap
      = [] ∧
    (rollbackAll { txnMap := [(0, txnGood 10), (1, txnGood 11), (2, txnBad 12)] }).ctx.txnMap
      = [] :=
  ⟨by decide, by decide,
   txnMap_empty_after_commitAll_or_rollbackAll sessionOneTxn
     [storeCreates, storeCreatesBad, storeCreates] "mset" _ (by decide)⟩

/-! ## The controller scans -/

/-- What a `forEach` loop that returns has done: every element has had its body
run, the element afterwards and the jobs are those of the bodies, and `doSth`
is set exactly when one body set it. -/
theorem forEach_ret {α : Type} (body : Nat → α → Run (Bool × α × List Job)) (l : List α) :
    ∀ (k : Nat) (d : Bool) (l1 : List α) (jobs : List Job),
      forEach body k l = Run.ret (d, l1, jobs) →
      l1.length = l.length ∧
      (∀ j a, l[j]? = some a → ∃ dj a1 js, body (k + j) a = Run.ret (dj, a1, js) ∧
          l1[j]? = some a1 ∧ (dj = true → d = true) ∧ ∀ job ∈ js, job ∈ jobs) ∧
      (∀ job ∈ jobs, ∃ j a dj a1 js, l[j]? = some a ∧
          body (k + j) a = Run.ret (dj, a1, js) ∧ l1[j]? = some a1 ∧ job ∈ js) ∧
      (d = true → ∃ j a a1 js, l[j]? = some a ∧ body (k + j) a = Run.ret (true, a1, js)) := by
  induction l with
  | nil =>
    intro k d l1 jobs h
    simp only [forEach, Run.ret.injEq, Prod.mk.injEq] at h
    obtain ⟨hd, hl, hj⟩ := h
    subst hd hl hj
    simp
  | cons a rest ih =>
    intro k d l1 jobs h
    simp only [forEach] at h
    cases hb : body k a with
    | fatal => rw [hb] at h; cases h
    | undefined => rw [hb] at h; cases h
    | ret r1 =>
      rw [hb] at h
      cases hr : forEach body (k + 1) rest with
      | fatal => rw [hr] at h; cases h
      | undefined => rw [hr] at h; cases h
      | ret r2 =>
        rw [hr] at h
        obtain ⟨d1, a1, js1⟩ := r1
        obtain ⟨d2, l2, js2⟩ := r2
        simp only [Run.ret.injEq, Prod.mk.injEq] at h
        obtain ⟨hd, hl, hj⟩ := h
        subst hd hl hj
        obtain ⟨hlen, hall, hjobs, hdo⟩ := ih (k + 1) d2 l2 js2 hr
        refine ⟨by simp [hlen], ?_, ?_, ?_⟩
        · intro j x hx
          cases j with
          | zero =>
            simp only [List.getElem?_cons_zero, Option.some.injEq] at hx
            subst hx
            refine ⟨d1, a1, js1, by simpa using hb, by simp, ?_, ?_⟩
            · intro h1; simp [h1]
            · intro job hjob; exact List.mem_append_left _ hjob
          | succ j =>
            simp only [List.getElem?_cons_succ] at hx
            obtain ⟨dj, x1, js, hbody, hget, hdj, hmem⟩ := hall j x hx
            refine ⟨dj, x1, js, ?_, by simpa using hget, ?_, ?_⟩
            · rw [show k + (j + 1) = k + 1 + j by omega]; exact hbody
            · intro h1; simp [hdj h1]
            · intro job hjob; exact List.mem_append_right _ (hmem job hjob)
        · intro job hjob
          rcases List.mem_append.mp hjob with h1 | h2
          · exact ⟨0, a, d1, a1, js1, by simp, by simpa using hb, by simp, h1⟩
          · obtain ⟨j, x, dj, x1, js, hx, hbody, hget, hmem⟩ := hjobs job h2
            refine ⟨j + 1, x, dj, x1, js, by simpa using hx, ?_, by simpa using hget, hmem⟩
            rw [show k + (j + 1) = k + 1 + j by omega]; exact hbody
        · intro hd
          rcases Bool.or_eq_true _ _ |>.mp hd with h1 | h2
          · subst h1
            exact ⟨0, a, a1, js1, by simp, by simpa using hb⟩
          · obtain ⟨j, x, x1, js, hx, hbody⟩ := hdo h2
            refine ⟨j + 1, x, x1, js, by simpa using hx, ?_⟩
            rw [show k + (j + 1) = k + 1 + j by omega]; exact hbody

/-- A `forEach` loop returns when every body returns. -/
theorem forEach_total {α : Type} (body : Nat → α → Run (Bool × α × List Job)) (l : List α) :
    ∀ (k : Nat), (∀ j a, l[j]? = some a → ∃ r, body (k + j) a = Run.ret r) →
      ∃ r, forEach body k l = Run.ret r := by
  induction l with
  | nil => intro k _; exact ⟨_, rfl⟩
  | cons a rest ih =>
    intro k h
    obtain ⟨r1, h1⟩ := h 0 a (by simp)
    obtain ⟨r2, h2⟩ := ih (k + 1) (fun j x hx => by
      have := h (j + 1) x (by simpa using hx)
      rwa [show k + (j + 1) = k + 1 + j by omega] at this)
    simp only [Nat.add_zero] at h1
    exact ⟨(r1.1 || r2.1, r1.2.1 :: r2.2.1, r1.2.2 ++ r2.2.2), by simp only [forEach, h1, h2]⟩

/-- A `forEach` loop keeps what every body keeps. -/
theorem forEach_map_eq {α β : Type} (body : Nat → α → Run (Bool × α × List Job)) (f : α → β)
    (hf : ∀ i a d a1 js, body i a = Run.ret (d, a1, js) → f a1 = f a) (l : List α) :
    ∀ (k : Nat) (d : Bool) (l1 : List α) (jobs : List Job),
      forEach body k l = Run.ret (d, l1, jobs) → l1.map f = l.map f := by
  induction l with
  | nil =>
    intro k d l1 jobs h
    simp only [forEach, Run.ret.injEq, Prod.mk.injEq] at h
    rw [← h.2.1]
  | cons a rest ih =>
    intro k d l1 jobs h
    simp only [forEach] at h
    cases hb : body k a with
    | fatal => rw [hb] at h; cases h
    | undefined => rw [hb] at h; cases h
    | ret r1 =>
      rw [hb] at h
      cases hr : forEach body (k + 1) rest with
      | fatal => rw [hr] at h; cases h
      | undefined => rw [hr] at h; cases h
      | ret r2 =>
        rw [hr] at h
        obtain ⟨d1, a1, js1⟩ := r1
        obtain ⟨d2, l2, js2⟩ := r2
        simp only [Run.ret.injEq, Prod.mk.injEq] at h
        obtain ⟨_, hl, _⟩ := h
        subst hl
        simp [hf k a d1 a1 js1 hb, ih (k + 1) d2 l2 js2 hr]

theorem mapFind_of_getElem? {β : Type} (m : List (Nat × β)) :
    ∀ (p c : Nat) (v : β), m[p]? = some (c, v) → (m.map Prod.fst).Nodup →
      mapFind m c = some v := by
  induction m with
  | nil => intro p c v h; simp at h
  | cons e rest ih =>
    intro p c v h hnd
    obtain ⟨k1, v1⟩ := e
    simp only [List.map_cons, List.nodup_cons] at hnd
    cases p with
    | zero =>
      simp only [List.getElem?_cons_zero, Option.some.injEq, Prod.mk.injEq] at h
      simp [mapFind, h.1, h.2]
    | succ p =>
      simp only [List.getElem?_cons_succ] at h
      have hmem : c ∈ rest.map Prod.fst :=
        List.mem_map.mpr ⟨(c, v), List.getElem?_mem h, rfl⟩
      have hne : k1 ≠ c := fun he => hnd.1 (he ▸ hmem)
      simp [mapFind, hne, ih p c v h hnd.2]

/-- The body of the slave scan schedules a job only for its own store, only
when the store is not running, and marks it running. -/
theorem schedSlaveBody_job (syncMeta : List StoreMeta) (now i : Nat) (sp sp1 : SPovStatus)
    (d : Bool) (js : List Job) (h : schedSlaveBody syncMeta now i sp = Run.ret (d, sp1, js))
    (job : Job) (hjob : job ∈ js) :
    job.subject = Subject.slave i ∧ sp.isRunning = false ∧ sp1.isRunning = true := by
  unfold schedSlaveBody at h
  split at h
  · simp only [Run.ret.injEq, Prod.mk.injEq] at h
    rw [← h.2.2] at hjob
    simp at hjob
  · rename_i hskip
    have hrun : sp.isRunning = false := by
      cases hr : sp.isRunning
      · rfl
      · simp [hr] at hskip
    split at h
    · cases h
    · split at h
      · simp only [Run.ret.injEq, Prod.mk.injEq] at h
        rw [← h.2.2] at hjob
        simp at hjob
      · split at h
        · simp only [Run.ret.injEq, Prod.mk.injEq] at h
          rw [← h.2.2] at hjob
          simp only [List.mem_singleton] at hjob
          subst hjob
          exact ⟨rfl, hrun, by rw [← h.2.1]⟩
        · split at h
          · simp only [Run.ret.injEq, Prod.mk.injEq] at h
            rw [← h.2.2] at hjob
            simp only [List.mem_singleton] at hjob
            subst hjob
            exact ⟨rfl, hrun, by rw [← h.2.1]⟩
          · split at h
            · cases h
            · simp only [Run.ret.injEq, Prod.mk.injEq] at h
              rw [← h.2.2] at hjob
              simp at hjob

/-- The body of the master scan for one entry schedules a job only for its own
`(store, client)` pair, only when the pair is not running, and marks it
running; the client id of the entry is kept. -/
theorem schedMasterEntry_job (now i p : Nat) (e e1 : Nat × MPovStatus)
    (d : Bool) (js : List Job) (h : schedMasterEntry now i p e = Run.ret (d, e1, js)) :
    e1.1 = e.1 ∧ ∀ job ∈ js,
      job.subject = Subject.master i e.1 ∧ e.2.isRunning = false ∧ e1.2.isRunning = true := by
  unfold schedMasterEntry at h
  split at h
  · simp only [Run.ret.injEq, Prod.mk.injEq] at h
    refine ⟨by rw [← h.2.1], ?_⟩
    intro job hjob
    rw [← h.2.2] at hjob
    simp at hjob
  · rename_i hskip
    have hrun : e.2.isRunning = false := by
      cases hr : e.2.isRunning
      · rfl
      · simp [hr] at hskip
    simp only [Run.ret.injEq, Prod.mk.injEq] at h
    refine ⟨by rw [← h.2.1], ?_⟩
    intro job hjob
    rw [← h.2.2] at hjob
    simp only [List.mem_singleton] at hjob
    subst hjob
    exact ⟨rfl, hrun, by rw [← h.2.1]⟩

/-- The body of the recycle scan schedules a job only for its own store, only
when the recycler of the store is not running, and marks it running. -/
theorem schedRecycLogBody_job (pushStatus : List (List (Nat × MPovStatus))) (now i : Nat)
    (r r1 : RecycleBinlogStatus) (d : Bool) (js : List Job)
    (h : schedRecycLogBody pushStatus now i r = Run.ret (d, r1, js))
    (job : Job) (hjob : job ∈ js) :
    job.subject = Subject.recycle i ∧ r.isRunning = false ∧ r1.isRunning = true := by
  unfold schedRecycLogBody at h
  split at h
  · simp only [Run.ret.injEq, Prod.mk.injEq] at h
    rw [← h.2.2] at hjob
    simp at hjob
  · rename_i hskip
    have hrun : r.isRunning = false := by
      cases hr : r.isRunning
      · rfl
      · simp [hr] at hskip
    split at h
    · cases h
    · simp only [Run.ret.injEq, Prod.mk.injEq] at h
      rw [← h.2.2] at hjob
      simp only [List.mem_singleton] at hjob
      subst hjob
      exact ⟨rfl, hrun, by rw [← h.2.1]⟩

theorem schedSlaveInLock_flags (st : ReplManager) (now : Nat) (d : Bool) (st1 : ReplManager)
    (jobs : List Job) (h : schedSlaveInLock st now = Run.ret (d, st1, jobs)) :
    ∀ job ∈ jobs,
      st.isRunningOf job.subject = some false ∧ st1.isRunningOf job.subject = some true := by
  unfold schedSlaveInLock at h
  cases hf : forEach (schedSlaveBody st.syncMeta now) 0 st.syncStatus with
  | fatal => rw [hf] at h; cases h
  | undefined => rw [hf] at h; cases h
  | ret r =>
    rw [hf] at h
    obtain ⟨d0, sps, js⟩ := r
    simp only [Run.ret.injEq, Prod.mk.injEq] at h
    obtain ⟨_, hst, hjs⟩ := h
    subst hst hjs
    obtain ⟨_, _, hjobs, _⟩ := forEach_ret _ _ _ _ _ _ hf
    intro job hjob
    obtain ⟨j, sp, dj, sp1, js1, hget, hbody, hget1, hmem⟩ := hjobs job hjob
    obtain ⟨hsub, hrun, hrun1⟩ := schedSlaveBody_job _ _ _ _ _ _ _ hbody job hmem
    simp only [Nat.zero_add] at hsub
    simp [hsub, ReplManager.isRunningOf, hget, hget1, hrun, hrun1]

theorem schedRecycLogInLock_flags (st : ReplManager) (now : Nat) (d : Bool)
    (st1 : ReplManager) (jobs : List Job)
    (h : schedRecycLogInLock st now = Run.ret (d, st1, jobs)) :
    ∀ job ∈ jobs,
      st.isRunningOf job.subject = some false ∧ st1.isRunningOf job.subject = some true := by
  unfold schedRecycLogInLock at h
  cases hf : forEach (schedRecycLogBody st.pushStatus now) 0 st.logRecycStatus with
  | fatal => rw [hf] at h; cases h
  | undefined => rw [hf] at h; cases h
  | ret r =>
    rw [hf] at h
    obtain ⟨d0, rs, js⟩ := r
    simp only [Run.ret.injEq, Prod.mk.injEq] at h
    obtain ⟨_, hst, hjs⟩ := h
    subst hst hjs
    obtain ⟨_, _, hjobs, _⟩ := forEach_ret _ _ _ _ _ _ hf
    intro job hjob
    obtain ⟨j, r, dj, r1, js1, hget, hbody, hget1, hmem⟩ := hjobs job hjob
    obtain ⟨hsub, hrun, hrun1⟩ := schedRecycLogBody_job _ _ _ _ _ _ _ hbody job hmem
    simp only [Nat.zero_add] at hsub
    simp [hsub, ReplManager.isRunningOf, hget, hget1, hrun, hrun1]

theorem schedMasterBody_keys (now i : Nat) (m m1 : List (Nat × MPovStatus)) (d : Bool)
    (js : List Job) (h : schedMasterBody now i m = Run.ret (d, m1, js)) :
    m1.map Prod.fst = m.map Prod.fst :=
  forEach_map_eq (schedMasterEntry now i) Prod.fst
    (fun p e d1 e1 js1 he => (schedMasterEntry_job now i p e e1 d1 js1 he).1) m 0 d m1 js h

theorem schedMasterInLock_keys (st : ReplManager) (now : Nat) (d : Bool) (st1 : ReplManager)
    (jobs : List Job) (h : schedMasterInLock st now = Run.ret (d, st1, jobs))
    (hkeys : st.pushKeysDistinct) : st1.pushKeysDistinct := by
  unfold schedMasterInLock at h
  cases hf : forEach (schedMasterBody now) 0 st.pushStatus with
  | fatal => rw [hf] at h; cases h
  | undefined => rw [hf] at h; cases h
  | ret r =>
    rw [hf] at h
    obtain ⟨d0, ps, js⟩ := r
    simp only [Run.ret.injEq, Prod.mk.injEq] at h
    obtain ⟨_, hst, _⟩ := h
    subst hst
    obtain ⟨hlen, hall, _, _⟩ := forEach_ret _ _ _ _ _ _ hf
    intro m1 hm1
    obtain ⟨i, hi⟩ := List.getElem?_of_mem hm1
    have hlt : i < st.pushStatus.length := by
      rw [← hlen]; exact lt_length_of_getElem? _ _ _ hi
    obtain ⟨dj, m2, js2, hbody, hget, _, _⟩ :=
      hall i st.pushStatus[i] (List.getElem?_eq_getElem hlt)
    simp only at hi
    rw [hi] at hget
    cases hget
    rw [schedMasterBody_keys _ _ _ _ _ _ hbody]
    exact hkeys _ (List.getElem_mem _)

theorem schedMasterInLock_flags (st : ReplManager) (now : Nat) (d : Bool) (st1 : ReplManager)
    (jobs : List Job) (h : schedMasterInLock st now = Run.ret (d, st1, jobs))
    (hkeys : st.pushKeysDistinct) :
    ∀ job ∈ jobs,
      st.isRunningOf job.subject = some false ∧ st1.isRunningOf job.subject = some true := by
  have hkeys1 := schedMasterInLock_keys st now d st1 jobs h hkeys
  unfold schedMasterInLock at h
  cases hf : forEach (schedMasterBody now) 0 st.pushStatus with
  | fatal => rw [hf] at h; cases h
  | undefined => rw [hf] at h; cases h
  | ret r =>
    rw [hf] at h
    obtain ⟨d0, ps, js⟩ := r
    simp only [Run.ret.injEq, Prod.mk.injEq] at h
    obtain ⟨_, hst, hjs⟩ := h
    subst hst hjs
    obtain ⟨_, _, hjobs, _⟩ := forEach_ret _ _ _ _ _ _ hf
    intro job hjob
    obtain ⟨i, m, dj, m1, js1, hget, hbody, hget1, hmem⟩ := hjobs job hjob
    simp only [Nat.zero_add] at hbody
    obtain ⟨_, _, hjobs2, _⟩ := forEach_ret _ _ _ _ _ _ hbody
    obtain ⟨p, e, de, e1, js2, hpe, hentry, hpe1, hmem2⟩ := hjobs2 job hmem
    obtain ⟨hkey, hprop⟩ := schedMasterEntry_job _ _ _ _ _ _ _ hentry
    obtain ⟨hsub, hrun, hrun1⟩ := hprop job hmem2
    have hfind : mapFind m e.1 = some e.2 :=
      mapFind_of_getElem? m p e.1 e.2 hpe (hkeys m (List.getElem?_mem hget))
    have hfind1 : mapFind m1 e.1 = some e1.2 := by
      have := mapFind_of_getElem? m1 p e1.1 e1.2 hpe1 (hkeys1 m1 (List.getElem?_mem hget1))
      rwa [hkey] at this
    simp [hsub, ReplManager.isRunningOf, hget, hget1, hfind, hfind1, hrun, hrun1]

/-! ## The recycle scan -/

theorem foldl_min_le_init (push : List (Nat × MPovStatus)) (init : Nat) :
    push.foldl (fun e mpov => min e mpov.2.binlogPos) init ≤ init := by
  induction push generalizing init with
  | nil => simp
  | cons x rest ih =>
    simp only [List.foldl_cons]
    exact Nat.le_trans (ih _) (Nat.min_le_left _ _)

theorem foldl_min_le_mem (push : List (Nat × MPovStatus)) (init : Nat) :
    ∀ e ∈ push, push.foldl (fun e mpov => min e mpov.2.binlogPos) init ≤ e.2.binlogPos := by
  induction push generalizing init with
  | nil => intro e he; simp at he
  | cons x rest ih =>
    intro e he
    simp only [List.foldl_cons]
    rcases List.mem_cons.mp he with h | h
    · subst h
      exact Nat.le_trans (foldl_min_le_init _ _) (Nat.min_le_right _ _)
    · exact ih _ e h

theorem foldl_min_eq (push : List (Nat × MPovStatus)) (init : Nat) :
    push.foldl (fun e mpov => min e mpov.2.binlogPos) init = init ∨
    ∃ e ∈ push, push.foldl (fun e mpov => min e mpov.2.binlogPos) init = e.2.binlogPos := by
  induction push generalizing init with
  | nil => left; rfl
  | cons x rest ih =>
    simp only [List.foldl_cons]
    rcases ih (min init x.2.binlogPos) with h | ⟨e, he, h⟩
    · rcases Nat.le_total init x.2.binlogPos with hle | hle
      · left; rw [h, Nat.min_eq_left hle]
      · right; exact ⟨x, List.mem_cons_self _ _, by rw [h, Nat.min_eq_right hle]⟩
    · right; exact ⟨e, List.mem_cons_of_mem _ he, h⟩

/-- The value `endLogIdOf push` is the maximum 64-bit value when there is no
entry, and otherwise the minimum `binlogPos` of the entries (a bound below
all of them that one of them attains). -/
theorem endLogIdOf_spec (push : List (Nat × MPovStatus)) :
    (push = [] → endLogIdOf push = UINT64_MAX) ∧
    (∀ e ∈ push, endLogIdOf push ≤ e.2.binlogPos) ∧
    (push ≠ [] → (∀ e ∈ push, e.2.binlogPos ≤ UINT64_MAX) →
      ∃ e ∈ push, endLogIdOf push = e.2.binlogPos) := by
  refine ⟨?_, foldl_min_le_mem push UINT64_MAX, ?_⟩
  · intro h; subst h; rfl
  · intro hne hbound
    rcases foldl_min_eq push UINT64_MAX with h | h
    · cases push with
      | nil => exact absurd rfl hne
      | cons x rest =>
        refine ⟨x, List.mem_cons_self _ _, ?_⟩
        have h1 := foldl_min_le_mem (x :: rest) UINT64_MAX x (List.mem_cons_self _ _)
        have h2 := hbound x (List.mem_cons_self _ _)
        unfold endLogIdOf
        omega
    · exact h

theorem schedRecycLogBody_due (pushStatus : List (List (Nat × MPovStatus))) (now i : Nat)
    (r : RecycleBinlogStatus) (push : List (Nat × MPovStatus))
    (hpush : pushStatus[i]? = some push) (hrun : r.isRunning = false)
    (hdue : r.nextSchedTime ≤ now) :
    schedRecycLogBody pushStatus now i r =
      Run.ret (true, { r with isRunning := true },
        [Job.recycleBinlog i r.firstBinlogId (endLogIdOf push) (decide (push = []))]) := by
  have hnot : ¬ now < r.nextSchedTime := Nat.not_lt.mpr hdue
  simp [schedRecycLogBody, hrun, hnot, hpush]

theorem schedRecycLogBody_inv (pushStatus : List (List (Nat × MPovStatus))) (now i : Nat)
    (r r1 : RecycleBinlogStatus) (d : Bool) (js : List Job)
    (h : schedRecycLogBody pushStatus now i r = Run.ret (d, r1, js)) (job : Job)
    (hjob : job ∈ js) :
    ∃ push, pushStatus[i]? = some push ∧ r.isRunning = false ∧ r.nextSchedTime ≤ now ∧
      job = Job.recycleBinlog i r.firstBinlogId (endLogIdOf push) (decide (push = [])) := by
  unfold schedRecycLogBody at h
  split at h
  · simp only [Run.ret.injEq, Prod.mk.injEq] at h
    rw [← h.2.2] at hjob
    simp at hjob
  · rename_i hskip
    simp only [Bool.or_eq_true, decide_eq_true_eq, not_or, Bool.not_eq_true, Nat.not_lt]
      at hskip
    split at h
    · cases h
    · rename_i push hpush
      simp only [Run.ret.injEq, Prod.mk.injEq] at h
      rw [← h.2.2] at hjob
      simp only [List.mem_singleton] at hjob
      exact ⟨push, hpush, hskip.1, hskip.2, by simp [hjob]⟩

/-- C20. On a manager that has a push map for every recycle status, the recycle
scan returns, and
* for every store `i` whose recycler is not running and is due
  (`nextSchedTime ≤ now`), it schedules
  `recycleBinlog(i, oldFirstBinlog, endLogId, saveLogs)` with
  `oldFirstBinlog` the store's `firstBinlogId`, `endLogId = endLogIdOf` of
  the store's push entries and `saveLogs` true exactly when the store has no
  push entry, and marks the recycler running;
* it schedules nothing else;
* `endLogId` is the maximum 64-bit value when the store has no push entry and
  the minimum `binlogPos` of its push entries otherwise. -/
theorem schedRecycLogInLock_schedules (st : ReplManager) (now : Nat)
    (hlen : st.logRecycStatus.length ≤ st.pushStatus.length) :
    (∃ d st1 jobs, schedRecycLogInLock st now = Run.ret (d, st1, jobs) ∧
      (∀ i r push, st.logRecycStatus[i]? = some r → st.pushStatus[i]? = some push →
        r.isRunning = false → r.nextSchedTime ≤ now →
        Job.recycleBinlog i r.firstBinlogId (endLogIdOf push) (decide (push = [])) ∈ jobs ∧
        st1.logRecycStatus[i]? = some { r with isRunning := true }) ∧
      (∀ job ∈ jobs, ∃ i r push, st.logRecycStatus[i]? = some r ∧
        st.pushStatus[i]? = some push ∧ r.isRunning = false ∧ r.nextSchedTime ≤ now ∧
        job = Job.recycleBinlog i r.firstBinlogId (endLogIdOf push) (decide (push = [])))) ∧
    (∀ push : List (Nat × MPovStatus),
      (push = [] → endLogIdOf push = UINT64_MAX) ∧
      (∀ e ∈ push, endLogIdOf push ≤ e.2.binlogPos) ∧
      (push ≠ [] → (∀ e ∈ push, e.2.binlogPos ≤ UINT64_MAX) →
        ∃ e ∈ push, endLogIdOf push = e.2.binlogPos)) := by
  refine ⟨?_, endLogIdOf_spec⟩
  have htotal : ∃ r, forEach (schedRecycLogBody st.pushStatus now) 0 st.logRecycStatus
      = Run.ret r := by
    apply forEach_total
    intro j r hr
    have hj : j < st.pushStatus.length :=
      Nat.lt_of_lt_of_le (lt_length_of_getElem? _ _ _ hr) hlen
    unfold schedRecycLogBody
    split
    · exact ⟨_, rfl⟩
    · simp only [Nat.zero_add, List.getElem?_eq_getElem hj]
      exact ⟨_, rfl⟩
  obtain ⟨⟨d, rs, jobs⟩, hf⟩ := htotal
  obtain ⟨_, hall, hjobs, _⟩ := forEach_ret _ _ _ _ _ _ hf
  refine ⟨d, { st with logRecycStatus := rs }, jobs, by simp [schedRecycLogInLock, hf], ?_, ?_⟩
  · intro i r push hr hpush hrun hdue
    obtain ⟨dj, r1, js, hbody, hget, _, hmem⟩ := hall i r hr
    simp only [Nat.zero_add] at hbody
    rw [schedRecycLogBody_due _ _ _ _ _ hpush hrun hdue] at hbody
    simp only [Run.ret.injEq, Prod.mk.injEq] at hbody
    obtain ⟨_, hr1, hjs⟩ := hbody
    subst hr1 hjs
    exact ⟨hmem _ (List.mem_singleton_self _), hget⟩
  · intro job hjob
    obtain ⟨j, r, dj, r1, js, hget, hbody, _, hmem⟩ := hjobs job hjob
    simp only [Nat.zero_add] at hbody
    obtain ⟨push, hpush, hrun, hdue, hjobeq⟩ := schedRecycLogBody_inv _ _ _ _ _ _ _ hbody job hmem
    exact ⟨j, r, push, hget, hpush, hrun, hdue, hjobeq⟩

/-- Scenario S6 and the boundary case of no downstream, on `managerScan` at time
100: store 0 has clients at positions 50 and 80 and gets `endLogId = 50`,
`saveLogs = false`; store 1 has no client and gets the maximum 64-bit value
and `saveLogs = true`. -/
theorem schedRecycLogInLock_schedules_witness :
    ∃ d st1 jobs, schedRecycLogInLock managerScan 100 = Run.ret (d, st1, jobs) ∧
      Job.recycleBinlog 0 10 50 false ∈ jobs ∧
      Job.recycleBinlog 1 20 UINT64_MAX true ∈ jobs := by
  obtain ⟨d, st1, jobs, hret, hdue, _⟩ :=
    (schedRecycLogInLock_schedules managerScan 100 (by decide)).1
  exact ⟨d, st1, jobs, hret,
    (hdue 0 { isRunning := false, firstBinlogId := 10 }
      [(5, { isRunning := false, binlogPos := 50, clientId := 5 }),
       (6, { isRunning := false, binlogPos := 80, clientId := 6 })]
      rfl rfl rfl (by decide)).1,
    (hdue 1 { isRunning := false, firstBinlogId := 20 } [] rfl rfl rfl (by decide)).1⟩

/-! ## recycleBinlog -/

theorem Run.holds_iff {α : Type} (x : Run α) (P : α → Prop) :
    x.Holds P ↔ ∃ a, x = Run.ret a ∧ P a := by
  cases x <;> simp [Run.Holds]

theorem recycleGuard_running (st : ReplManager) (storeId nextSched start : Nat)
    (r : RecycleBinlogStatus) (hr : st.logRecycStatus[storeId]? = some r)
    (hrun : r.isRunning = true) :
    recycleGuard st storeId nextSched start =
      Run.ret { st with
        logRecycStatus := st.logRecycStatus.set storeId
          { r with isRunning := false, nextSchedTime := nextSched, firstBinlogId := start } } := by
  simp [recycleGuard, hr, hrun]

/-- C12. Let `recycleBinlog(storeId, start, end, saveLogs)` be entered at time
`now` on a manager whose recycle status of the store is running (as the scan
left it) and whose store exists, the store answering `getTruncateLog` with
`td = (newStart, entries)` when it answers, with no entry when
`newStart = start`. Then the routine returns, and afterwards:
* the recycle status of the store has `isRunning = false`;
* `firstBinlogId` is `newStart` when the truncation was committed
  (`recycleCommits`) and `start` in every other outcome;
* the store's committed truncations have gained `entries` when the truncation
  was committed and are unchanged in every other outcome;
* `nextSchedTime` is `now` plus one second when `newStart = start`
  (`recycleNothingToDo`), in which case nothing has been archived or
  truncated, and `now` otherwise;
* every other recycle status, and the push statuses, are unchanged. -/
theorem recycleBinlog_outcome (st : ReplManager) (now storeId start endLogId : Nat)
    (saveLogs : Bool) (r : RecycleBinlogStatus) (kv : KVStore) (txn : Transaction)
    (td : Nat × List Nat)
    (hr : st.logRecycStatus[storeId]? = some r) (hrun : r.isRunning = true)
    (hkv : st.svr.stores[storeId]? = some kv)
    (htxn : kv.createTxn.ok = true → kv.createTxn.data = some txn)
    (hlog : kv.truncateLog.ok = true → kv.truncateLog.data = some td)
    (hcontract : td.1 = start → td.2 = []) :
    ∃ st1, recycleBinlog st now storeId start endLogId saveLogs = Run.ret st1 ∧
      st1.logRecycStatus = st.logRecycStatus.set storeId
        { r with
          isRunning := false
          nextSchedTime := if recycleNothingToDo kv start then now + chronoSeconds 1 else now
          firstBinlogId := if recycleCommits st kv start saveLogs then td.1 else start } ∧
      st1.pushStatus = st.pushStatus ∧
      ∃ kv1, st1.svr.stores[storeId]? = some kv1 ∧
        kv1.truncated =
          (if recycleCommits st kv start saveLogs then kv.truncated ++ [td.2]
           else kv.truncated) ∧
        (recycleNothingToDo kv start = true →
          st1.savedBinlogs = st.savedBinlogs ∧ kv1.truncated = kv.truncated) := by
  have hlt : storeId < st.svr.stores.length := lt_length_of_getElem? _ _ _ hkv
  refine (Run.holds_iff _ _).mp ?_
  simp only [Expected.ok, Status.ok, decide_eq_true_eq] at htxn hlog
  by_cases h1 : kv.createTxn.status.code = ErrorCodes.ERR_OK
  · have hd1 := htxn h1
    by_cases h2 : kv.truncateLog.status.code = ErrorCodes.ERR_OK
    · have hd2 := hlog h2
      by_cases h3 : td.1 = start
      · have hd3 := hcontract h3
        simp [Run.Holds, recycleBinlog, ServerEntry.getDb, hkv, Expected.ofValue, Expected.ok,
          Expected.value, Status.OK, Status.ok, KVStore.createTransaction, recycleGuard,
          ServerEntry.putStore, hr, hrun, h1, h2, hd1, hd2, h3, hd3, recycleNothingToDo,
          recycleCommits, hlt, KVStore.getTruncateLog]
      · have h3a : ¬ start = td.1 := fun h => h3 h.symm
        by_cases h5 : kv.truncateStatus.code = ErrorCodes.ERR_OK <;>
        by_cases h6 : txn.commit.status.code = ErrorCodes.ERR_OK <;>
        by_cases h4 : st.saveBinlogsStatus.code = ErrorCodes.ERR_OK <;>
        cases saveLogs <;>
        simp [Run.Holds, recycleBinlog, ServerEntry.getDb, hkv, Expected.ofValue,
          Expected.ok, Expected.value, Status.OK, Status.ok, KVStore.createTransaction,
          recycleGuard, ServerEntry.putStore, hr, hrun, h1, h2, hd1, hd2, h3, h3a, h4, h5,
          h6, recycleNothingToDo, recycleCommits, hlt, KVStore.getTruncateLog,
          recycleTruncate, KVStore.truncateBinlog, KVStore.commitTruncate,
          ReplManager.saveBinlogs]
    · simp [Run.Holds, recycleBinlog, ServerEntry.getDb, hkv, Expected.ofValue, Expected.ok,
        Expected.value, Status.OK, Status.ok, KVStore.createTransaction, recycleGuard,
        ServerEntry.putStore, hr, hrun, h1, h2, hd1, recycleNothingToDo, recycleCommits, hlt,
        KVStore.getTruncateLog]
  · simp [Run.Holds, recycleBinlog, ServerEntry.getDb, hkv, Expected.ofValue, Expected.ok,
      Expected.value, Status.OK, Status.ok, KVStore.createTransaction, recycleGuard,
      ServerEntry.putStore, hr, hrun, h1, recycleNothingToDo, recycleCommits, hlt]

/-- Scenario S5 and its neighbours, on a manager of one store dispatched with
`start = 100`, `end = 200` at time 5000. When the store reports
`(100, [])`, nothing is archived or truncated, `firstBinlogId` stays 100 and
`nextSchedTime` is one second after 5000. When the store reports new start
150 and the commit succeeds, `firstBinlogId` becomes 150. When the commit
fails, `firstBinlogId` stays 100 and nothing is committed. In all three the
status ends not running. -/
theorem recycleBinlog_outcome_witness :
    (∃ st1, recycleBinlog (managerRecycling storeNothingToTruncate) 5000 0 100 200 true =
        Run.ret st1 ∧
      st1.logRecycStatus =
        [{ isRunning := false, firstBinlogId := 100, nextSchedTime := 5000 + chronoSeconds 1 }] ∧
      ∃ kv1, st1.svr.stores[0]? = some kv1 ∧ kv1.truncated = [] ∧ st1.savedBinlogs = []) ∧
    (∃ st1, recycleBinlog (managerRecycling storeTruncates) 5000 0 100 200 true = Run.ret st1 ∧
      st1.logRecycStatus = [{ isRunning := false, firstBinlogId := 150, nextSchedTime := 5000 }] ∧
      ∃ kv1, st1.svr.stores[0]? = some kv1 ∧ kv1.truncated = [List.range' 100 50]) ∧
    (∃ st1, recycleBinlog (managerRecycling storeCommitFails) 5000 0 100 200 false =
        Run.ret st1 ∧
      st1.logRecycStatus = [{ isRunning := false, firstBinlogId := 100, nextSchedTime := 5000 }] ∧
      ∃ kv1, st1.svr.stores[0]? = some kv1 ∧ kv1.truncated = []) := by
  refine ⟨?_, ?_, ?_⟩
  · obtain ⟨st1, hret, hlog, _, kv1, hkv1, _, hnothing⟩ :=
      recycleBinlog_outcome (managerRecycling storeNothingToTruncate) 5000 0 100 200 true
        { isRunning := true, firstBinlogId := 100 } storeNothingToTruncate (txnGood 1) (100, [])
        rfl rfl rfl (fun _ => rfl) (fun _ => rfl) (fun _ => rfl)
    exact ⟨st1, hret, hlog, kv1, hkv1, (hnothing rfl).2, (hnothing rfl).1⟩
  · obtain ⟨st1, hret, hlog, _, kv1, hkv1, htr, _⟩ :=
      recycleBinlog_outcome (managerRecycling storeTruncates) 5000 0 100 200 true
        { isRunning := true, firstBinlogId := 100 } storeTruncates (txnGood 1)
        (150, List.range' 100 50) rfl rfl rfl (fun _ => rfl) (fun _ => rfl) (by decide)
    exact ⟨st1, hret, hlog, kv1, hkv1, htr⟩
  · obtain ⟨st1, hret, hlog, _, kv1, hkv1, htr, _⟩ :=
      recycleBinlog_outcome (managerRecycling storeCommitFails) 5000 0 100 200 false
        { isRunning := true, firstBinlogId := 100 } storeCommitFails (txnBad 1)
        (150, List.range' 100 50) rfl rfl rfl (fun _ => rfl) (fun _ => rfl) (by decide)
    exact ⟨st1, hret, hlog, kv1, hkv1, htr⟩

/-! ## startup -/

/-- The first loop of `startup` on slots that all load: it runs to its end,
appends the installed metas in slot order, has persisted the default metas of
the `ERR_NOTFOUND` slots in slot order, and leaves everything else alone. -/
theorem loadStoreMetas_loads (TXNID_UNINITED : Nat) (c : Catalog) (idx : List Nat) :
    ∀ st : ReplManager, st.svr.catalog.metas = c.metas →
      st.svr.catalog.setAnswer = c.setAnswer →
      (∀ j ∈ idx, slotLoads TXNID_UNINITED c j) →
      loadStoreMetas TXNID_UNINITED idx st =
        Run.ret (none,
          { st with
            syncMeta := st.syncMeta ++ idx.map (installedMeta TXNID_UNINITED c)
            svr := { st.svr with
              catalog := { st.svr.catalog with
                setCalls := st.svr.catalog.setCalls ++
                  (idx.filter (fun j => !(c.getStoreMeta j).ok)).map
                    (defaultMeta TXNID_UNINITED) } } }) := by
  induction idx with
  | nil => intro st _ _ _; simp [loadStoreMetas]
  | cons i rest ih =>
    intro st hm ha hall
    have hget : st.svr.catalog.getStoreMeta i = c.getStoreMeta i := by
      simp [Catalog.getStoreMeta, hm]
    have hrest : ∀ j ∈ rest, slotLoads TXNID_UNINITED c j :=
      fun j hj => hall j (List.mem_cons_of_mem _ hj)
    rcases hall i (List.mem_cons_self _ _) with ⟨hok, hdata⟩ | ⟨hnf, hset⟩
    · obtain ⟨m, hm1⟩ := Option.ne_none_iff_exists'.mp hdata
      rw [loadStoreMetas]
      simp only [hget, hok, if_true, Expected.value, hm1]
      rw [ih { st with syncMeta := st.syncMeta ++ [m] } hm ha hrest]
      simp [installedMeta, hok, hm1]
    · have hnok : (c.getStoreMeta i).ok = false := by
        simp [Expected.ok, Status.ok, hnf]
      have hset1 : (st.svr.catalog.setStoreMeta (defaultMeta TXNID_UNINITED i)).1.ok = true := by
        simpa [Catalog.setStoreMeta, ha] using hset
      rw [loadStoreMetas]
      simp only [hget, hnok, hnf, hset1, if_true, Bool.false_eq_true, if_false, Bool.not_true]
      rw [ih _ (by simpa [Catalog.setStoreMeta] using hm)
        (by simpa [Catalog.setStoreMeta] using ha) hrest]
      simp [installedMeta, hnok, Catalog.setStoreMeta]


/-- The first loop of `startup` when the slot `i` fails after slots that all
load: it returns the error of slot `i`. -/
theorem loadStoreMetas_aborts (TXNID_UNINITED : Nat) (c : Catalog) (i : Nat) (post : List Nat)
    (pre : List Nat) :
    ∀ st : ReplManager, st.svr.catalog.metas = c.metas →
      st.svr.catalog.setAnswer = c.setAnswer →
      (∀ j ∈ pre, slotLoads TXNID_UNINITED c j) → slotFails TXNID_UNINITED c i →
      ∃ st1, loadStoreMetas TXNID_UNINITED (pre ++ i :: post) st =
        Run.ret (some (slotError TXNID_UNINITED c i), st1) := by
  induction pre with
  | nil =>
    intro st hm ha _ hfail
    have hget : st.svr.catalog.getStoreMeta i = c.getStoreMeta i := by
      simp [Catalog.getStoreMeta, hm]
    obtain ⟨hnok, hnf⟩ := hfail
    by_cases hcode : (c.getStoreMeta i).status.code = ErrorCodes.ERR_NOTFOUND
    · have hset : (st.svr.catalog.setStoreMeta (defaultMeta TXNID_UNINITED i)).1.ok = false := by
        simpa [Catalog.setStoreMeta, ha] using hnf hcode
      have hseteq : (st.svr.catalog.setStoreMeta (defaultMeta TXNID_UNINITED i)).1 =
          (c.setStoreMeta (defaultMeta TXNID_UNINITED i)).1 := by
        simp [Catalog.setStoreMeta, ha]
      refine ⟨{ st with svr := { st.svr with
        catalog := (st.svr.catalog.setStoreMeta (defaultMeta TXNID_UNINITED i)).2 } }, ?_⟩
      rw [List.nil_append, loadStoreMetas]
      simp only [hget, hnok, hcode, hset, slotError, hseteq, hnf hcode, if_true,
        Bool.false_eq_true, if_false, Bool.not_false]
    · refine ⟨st, ?_⟩
      rw [List.nil_append, loadStoreMetas]
      simp only [hget, hnok, hcode, slotError, Bool.false_eq_true, if_false]
  | cons j pre1 ih =>
    intro st hm ha hall hfail
    have hj := loadStoreMetas_loads TXNID_UNINITED c [j] st hm ha
      (fun k hk => hall k (by
        rw [List.mem_singleton] at hk
        subst hk
        exact List.mem_cons_self _ _))
    have hget : st.svr.catalog.getStoreMeta j = c.getStoreMeta j := by
      simp [Catalog.getStoreMeta, hm]
    have hrest : ∀ k ∈ pre1, slotLoads TXNID_UNINITED c k :=
      fun k hk => hall k (List.mem_cons_of_mem _ hk)
    rcases hall j (List.mem_cons_self _ _) with ⟨hok, hdata⟩ | ⟨hnf, hset⟩
    · obtain ⟨m, hm1⟩ := Option.ne_none_iff_exists'.mp hdata
      rw [List.cons_append, loadStoreMetas]
      simp only [hget, hok, if_true, Expected.value, hm1]
      exact ih { st with syncMeta := st.syncMeta ++ [m] } hm ha hrest hfail
    · have hnok : (c.getStoreMeta j).ok = false := by
        simp [Expected.ok, Status.ok, hnf]
      have hset1 : (st.svr.catalog.setStoreMeta (defaultMeta TXNID_UNINITED j)).1.ok = true := by
        simpa [Catalog.setStoreMeta, ha] using hset
      rw [List.cons_append, loadStoreMetas]
      simp only [hget, hnok, hnf, hset1, if_true, Bool.false_eq_true, if_false, Bool.not_true]
      exact ih _ (by simpa [Catalog.setStoreMeta] using hm)
        (by simpa [Catalog.setStoreMeta] using ha) hrest hfail

/-- The body of the last loop of `startup` leaves the metas, the catalog and
the push maps alone, and appends at most one recycle status, which is not
running. -/
theorem initStore_frame (TXNID_UNINITED : Nat) (env : StartupEnv) (i : Nat)
    (st : ReplManager) (o : Option Status) (st1 : ReplManager)
    (h : initStore TXNID_UNINITED env i st = Run.ret (o, st1)) :
    st1.syncMeta = st.syncMeta ∧ st1.svr.catalog = st.svr.catalog ∧
    st1.pushStatus = st.pushStatus ∧
    (st1.logRecycStatus = st.logRecycStatus ∨
      ∃ r, st1.logRecycStatus = st.logRecycStatus ++ [r] ∧ r.isRunning = false) ∧
    (∀ s, o = some s → s.ok = false) := by
  unfold initStore at h
  simp only at h
  repeat' (split at h)
  all_goals first
    | (cases h; done)
    | (simp only [Run.ret.injEq, Prod.mk.injEq] at h
       obtain ⟨h1, h2⟩ := h
       subst h1 h2
       simp_all [ServerEntry.putStore, Expected.ok])

/-- The last loop of `startup` leaves the metas, the catalog and the push maps
alone, and every recycle status it appends is not running. -/
theorem initStores_frame (TXNID_UNINITED : Nat) (env : StartupEnv) (idx : List Nat) :
    ∀ (st : ReplManager) (o : Option Status) (st1 : ReplManager),
      initStores TXNID_UNINITED env idx st = Run.ret (o, st1) →
      st1.syncMeta = st.syncMeta ∧ st1.svr.catalog = st.svr.catalog ∧
      st1.pushStatus = st.pushStatus ∧
      (∀ r ∈ st1.logRecycStatus, r ∈ st.logRecycStatus ∨ r.isRunning = false) ∧
      (∀ s, o = some s → s.ok = false) := by
  induction idx with
  | nil =>
    intro st o st1 h
    simp only [initStores, Run.ret.injEq, Prod.mk.injEq] at h
    obtain ⟨h1, h2⟩ := h
    subst h1 h2
    exact ⟨rfl, rfl, rfl, fun r hr => Or.inl hr, fun s hs => by cases hs⟩
  | cons i rest ih =>
    intro st o st1 h
    simp only [initStores] at h
    cases hb : initStore TXNID_UNINITED env i st with
    | fatal => rw [hb] at h; cases h
    | undefined => rw [hb] at h; cases h
    | ret r =>
      rw [hb] at h
      obtain ⟨o1, st2⟩ := r
      obtain ⟨hm, hc, hp, hl, herr⟩ := initStore_frame _ _ _ _ _ _ hb
      have hmem : ∀ r ∈ st2.logRecycStatus, r ∈ st.logRecycStatus ∨ r.isRunning = false := by
        intro r hr
        rcases hl with hl | ⟨r1, hl, hr1⟩
        · rw [hl] at hr; exact Or.inl hr
        · rw [hl] at hr
          rcases List.mem_append.mp hr with h1 | h1
          · exact Or.inl h1
          · rw [List.mem_singleton] at h1
            subst h1
            exact Or.inr hr1
      cases o1 with
      | some s =>
        simp only [Run.ret.injEq, Prod.mk.injEq] at h
        obtain ⟨h1, h2⟩ := h
        subst h1 h2
        exact ⟨hm, hc, hp, hmem, herr⟩
      | none =>
        obtain ⟨hm2, hc2, hp2, hl2, herr2⟩ := ih st2 o st1 h
        refine ⟨hm2.trans hm, hc2.trans hc, hp2.trans hp, ?_, herr2⟩
        intro r hr
        rcases hl2 r hr with h1 | h1
        · exact hmem r h1
        · exact Or.inr h1

theorem startPool_frame (st : ReplManager) (name : String) (size : Nat) (answer : Status) :
    (startPool st name size answer).1 = answer ∧
    (startPool st name size answer).2.syncMeta = st.syncMeta ∧
    (startPool st name size answer).2.svr = st.svr ∧
    (startPool st name size answer).2.pushStatus = st.pushStatus ∧
    (startPool st name size answer).2.logRecycStatus = st.logRecycStatus := by
  unfold startPool
  split <;> simp

/-- The part of `startup` from `_pushStatus` on leaves the metas and the
catalog alone; when it returns OK from a manager without push maps and
recycle statuses, there are `INSTANCE_NUM` recycle statuses, none running,
and every push map is empty. -/
theorem startupStores_frame (TXNID_UNINITED INSTANCE_NUM : Nat) (env : StartupEnv)
    (st : ReplManager) (s : Status) (st1 : ReplManager)
    (h : startupStores TXNID_UNINITED INSTANCE_NUM env st = Run.ret (s, st1)) :
    st1.syncMeta = st.syncMeta ∧ st1.svr.catalog = st.svr.catalog ∧
    st1.pushStatus = st.pushStatus ++ List.replicate INSTANCE_NUM [] ∧
    (∀ r ∈ st1.logRecycStatus, r ∈ st.logRecycStatus ∨ r.isRunning = false) ∧
    (s.ok = true → st1.logRecycStatus.length = INSTANCE_NUM) := by
  unfold startupStores at h
  simp only at h
  split at h
  · rename_i s1 st2 hi
    simp only [Run.ret.injEq, Prod.mk.injEq] at h
    obtain ⟨h1, h2⟩ := h
    subst h2
    obtain ⟨hm, hc, hp, hl, herr⟩ := initStores_frame _ _ _ _ _ _ hi
    refine ⟨hm, hc, hp, hl, ?_⟩
    intro hok
    rw [← h1, herr s1 rfl] at hok
    cases hok
  · rename_i st2 hi
    obtain ⟨hm, hc, hp, hl, _⟩ := initStores_frame _ _ _ _ _ _ hi
    split at h
    · cases h
    · rename_i hlen
      simp only [Run.ret.injEq, Prod.mk.injEq] at h
      obtain ⟨_, h2⟩ := h
      subst h2
      exact ⟨hm, hc, hp, hl, fun _ => by simpa using hlen⟩
  · cases h
  · cases h

theorem startupPools_frame (TXNID_UNINITED INSTANCE_NUM : Nat) (env : StartupEnv)
    (st : ReplManager) (s : Status) (st1 : ReplManager)
    (h : startupPools TXNID_UNINITED INSTANCE_NUM env st = Run.ret (s, st1)) :
    st1.syncMeta = st.syncMeta ∧ st1.svr.catalog = st.svr.catalog ∧
    (s.ok = true →
      st1.pushStatus = st.pushStatus ++ List.replicate INSTANCE_NUM [] ∧
      (∀ r ∈ st1.logRecycStatus, r ∈ st.logRecycStatus ∨ r.isRunning = false) ∧
      st1.logRecycStatus.length = INSTANCE_NUM) := by
  unfold startupPools at h
  simp only [startPool_frame] at h
  repeat' (split at h)
  all_goals first
    | (simp only [Run.ret.injEq, Prod.mk.injEq] at h
       obtain ⟨h1, h2⟩ := h
       subst h1 h2
       simp_all [startPool_frame, Status.ok])
    | (obtain ⟨hm, hc, hp, hl, hlen⟩ := startupStores_frame _ _ _ _ _ _ h
       simp only [startPool_frame] at hm hc hp hl
       exact ⟨hm, hc, fun hok => ⟨hp, hl, hlen hok⟩⟩)

theorem loadStoreMetas_frame (TXNID_UNINITED : Nat) (idx : List Nat) :
    ∀ (st : ReplManager) (o : Option Status) (st1 : ReplManager),
      loadStoreMetas TXNID_UNINITED idx st = Run.ret (o, st1) →
      st1.pushStatus = st.pushStatus ∧ st1.logRecycStatus = st.logRecycStatus ∧
      (∀ s, o = some s → s.ok = false) := by
  induction idx with
  | nil =>
    intro st o st1 h
    simp only [loadStoreMetas, Run.ret.injEq, Prod.mk.injEq] at h
    obtain ⟨h1, h2⟩ := h
    subst h1 h2
    exact ⟨rfl, rfl, fun s hs => by cases hs⟩
  | cons i rest ih =>
    intro st o st1 h
    unfold loadStoreMetas at h
    simp only at h
    repeat' (split at h)
    all_goals first
      | (cases h; done)
      | (simp only [Run.ret.injEq, Prod.mk.injEq] at h
         obtain ⟨h1, h2⟩ := h
         subst h1 h2
         simp_all [Expected.ok])
      | (have hh := ih _ _ _ h
         exact ⟨hh.1, hh.2.1, hh.2.2⟩)

theorem checkMetaIds_none (l : List StoreMeta) :
    ∀ k, checkMetaIds k l = none → ∀ (i : Nat) (m : StoreMeta), l[i]? = some m → m.id = k + i := by
  induction l with
  | nil => intro k _ i m h; simp at h
  | cons x rest ih =>
    intro k h i m hget
    unfold checkMetaIds at h
    split at h
    · cases h
    · rename_i hx
      simp only [ne_eq, Decidable.not_not] at hx
      cases i with
      | zero =>
        simp only [List.getElem?_cons_zero, Option.some.injEq] at hget
        subst hget
        simp [hx]
      | succ i =>
        simp only [List.getElem?_cons_succ] at hget
        have := ih (k + 1) h i m hget
        omega

theorem checkMetaIds_some (l : List StoreMeta) :
    ∀ k, (∃ (i : Nat) (m : StoreMeta), l[i]? = some m ∧ m.id ≠ k + i) →
      ∃ msg, checkMetaIds k l = some { code := ErrorCodes.ERR_INTERNAL, msg := msg } := by
  induction l with
  | nil => intro k ⟨i, m, h, _⟩; simp at h
  | cons x rest ih =>
    intro k ⟨i, m, hget, hne⟩
    unfold checkMetaIds
    split
    · exact ⟨_, rfl⟩
    · rename_i hx
      simp only [ne_eq, Decidable.not_not] at hx
      cases i with
      | zero =>
        simp only [List.getElem?_cons_zero, Option.some.injEq] at hget
        subst hget
        exact absurd hx.symm hne
      | succ i =>
        simp only [List.getElem?_cons_succ] at hget
        exact ih (k + 1) ⟨i, m, hget, by omega⟩

theorem checkMetaIds_not_ok (l : List StoreMeta) :
    ∀ k s, checkMetaIds k l = some s → s.ok = false := by
  induction l with
  | nil => intro k s h; simp [checkMetaIds] at h
  | cons x rest ih =>
    intro k s h
    unfold checkMetaIds at h
    split at h
    · simp only [Option.some.injEq] at h
      subst h
      rfl
    · exact ih _ _ h

/-- What a returning `startup` has done, in terms of its first loop. -/
theorem startup_ret (TXNID_UNINITED INSTANCE_NUM : Nat) (env : StartupEnv)
    (st : ReplManager) (s : Status) (st1 : ReplManager)
    (h : startup TXNID_UNINITED INSTANCE_NUM env st = Run.ret (s, st1)) :
    ∃ o st0, loadStoreMetas TXNID_UNINITED (List.range INSTANCE_NUM) st = Run.ret (o, st0) ∧
      st1.syncMeta = st0.syncMeta ∧ st1.svr.catalog = st0.svr.catalog ∧
      (∀ e, o = some e → s = e) ∧
      (o = none → st0.syncMeta.length = INSTANCE_NUM ∧
        (∀ e, checkMetaIds 0 st0.syncMeta = some e → s = e)) ∧
      (s.ok = true → o = none ∧ checkMetaIds 0 st0.syncMeta = none ∧
        st1.pushStatus = st.pushStatus ++ List.replicate INSTANCE_NUM [] ∧
        (∀ r ∈ st1.logRecycStatus, r ∈ st.logRecycStatus ∨ r.isRunning = false) ∧
        st1.logRecycStatus.length = INSTANCE_NUM) := by
  unfold startup at h
  split at h
  · rename_i e st0 hl
    simp only [Run.ret.injEq, Prod.mk.injEq] at h
    obtain ⟨h1, h2⟩ := h
    subst h1 h2
    obtain ⟨_, _, herr⟩ := loadStoreMetas_frame _ _ _ _ _ hl
    refine ⟨some e, _, hl, rfl, rfl, ?_, ?_, ?_⟩
    · intro e1 he; cases he; rfl
    · intro hn; cases hn
    · intro hok; rw [herr e rfl] at hok; cases hok
  · rename_i st0 hl
    obtain ⟨hp0, hl0, _⟩ := loadStoreMetas_frame _ _ _ _ _ hl
    split at h
    · cases h
    · rename_i hlen
      simp only [ne_eq, Decidable.not_not] at hlen
      split at h
      · rename_i e hc
        simp only [Run.ret.injEq, Prod.mk.injEq] at h
        obtain ⟨h1, h2⟩ := h
        subst h1 h2
        refine ⟨none, _, hl, rfl, rfl, ?_, ?_, ?_⟩
        · intro e1 he; cases he
        · intro _
          refine ⟨hlen, ?_⟩
          intro e1 he1
          rw [hc] at he1
          cases he1
          rfl
        · intro hok; rw [checkMetaIds_not_ok _ _ _ hc] at hok; cases hok
      · rename_i hc
        obtain ⟨hm, hcat, hrest⟩ := startupPools_frame _ _ _ _ _ _ h
        refine ⟨none, _, hl, hm, hcat, ?_, ?_, ?_⟩
        · intro e1 he; cases he
        · intro _
          refine ⟨hlen, ?_⟩
          intro e1 he1
          rw [hc] at he1
          cases he1
        · intro hok
          obtain ⟨h1, h2, h3⟩ := hrest hok
          simp only at h1 h2
          rw [hp0] at h1
          rw [hl0] at h2
          exact ⟨rfl, hc, h1, h2, h3⟩
  · cases h
  · cases h


theorem getElem?_map_range {α : Type} (f : Nat → α) (n i : Nat) (h : i < n) :
    ((List.range n).map f)[i]? = some (f i) := by
  simp [List.getElem?_map, List.getElem?_range h]

/-- C14. `startup` on a manager that holds no meta yet, with `c` its catalog
and `N` stores.
* When the slots before `i` load and the read of slot `i` answers an error
  other than `ERR_NOTFOUND`, `startup` returns the status of that read.
* When the slots before `i` load, the read of slot `i` answers `ERR_NOTFOUND`
  and the catalog refuses the default meta of `i`, `startup` returns the
  status of that `setStoreMeta`.
* When all slots load, the first loop runs to its end in a state `st0` where:
  each slot the catalog answered `ERR_NOTFOUND` for holds the default meta
  `(i, "", 0, -1, TXNID_UNINITED, REPL_NONE)`, which has been handed to
  `setStoreMeta`; each slot the catalog returned a meta for holds that meta;
  the calls of `setStoreMeta` are exactly the default metas of the
  `ERR_NOTFOUND` slots, in slot order; and whenever `startup` returns, the
  metas and the catalog are those of `st0`. -/
theorem startup_loads_metas (TXNID_UNINITED INSTANCE_NUM : Nat) (env : StartupEnv)
    (st : ReplManager) (hinit : st.syncMeta = []) :
    (∀ i, i < INSTANCE_NUM →
      (∀ j, j < i → slotLoads TXNID_UNINITED st.svr.catalog j) →
      (st.svr.catalog.getStoreMeta i).ok = false →
      (st.svr.catalog.getStoreMeta i).status.code ≠ ErrorCodes.ERR_NOTFOUND →
      ∃ st1, startup TXNID_UNINITED INSTANCE_NUM env st =
        Run.ret ((st.svr.catalog.getStoreMeta i).status, st1)) ∧
    (∀ i, i < INSTANCE_NUM →
      (∀ j, j < i → slotLoads TXNID_UNINITED st.svr.catalog j) →
      (st.svr.catalog.getStoreMeta i).status.code = ErrorCodes.ERR_NOTFOUND →
      (st.svr.catalog.setStoreMeta (defaultMeta TXNID_UNINITED i)).1.ok = false →
      ∃ st1, startup TXNID_UNINITED INSTANCE_NUM env st =
        Run.ret ((st.svr.catalog.setStoreMeta (defaultMeta TXNID_UNINITED i)).1, st1)) ∧
    ((∀ j, j < INSTANCE_NUM → slotLoads TXNID_UNINITED st.svr.catalog j) →
      ∃ st0, loadStoreMetas TXNID_UNINITED (List.range INSTANCE_NUM) st = Run.ret (none, st0) ∧
        (∀ i, i < INSTANCE_NUM →
          (st.svr.catalog.getStoreMeta i).status.code = ErrorCodes.ERR_NOTFOUND →
          st0.syncMeta[i]? = some
            { id := i, syncFromHost := "", syncFromPort := 0, syncFromId := -1,
              binlogId := TXNID_UNINITED, replState := ReplState.REPL_NONE } ∧
          ({ id := i, syncFromHost := "", syncFromPort := 0, syncFromId := -1,
             binlogId := TXNID_UNINITED, replState := ReplState.REPL_NONE } : StoreMeta) ∈
            st0.svr.catalog.setCalls) ∧
        (∀ i m, i < INSTANCE_NUM → (st.svr.catalog.getStoreMeta i).ok = true →
          (st.svr.catalog.getStoreMeta i).data = some m → st0.syncMeta[i]? = some m) ∧
        st0.svr.catalog.setCalls = st.svr.catalog.setCalls ++
          ((List.range INSTANCE_NUM).filter
            (fun j => !(st.svr.catalog.getStoreMeta j).ok)).map (defaultMeta TXNID_UNINITED) ∧
        (∀ s st1, startup TXNID_UNINITED INSTANCE_NUM env st = Run.ret (s, st1) →
          st1.syncMeta = st0.syncMeta ∧ st1.svr.catalog = st0.svr.catalog)) := by
  have hsplit : ∀ i, i < INSTANCE_NUM →
      ∃ post, List.range INSTANCE_NUM = List.range i ++ i :: post := by
    intro i hi
    obtain ⟨k, hk⟩ : ∃ k, INSTANCE_NUM = i + (k + 1) := ⟨INSTANCE_NUM - (i + 1), by omega⟩
    refine ⟨((List.range k).map Nat.succ).map (fun j => i + j), ?_⟩
    rw [hk, List.range_add, List.range_succ_eq_map]
    simp
  have habort : ∀ i, i < INSTANCE_NUM →
      (∀ j, j < i → slotLoads TXNID_UNINITED st.svr.catalog j) →
      slotFails TXNID_UNINITED st.svr.catalog i →
      ∃ st1, startup TXNID_UNINITED INSTANCE_NUM env st =
        Run.ret (slotError TXNID_UNINITED st.svr.catalog i, st1) := by
    intro i hi hpre hfail
    obtain ⟨post, hpost⟩ := hsplit i hi
    obtain ⟨st1, h1⟩ := loadStoreMetas_aborts TXNID_UNINITED st.svr.catalog i
      post (List.range i) st rfl rfl
      (fun j hj => hpre j (List.mem_range.mp hj)) hfail
    rw [← hpost] at h1
    exact ⟨st1, by simp only [startup, h1]⟩
  refine ⟨?_, ?_, ?_⟩
  · intro i hi hpre hnok hcode
    have := habort i hi hpre ⟨hnok, fun hc => absurd hc hcode⟩
    simpa only [slotError, hcode, if_false] using this
  · intro i hi hpre hcode hset
    have hnok : (st.svr.catalog.getStoreMeta i).ok = false := by
      simp [Expected.ok, Status.ok, hcode]
    have := habort i hi hpre ⟨hnok, fun _ => hset⟩
    simpa only [slotError, hcode, if_true] using this
  · intro hall
    have hl := loadStoreMetas_loads TXNID_UNINITED st.svr.catalog (List.range INSTANCE_NUM) st
      rfl rfl (fun j hj => hall j (List.mem_range.mp hj))
    refine ⟨_, hl, ?_, ?_, ?_, ?_⟩
    · intro i hi hcode
      have hnok : (st.svr.catalog.getStoreMeta i).ok = false := by
        simp [Expected.ok, Status.ok, hcode]
      constructor
      · simp only [hinit, List.nil_append]
        rw [getElem?_map_range _ _ _ hi]
        simp [installedMeta, hnok, defaultMeta]
      · simp only [List.mem_append, List.mem_map, List.mem_filter, List.mem_range]
        exact Or.inr ⟨i, ⟨hi, by simp [hnok]⟩, rfl⟩
    · intro i m hi hok hdata
      simp only [hinit, List.nil_append]
      rw [getElem?_map_range _ _ _ hi]
      simp [installedMeta, hok, hdata]
    · rfl
    · intro s st1 h
      obtain ⟨o, st0, hl0, hm, hc, _⟩ := startup_ret _ _ _ _ _ _ h
      rw [hl] at hl0
      simp only [Run.ret.injEq, Prod.mk.injEq] at hl0
      obtain ⟨_, h0⟩ := hl0
      subst h0
      exact ⟨hm, hc⟩

/-- With four stores: when the catalog answers the read of store 2 with a
network error, `startup` returns that error; when it refuses the default meta
of store 2, `startup` returns that refusal; when it holds only the meta of
store 1, the first loop installs that meta in slot 1 and the default meta in
slot 0, and `startup` returns with these metas. -/
theorem startup_loads_metas_witness :
    (∃ st1, startup 0 4 {} { svr := serverReadError } =
      Run.ret ({ code := ErrorCodes.ERR_NETWORK, msg := "read failed" }, st1)) ∧
    (∃ st1, startup 0 4 {} { svr := serverPersistError } =
      Run.ret ({ code := ErrorCodes.ERR_INTERNAL, msg := "write failed" }, st1)) ∧
    (∃ st0, loadStoreMetas 0 (List.range 4) { svr := serverOneMeta } = Run.ret (none, st0) ∧
      st0.syncMeta[0]? = some (defaultMeta 0 0) ∧
      st0.syncMeta[1]? = some (metaWithSource 1) ∧
      st0.svr.catalog.setCalls = [defaultMeta 0 0, defaultMeta 0 2, defaultMeta 0 3]) ∧
    (∃ st1, startup 0 4 {} { svr := serverOneMeta } = Run.ret (Status.OK, st1)) := by
  have hA := (startup_loads_metas 0 4 {} { svr := serverReadError } rfl).1 2 (by decide)
    (by unfold slotLoads; decide) (by decide) (by decide)
  have hB := (startup_loads_metas 0 4 {} { svr := serverPersistError } rfl).2.1 2 (by decide)
    (by unfold slotLoads; decide) (by decide) (by decide)
  obtain ⟨st0, hl, hdef, hkeep, hcalls, _⟩ :=
    (startup_loads_metas 0 4 {} { svr := serverOneMeta } rfl).2.2
      (by unfold slotLoads; decide)
  refine ⟨hA, hB, ⟨st0, hl, (hdef 0 (by decide) (by decide)).1,
    hkeep 1 (metaWithSource 1) (by decide) (by decide) (by decide), ?_⟩, ⟨(match startup 0 4 {} { svr := serverOneMeta } with
      | Run.ret r => r.2
      | _ => {}), by decide⟩⟩
  rw [hcalls]
  decide


/-! ## The metas sit in the slot of their id -/

theorem MetaInv_set (N : Nat) (st st1 : ReplManager) (m : StoreMeta)
    (h : MetaInv N st) (hm : st1.syncMeta = st.syncMeta.set m.id m) : MetaInv N st1 := by
  obtain ⟨hlen, hid⟩ := h
  refine ⟨by rw [hm, List.length_set, hlen], ?_⟩
  intro i x hx
  rw [hm, List.getElem?_set] at hx
  by_cases hi : m.id = i
  · rw [if_pos hi] at hx
    split at hx
    · simp only [Option.some.injEq] at hx
      subst hx
      exact hi
    · cases hx
  · rw [if_neg hi] at hx
    exact hid i x hx

theorem changeReplStateInLock_syncMeta (st st1 : ReplManager) (storeMeta : StoreMeta)
    (persist : Bool) (hret : changeReplStateInLock st storeMeta persist = Run.ret st1) :
    st1.syncMeta = st.syncMeta.set storeMeta.id storeMeta := by
  unfold changeReplStateInLock at hret
  cases persist with
  | false =>
    simp only [Bool.false_eq_true, if_false] at hret
    split at hret
    · simp only [Run.ret.injEq] at hret
      subst hret
      rfl
    · cases hret
  | true =>
    simp only [if_true] at hret
    by_cases hok : (st.svr.catalog.setStoreMeta storeMeta).1.ok = true
    · simp only [hok, Bool.not_true, Bool.false_eq_true, if_false] at hret
      split at hret
      · simp only [Run.ret.injEq] at hret
        subst hret
        rfl
      · cases hret
    · simp only [Bool.not_eq_true] at hok
      simp only [hok, Bool.not_false, if_true] at hret
      cases hret

theorem changeReplStateInLock_inv (N : Nat) (st st1 : ReplManager) (storeMeta : StoreMeta)
    (persist : Bool) (h : MetaInv N st)
    (hret : changeReplStateInLock st storeMeta persist = Run.ret st1) : MetaInv N st1 :=
  MetaInv_set N st st1 storeMeta h (changeReplStateInLock_syncMeta st st1 storeMeta persist hret)

theorem changeReplSource_syncMeta (TXNID_UNINITED : Nat) (st : ReplManager)
    (later : List ReplManager) (storeId : Nat) (ip : String) (port sourceStoreId : Nat)
    (s : Status) (st1 : ReplManager)
    (h : changeReplSource TXNID_UNINITED st later storeId ip port sourceStoreId =
      Run.ret (s, st1)) :
    ∃ m, m ∈ st :: later ∧
      (st1.syncMeta = m.syncMeta ∨
        ∃ cur nm, m.syncMeta[storeId]? = some cur ∧ StoreMeta.id nm = cur.id ∧
          st1.syncMeta = m.syncMeta.set nm.id nm) := by
  unfold changeReplSource at h
  cases hw : waitFor (yieldPred storeId) st later with
  | fatal => rw [hw] at h; cases h
  | undefined => rw [hw] at h; cases h
  | ret r =>
    obtain ⟨b, m⟩ := r
    have hmem := (waitFor_ret _ _ _ _ _ hw).1
    rw [hw] at h
    refine ⟨m, hmem, ?_⟩
    cases b with
    | false =>
      simp only [Run.ret.injEq, Prod.mk.injEq] at h
      left
      rw [← h.2]
    | true =>
      simp only at h
      repeat' (split at h)
      all_goals first
        | (cases h; done)
        | (simp only [Run.ret.injEq, Prod.mk.injEq] at h
           obtain ⟨_, h2⟩ := h
           subst h2
           left
           rfl)
        | (simp only [Run.ret.injEq, Prod.mk.injEq] at h
           obtain ⟨_, h2⟩ := h
           subst h2
           have hset := changeReplStateInLock_syncMeta _ _ _ _ (by assumption)
           have hcur : ∃ cur, m.syncMeta[storeId]? = some cur ∧ cur.copy = cur :=
             ⟨_, by assumption, rfl⟩
           obtain ⟨cur, hcur, _⟩ := hcur
           exact Or.inr ⟨cur, _, hcur, by simp_all [StoreMeta.copy], hset⟩)

theorem MetaInv_of_check (N : Nat) (st : ReplManager) (hlen : st.syncMeta.length = N)
    (hc : checkMetaIds 0 st.syncMeta = none) : MetaInv N st :=
  ⟨hlen, fun i m h => by
    have := checkMetaIds_none st.syncMeta 0 hc i m h
    omega⟩

/-- C15. With `N` stores, `MetaInv N st` says that `st.syncMeta` has exactly `N`
entries and that the entry in slot `i` has `id = i`.
* A `startup` that returns an ok status leaves a manager with `MetaInv`.
* `changeReplState` with a meta whose id is below `N`, on a manager with
  `MetaInv`: it returns when the catalog accepts the meta (or nothing is
  persisted), and whenever it returns the manager has `MetaInv`.
* `changeReplSource`, when the manager has `MetaInv` in the state it is called
  in and in every state its wait observes: whenever it returns, whatever the
  status, the manager has `MetaInv`.
* A `startup` on a manager that holds no meta yet, all of whose slots load,
  one of them with a meta whose id is not its slot, returns `ERR_INTERNAL`. -/
theorem syncMeta_ids_match_slots (TXNID_UNINITED INSTANCE_NUM : Nat) :
    (∀ (env : StartupEnv) (st : ReplManager) (s : Status) (st1 : ReplManager),
      startup TXNID_UNINITED INSTANCE_NUM env st = Run.ret (s, st1) → s.ok = true →
      MetaInv INSTANCE_NUM st1) ∧
    (∀ (st : ReplManager) (storeMeta : StoreMeta) (persist : Bool),
      MetaInv INSTANCE_NUM st → storeMeta.id < INSTANCE_NUM →
      ((persist = true → (st.svr.catalog.setStoreMeta storeMeta).1.ok = true) →
        ∃ st1, changeReplState st storeMeta persist = Run.ret st1) ∧
      (∀ st1, changeReplState st storeMeta persist = Run.ret st1 →
        MetaInv INSTANCE_NUM st1)) ∧
    (∀ (st : ReplManager) (later : List ReplManager) (storeId : Nat) (ip : String)
      (port sourceStoreId : Nat) (s : Status) (st1 : ReplManager),
      (∀ m ∈ st :: later, MetaInv INSTANCE_NUM m) →
      changeReplSource TXNID_UNINITED st later storeId ip port sourceStoreId =
        Run.ret (s, st1) →
      MetaInv INSTANCE_NUM st1) ∧
    (∀ (env : StartupEnv) (st : ReplManager), st.syncMeta = [] →
      (∀ j, j < INSTANCE_NUM → slotLoads TXNID_UNINITED st.svr.catalog j) →
      (∃ i m, i < INSTANCE_NUM ∧ (st.svr.catalog.getStoreMeta i).ok = true ∧
        (st.svr.catalog.getStoreMeta i).data = some m ∧ m.id ≠ i) →
      ∃ msg st1, startup TXNID_UNINITED INSTANCE_NUM env st =
        Run.ret ({ code := ErrorCodes.ERR_INTERNAL, msg := msg }, st1)) := by
  refine ⟨?_, ?_, ?_, ?_⟩
  · intro env st s st1 h hok
    obtain ⟨o, st0, _, hm, _, _, hnone, hsucc⟩ := startup_ret _ _ _ _ _ _ h
    obtain ⟨ho, hc, _⟩ := hsucc hok
    refine MetaInv_of_check _ _ ?_ ?_
    · rw [hm]; exact (hnone ho).1
    · rw [hm]; exact hc
  · intro st storeMeta persist hinv hid
    constructor
    · intro hacc
      have hlt : storeMeta.id < st.syncMeta.length := by rw [hinv.1]; exact hid
      unfold changeReplState changeReplStateInLock
      cases persist with
      | false => simp [hlt]
      | true => simp [hacc rfl, hlt]
    · intro st1 h
      exact changeReplStateInLock_inv _ _ _ _ _ hinv h
  · intro st later storeId ip port sourceStoreId s st1 hall h
    obtain ⟨m, hmem, hcase⟩ := changeReplSource_syncMeta _ _ _ _ _ _ _ _ _ h
    have hm := hall m hmem
    rcases hcase with heq | ⟨cur, nm, _, _, hset⟩
    · exact ⟨by rw [heq]; exact hm.1, fun i x hx => hm.2 i x (by rw [← heq]; exact hx)⟩
    · exact MetaInv_set _ m st1 nm hm hset
  · intro env st hinit hall ⟨i, m, hi, hok, hdata, hne⟩
    have hl := loadStoreMetas_loads TXNID_UNINITED st.svr.catalog (List.range INSTANCE_NUM) st
      rfl rfl (fun j hj => hall j (List.mem_range.mp hj))
    have hget : ((List.range INSTANCE_NUM).map
        (installedMeta TXNID_UNINITED st.svr.catalog))[i]? = some m := by
      rw [getElem?_map_range _ _ _ hi]
      simp [installedMeta, hok, hdata]
    obtain ⟨msg, hmsg⟩ := checkMetaIds_some
      ((List.range INSTANCE_NUM).map (installedMeta TXNID_UNINITED st.svr.catalog)) 0
      ⟨i, m, hget, by omega⟩
    refine ⟨msg, (match loadStoreMetas TXNID_UNINITED (List.range INSTANCE_NUM) st with
      | Run.ret r => r.2
      | _ => st), ?_⟩
    simp only [startup, hl, hinit, List.nil_append, List.length_map, List.length_range,
      ne_eq, not_true_eq_false, if_false, hmsg]

/-- With four stores: a startup on a catalog that holds only the meta of store 1
succeeds with the metas in their slots; `changeReplState` of store 2 keeps
them there; so does clearing the source of store 2; and a startup on a
catalog that holds, for store 1, a meta with id 3 returns `ERR_INTERNAL`. -/
theorem syncMeta_ids_match_slots_witness :
    (∃ st1, startup 0 4 {} { svr := serverOneMeta } = Run.ret (Status.OK, st1) ∧
      MetaInv 4 st1) ∧
    (∃ st1, changeReplState managerIdle (metaWithSource 2) true = Run.ret st1 ∧
      MetaInv 4 st1) ∧
    MetaInv 4 managerSlaveCleared ∧
    (∃ msg st1, startup 0 4 {} { svr := serverWrongId } =
      Run.ret ({ code := ErrorCodes.ERR_INTERNAL, msg := msg }, st1)) := by
  have hidle : MetaInv 4 managerIdle := MetaInv_of_check 4 managerIdle rfl rfl
  have hslave : MetaInv 4 managerSlave := MetaInv_of_check 4 managerSlave rfl rfl
  refine ⟨⟨(match startup 0 4 {} { svr := serverOneMeta } with
      | Run.ret r => r.2
      | _ => {}), by decide,
      (syncMeta_ids_match_slots 0 4).1 {} { svr := serverOneMeta } Status.OK _
        (by decide) rfl⟩, ?_, ?_, ?_⟩
  · obtain ⟨st1, h1⟩ := ((syncMeta_ids_match_slots 0 4).2.1 managerIdle (metaWithSource 2) true
      hidle (by decide)).1 (fun _ => by decide)
    exact ⟨st1, h1, ((syncMeta_ids_match_slots 0 4).2.1 managerIdle (metaWithSource 2) true
      hidle (by decide)).2 st1 h1⟩
  · exact (syncMeta_ids_match_slots 0 4).2.2.1 managerSlave [] 2 "" 0 0 Status.OK
      managerSlaveCleared
      (fun m hm => by
        rw [List.mem_singleton] at hm
        subst hm
        exact hslave)
      (by decide)
  · exact (syncMeta_ids_match_slots 0 4).2.2.2 {} { svr := serverWrongId } rfl
      (by unfold slotLoads; decide)
      ⟨1, metaWithSource 3, by decide, by decide, by decide, by decide⟩


/-! ## The life of the recycle statuses -/

theorem forEach_jobs_increasing {α : Type} (body : Nat → α → Run (Bool × α × List Job))
    (key : Job → Nat)
    (hkey : ∀ i a d a1 js, body i a = Run.ret (d, a1, js) →
      js = [] ∨ ∃ job, js = [job] ∧ key job = i)
    (l : List α) :
    ∀ (k : Nat) (d : Bool) (l1 : List α) (jobs : List Job),
      forEach body k l = Run.ret (d, l1, jobs) →
      (jobs.map key).Pairwise (fun a b => a < b) ∧ ∀ job ∈ jobs, k ≤ key job := by
  induction l with
  | nil =>
    intro k d l1 jobs h
    simp only [forEach, Run.ret.injEq, Prod.mk.injEq] at h
    obtain ⟨_, _, h3⟩ := h
    subst h3
    simp
  | cons a rest ih =>
    intro k d l1 jobs h
    unfold forEach at h
    cases hb : body k a with
    | fatal => rw [hb] at h; cases h
    | undefined => rw [hb] at h; cases h
    | ret r1 =>
      rw [hb] at h
      cases hr : forEach body (k + 1) rest with
      | fatal => rw [hr] at h; cases h
      | undefined => rw [hr] at h; cases h
      | ret r2 =>
        rw [hr] at h
        simp only [Run.ret.injEq, Prod.mk.injEq] at h
        obtain ⟨_, _, h3⟩ := h
        subst h3
        obtain ⟨hp, hge⟩ := ih (k + 1) r2.1 r2.2.1 r2.2.2 hr
        rcases hkey k a r1.1 r1.2.1 r1.2.2 hb with hnil | ⟨job, hjob, hk⟩
        · rw [hnil]
          refine ⟨by simpa using hp, ?_⟩
          intro j hj
          have := hge j (by simpa using hj)
          omega
        · rw [hjob]
          constructor
          · simp only [List.singleton_append, List.map_cons, List.pairwise_cons]
            refine ⟨?_, hp⟩
            intro x hx
            obtain ⟨j, hj, hjx⟩ := List.mem_map.mp hx
            have := hge j hj
            omega
          · intro j hj
            simp only [List.singleton_append, List.mem_cons] at hj
            rcases hj with hj | hj
            · subst hj; omega
            · have := hge j hj
              omega

theorem schedRecycLogBody_step (pushStatus : List (List (Nat × MPovStatus))) (now i : Nat)
    (r r1 : RecycleBinlogStatus) (d : Bool) (js : List Job)
    (h : schedRecycLogBody pushStatus now i r = Run.ret (d, r1, js)) :
    r1.firstBinlogId = r.firstBinlogId ∧ (r.isRunning = true → r1.isRunning = true) ∧
    (js = [] ∨ ∃ push, pushStatus[i]? = some push ∧ r.isRunning = false ∧
      r1.isRunning = true ∧
      js = [Job.recycleBinlog i r.firstBinlogId (endLogIdOf push) (decide (push.length = 0))]) := by
  unfold schedRecycLogBody at h
  split at h
  · simp only [Run.ret.injEq, Prod.mk.injEq] at h
    obtain ⟨_, h2, h3⟩ := h
    subst h2 h3
    exact ⟨rfl, fun hr => hr, Or.inl rfl⟩
  · rename_i hskip
    simp only [Bool.or_eq_true, decide_eq_true_eq, not_or, Bool.not_eq_true, Nat.not_lt]
      at hskip
    split at h
    · cases h
    · rename_i push hpush
      simp only [Run.ret.injEq, Prod.mk.injEq] at h
      obtain ⟨_, h2, h3⟩ := h
      subst h2 h3
      exact ⟨rfl, fun _ => rfl, Or.inr ⟨push, hpush, hskip.1, rfl, rfl⟩⟩

/-- What a recycle scan that returns has done to the manager. -/
theorem schedRecycLogInLock_step (st : ReplManager) (now : Nat) (d : Bool)
    (st1 : ReplManager) (jobs : List Job)
    (h : schedRecycLogInLock st now = Run.ret (d, st1, jobs)) :
    st1.pushStatus = st.pushStatus ∧
    st1.logRecycStatus.length = st.logRecycStatus.length ∧
    (∀ (i : Nat) (r : RecycleBinlogStatus), st.logRecycStatus[i]? = some r →
      ∃ r1 : RecycleBinlogStatus, st1.logRecycStatus[i]? = some r1 ∧
      r1.firstBinlogId = r.firstBinlogId ∧ (r.isRunning = true → r1.isRunning = true)) ∧
    (∀ job ∈ jobs, ∃ (r r1 : RecycleBinlogStatus) (push : List (Nat × MPovStatus)),
      st.logRecycStatus[job.storeId]? = some r ∧
      st1.logRecycStatus[job.storeId]? = some r1 ∧
      st.pushStatus[job.storeId]? = some push ∧ r.isRunning = false ∧
      r1.isRunning = true ∧ r1.firstBinlogId = r.firstBinlogId ∧
      job = Job.recycleBinlog job.storeId r.firstBinlogId (endLogIdOf push)
        (decide (push.length = 0))) ∧
    (jobs.map Job.storeId).Nodup := by
  unfold schedRecycLogInLock at h
  cases hf : forEach (schedRecycLogBody st.pushStatus now) 0 st.logRecycStatus with
  | fatal => rw [hf] at h; cases h
  | undefined => rw [hf] at h; cases h
  | ret res =>
    rw [hf] at h
    obtain ⟨d0, rs, js⟩ := res
    simp only [Run.ret.injEq, Prod.mk.injEq] at h
    obtain ⟨_, hst, hjs⟩ := h
    subst hst hjs
    obtain ⟨hlen, hall, hjobs, _⟩ := forEach_ret _ _ _ _ _ _ hf
    refine ⟨rfl, hlen, ?_, ?_, ?_⟩
    · intro i r hr
      obtain ⟨dj, r1, js1, hbody, hget, _, _⟩ := hall i r hr
      obtain ⟨h1, h2, _⟩ := schedRecycLogBody_step _ _ _ _ _ _ _ hbody
      exact ⟨r1, hget, h1, h2⟩
    · intro job hjob
      obtain ⟨j, r, dj, r1, js1, hget, hbody, hget1, hmem⟩ := hjobs job hjob
      simp only [Nat.zero_add] at hbody
      obtain ⟨h1, _, h3⟩ := schedRecycLogBody_step _ _ _ _ _ _ _ hbody
      rcases h3 with hnil | ⟨push, hpush, hrun, hrun1, hjs⟩
      · rw [hnil] at hmem; cases hmem
      · rw [hjs, List.mem_singleton] at hmem
        have hid : job.storeId = j := by rw [hmem]; rfl
        rw [hid]
        exact ⟨r, r1, push, hget, hget1, hpush, hrun, hrun1, h1, hmem⟩
    · have hinc := (forEach_jobs_increasing (schedRecycLogBody st.pushStatus now) Job.storeId
        (by
          intro i a d1 a1 js1 hb
          obtain ⟨_, _, h3⟩ := schedRecycLogBody_step _ _ _ _ _ _ _ hb
          rcases h3 with hnil | ⟨push, _, _, _, hjs⟩
          · exact Or.inl hnil
          · exact Or.inr ⟨_, hjs, rfl⟩)
        st.logRecycStatus 0 d0 rs js hf).1
      exact hinc.imp (fun hlt => Nat.ne_of_lt hlt)

theorem recycleGuard_ret (st : ReplManager) (storeId nextSched start : Nat)
    (st1 : ReplManager) (h : recycleGuard st storeId nextSched start = Run.ret st1) :
    ∃ r, st.logRecycStatus[storeId]? = some r ∧ r.isRunning = true ∧
      st1.pushStatus = st.pushStatus ∧
      st1.logRecycStatus = st.logRecycStatus.set storeId
        { r with isRunning := false, nextSchedTime := nextSched, firstBinlogId := start } := by
  unfold recycleGuard at h
  split at h
  · cases h
  · rename_i v hv
    split at h
    · cases h
    · rename_i hrun
      simp only [Bool.not_eq_true, Bool.not_eq_false_eq_eq_true] at hrun
      simp only [Run.ret.injEq] at h
      subst h
      exact ⟨v, hv, by simpa using hrun, rfl, rfl⟩

theorem saveBinlogs_frame (st : ReplManager) (storeId : Nat) (entries : List Nat) :
    (st.saveBinlogs storeId entries).2.logRecycStatus = st.logRecycStatus ∧
    (st.saveBinlogs storeId entries).2.pushStatus = st.pushStatus := by
  unfold ReplManager.saveBinlogs
  split <;> exact ⟨rfl, rfl⟩

theorem recycleTruncate_guard (st : ReplManager) (kvstore : KVStore) (txn : Transaction)
    (storeId nextSched start : Nat) (toDel : Nat × List Nat) (st1 : ReplManager)
    (h : recycleTruncate st kvstore txn storeId nextSched start toDel = Run.ret st1) :
    ∃ X f, recycleGuard X storeId nextSched f = Run.ret st1 ∧
      X.logRecycStatus = st.logRecycStatus ∧ X.pushStatus = st.pushStatus ∧
      (f = start ∨ f = toDel.1) := by
  unfold recycleTruncate at h
  simp only at h
  split at h
  · exact ⟨_, _, h, rfl, rfl, Or.inl rfl⟩
  · split at h
    · exact ⟨_, _, h, rfl, rfl, Or.inl rfl⟩
    · exact ⟨_, _, h, rfl, rfl, Or.inr rfl⟩

theorem recycleBinlog_guard (st : ReplManager) (now storeId start endLogId : Nat)
    (saveLogs : Bool) (st1 : ReplManager)
    (h : recycleBinlog st now storeId start endLogId saveLogs = Run.ret st1) :
    ∃ X ns f, recycleGuard X storeId ns f = Run.ret st1 ∧
      X.logRecycStatus = st.logRecycStatus ∧ X.pushStatus = st.pushStatus ∧
      (f = start ∨ ∃ kv td, (st.svr.getDb storeId).value = Run.ret kv ∧
        (kv.createTransaction.2.getTruncateLog start endLogId).value = Run.ret td ∧
        f = td.1) := by
  unfold recycleBinlog at h
  simp only at h
  split at h
  · cases h
  · split at h
    · cases h
    · cases h
    · rename_i kv hkv
      split at h
      · exact ⟨_, _, _, h, rfl, rfl, Or.inl rfl⟩
      · split at h
        · cases h
        · cases h
        · split at h
          · exact ⟨_, _, _, h, rfl, rfl, Or.inl rfl⟩
          · split at h
            · cases h
            · cases h
            · rename_i td htd
              split at h
              · split at h
                · cases h
                · exact ⟨_, _, _, h, rfl, rfl, Or.inl rfl⟩
              · split at h
                · split at h
                  · exact ⟨_, _, _, h, (saveBinlogs_frame _ _ _).1, (saveBinlogs_frame _ _ _).2,
                      Or.inl rfl⟩
                  · obtain ⟨X, f, hg, h1, h2, hf⟩ := recycleTruncate_guard _ _ _ _ _ _ _ _ h
                    refine ⟨X, _, f, hg, h1.trans (saveBinlogs_frame _ _ _).1,
                      h2.trans (saveBinlogs_frame _ _ _).2, ?_⟩
                    rcases hf with hf | hf
                    · exact Or.inl hf
                    · exact Or.inr ⟨kv, td, hkv, htd, hf⟩
                · obtain ⟨X, f, hg, h1, h2, hf⟩ := recycleTruncate_guard _ _ _ _ _ _ _ _ h
                  refine ⟨X, _, f, hg, h1, h2, ?_⟩
                  rcases hf with hf | hf
                  · exact Or.inl hf
                  · exact Or.inr ⟨kv, td, hkv, htd, hf⟩

/-- What a `recycleBinlog` that returns has done to the manager, on a store that
answers `getTruncateLog` within its bounds. -/
theorem recycleBinlog_step (st : ReplManager) (now storeId start endLogId : Nat)
    (saveLogs : Bool) (st1 : ReplManager)
    (hw : TruncateLogWithin st storeId start endLogId)
    (h : recycleBinlog st now storeId start endLogId saveLogs = Run.ret st1) :
    ∃ (r : RecycleBinlogStatus) (ns f : Nat), st.logRecycStatus[storeId]? = some r ∧
      r.isRunning = true ∧ st1.pushStatus = st.pushStatus ∧
      st1.logRecycStatus = st.logRecycStatus.set storeId
        { r with isRunning := false, nextSchedTime := ns, firstBinlogId := f } ∧
      start ≤ f ∧ (f = start ∨ f ≤ endLogId) := by
  obtain ⟨X, ns, f, hg, h1, h2, hf⟩ := recycleBinlog_guard _ _ _ _ _ _ _ h
  obtain ⟨r, hr, hrun, hp, hl⟩ := recycleGuard_ret _ _ _ _ _ hg
  rw [h1] at hr hl
  rw [h2] at hp
  refine ⟨r, ns, f, hr, hrun, hp, hl, ?_, ?_⟩
  · rcases hf with hf | ⟨kv, td, hkv, htd, hf⟩
    · omega
    · have := (hw kv td hkv htd).1
      omega
  · rcases hf with hf | ⟨kv, td, hkv, htd, hf⟩
    · exact Or.inl hf
    · have := (hw kv td hkv htd).2
      exact Or.inr (by omega)

theorem Sys.inv_of_initial (s : Sys) (h : s.Initial) : s.Inv := by
  obtain ⟨hjobs, _, hb⟩ := h
  refine ⟨hb, ?_, ?_⟩
  · intro job hjob
    rw [hjobs] at hjob
    cases hjob
  · rw [hjobs]
    exact List.nodup_nil

theorem FirstBinlogLe_refl (a : ReplManager) : FirstBinlogLe a a :=
  fun _ r hr => ⟨r, hr, Nat.le_refl _⟩

theorem FirstBinlogLe_trans (a b c : ReplManager) (h1 : FirstBinlogLe a b)
    (h2 : FirstBinlogLe b c) : FirstBinlogLe a c := by
  intro i r hr
  obtain ⟨r1, hr1, hle1⟩ := h1 i r hr
  obtain ⟨r2, hr2, hle2⟩ := h2 i r1 hr1
  exact ⟨r2, hr2, Nat.le_trans hle1 hle2⟩

theorem Step_scan_inv (s : Sys) (now : Nat) (d : Bool) (mgr1 : ReplManager) (jobs : List Job)
    (hinv : s.Inv) (h : schedRecycLogInLock s.mgr now = Run.ret (d, mgr1, jobs)) :
    Sys.Inv { mgr := mgr1, jobs := s.jobs ++ jobs } ∧ FirstBinlogLe s.mgr mgr1 := by
  obtain ⟨hb, hj, hn⟩ := hinv
  obtain ⟨hp, hlen, hfw, hjobs, hnd⟩ := schedRecycLogInLock_step _ _ _ _ _ h
  have hbw : ∀ (i : Nat) (r1 : RecycleBinlogStatus), mgr1.logRecycStatus[i]? = some r1 →
      ∃ r, s.mgr.logRecycStatus[i]? = some r ∧ r1.firstBinlogId = r.firstBinlogId := by
    intro i r1 hr1
    have hi : i < s.mgr.logRecycStatus.length := by
      rw [← hlen]; exact lt_length_of_getElem? _ _ _ hr1
    obtain ⟨r2, hr2, hf, _⟩ := hfw i _ (List.getElem?_eq_getElem hi)
    rw [hr1] at hr2
    cases hr2
    exact ⟨_, List.getElem?_eq_getElem hi, hf⟩
  refine ⟨⟨?_, ?_, ?_⟩, ?_⟩
  · intro i r1 l hr1 hl e he
    obtain ⟨r, hr, hf⟩ := hbw i r1 hr1
    rw [hf]
    exact hb i r l hr (by rw [← hp]; exact hl) e he
  · intro job hjob
    rcases List.mem_append.mp hjob with hmem | hmem
    · obtain ⟨r, hr, hrun, e, sl, hjobeq, hbound⟩ := hj job hmem
      obtain ⟨r1, hr1, hf, hrun1⟩ := hfw _ r hr
      refine ⟨r1, hr1, hrun1 hrun, e, sl, by rw [hf]; exact hjobeq, ?_⟩
      intro l hl x hx
      exact hbound l (by rw [← hp]; exact hl) x hx
    · obtain ⟨r, r1, push, hr, hr1, hpush, hrun, hrun1, hf, hjobeq⟩ := hjobs job hmem
      refine ⟨r1, hr1, hrun1, endLogIdOf push, _, by rw [hf]; exact hjobeq, ?_⟩
      intro l hl x hx
      have hl2 : s.mgr.pushStatus[job.storeId]? = some l := by rw [← hp]; exact hl
      rw [hpush] at hl2
      cases hl2
      exact (endLogIdOf_spec push).2.1 x hx
  · simp only [List.map_append]
    refine List.Nodup.append hn hnd ?_
    intro a ha1 ha2
    obtain ⟨j1, hj1, hk1⟩ := List.mem_map.mp ha1
    obtain ⟨j2, hj2, hk2⟩ := List.mem_map.mp ha2
    obtain ⟨r, hr, hrun, _⟩ := hj j1 hj1
    obtain ⟨r2, _, _, hr2, _, _, hrun2, _⟩ := hjobs j2 hj2
    rw [hk1] at hr
    rw [hk2, hr] at hr2
    cases hr2
    rw [hrun] at hrun2
    cases hrun2
  · intro i r hr
    obtain ⟨r1, hr1, hf, _⟩ := hfw i r hr
    exact ⟨r1, hr1, Nat.le_of_eq hf.symm⟩

theorem Step_complete_inv (s : Sys) (now storeId start endLogId : Nat) (saveLogs : Bool)
    (mgr1 : ReplManager) (hinv : s.Inv)
    (hJ : Job.recycleBinlog storeId start endLogId saveLogs ∈ s.jobs)
    (hw : TruncateLogWithin s.mgr storeId start endLogId)
    (h : recycleBinlog s.mgr now storeId start endLogId saveLogs = Run.ret mgr1) :
    Sys.Inv { mgr := mgr1,
              jobs := s.jobs.erase (Job.recycleBinlog storeId start endLogId saveLogs) } ∧
    FirstBinlogLe s.mgr mgr1 := by
  obtain ⟨hb, hj, hn⟩ := hinv
  obtain ⟨r, ns, f, hr, hrun, hp, hl, hsf, hfe⟩ := recycleBinlog_step _ _ _ _ _ _ _ hw h
  obtain ⟨r0, hr0, _, e0, sl0, hJeq, hbound⟩ := hj _ hJ
  have hr0i : s.mgr.logRecycStatus[storeId]? = some r0 := hr0
  rw [hr] at hr0i
  cases hr0i
  have hbound1 : ∀ l, s.mgr.pushStatus[storeId]? = some l → ∀ x ∈ l, e0 ≤ x.2.binlogPos :=
    hbound
  simp only [Job.storeId, Job.recycleBinlog.injEq, true_and] at hJeq
  obtain ⟨hstart, hend, _⟩ := hJeq
  have hlt : storeId < s.mgr.logRecycStatus.length := lt_length_of_getElem? _ _ _ hr
  refine ⟨⟨?_, ?_, ?_⟩, ?_⟩
  · intro j r1 l hr1 hl1 x hx
    have hl0 : s.mgr.pushStatus[j]? = some l := by rw [← hp]; exact hl1
    simp only [hl, List.getElem?_set] at hr1
    by_cases hij : storeId = j
    · subst hij
      simp only [if_true, hlt, Option.some.injEq] at hr1
      subst hr1
      simp only
      rcases hfe with hfe | hfe
      · have := hb storeId r l hr hl0 x hx
        omega
      · have := hbound1 l hl0 x hx
        omega
    · simp only [hij, if_false] at hr1
      exact hb j r1 l hr1 hl0 x hx
  · intro job hjob
    have hnodup : s.jobs.Nodup := List.Nodup.of_map _ hn
    obtain ⟨hneq, hmem⟩ := (List.Nodup.mem_erase_iff hnodup).mp hjob
    have hne : storeId ≠ job.storeId := by
      intro heq
      apply hneq
      exact List.inj_on_of_nodup_map hn hmem hJ heq.symm
    obtain ⟨rj, hrj, hrunj, e, sl, hjobeq, hboundj⟩ := hj job hmem
    refine ⟨rj, ?_, hrunj, e, sl, hjobeq, ?_⟩
    · simp only [hl, List.getElem?_set, hne, if_false]
      exact hrj
    · intro l hl1 x hx
      exact hboundj l (by rw [← hp]; exact hl1) x hx
  · exact List.Nodup.sublist ((List.erase_sublist _ _).map _) hn
  · intro j rj hrj
    by_cases hij : storeId = j
    · subst hij
      rw [hr] at hrj
      cases hrj
      refine ⟨{ r with isRunning := false, nextSchedTime := ns, firstBinlogId := f },
        by simp only [hl, List.getElem?_set, if_true, hlt], ?_⟩
      simp only
      omega
    · exact ⟨rj, by simp only [hl, List.getElem?_set, hij, if_false]; exact hrj, Nat.le_refl _⟩

theorem Step_push_inv (s : Sys) (pushStatus1 : List (List (Nat × MPovStatus)))
    (hinv : s.Inv) (h : PushAdvances s.mgr.pushStatus pushStatus1) :
    Sys.Inv { mgr := { s.mgr with pushStatus := pushStatus1 }, jobs := s.jobs } := by
  obtain ⟨hb, hj, hn⟩ := hinv
  obtain ⟨_, hadv⟩ := h
  refine ⟨?_, ?_, hn⟩
  · intro i r l1 hr hl1 e1 he1
    obtain ⟨l0, hl0, hall⟩ := hadv i l1 hl1
    obtain ⟨e0, he0, _, hle⟩ := hall e1 he1
    have := hb i r l0 hr hl0 e0 he0
    omega
  · intro job hjob
    obtain ⟨r, hr, hrun, e, sl, hjobeq, hbound⟩ := hj job hjob
    refine ⟨r, hr, hrun, e, sl, hjobeq, ?_⟩
    intro l1 hl1 e1 he1
    obtain ⟨l0, hl0, hall⟩ := hadv _ l1 hl1
    obtain ⟨e0, he0, _, hle⟩ := hall e1 he1
    have := hbound l0 hl0 e0 he0
    omega

theorem Step_inv (s s1 : Sys) (hinv : s.Inv) (hstep : Step s s1) :
    s1.Inv ∧ FirstBinlogLe s.mgr s1.mgr := by
  cases hstep with
  | scan now d mgr1 jobs h => exact Step_scan_inv s now d mgr1 jobs hinv h
  | complete now storeId start endLogId saveLogs mgr1 hJ hw h =>
    exact Step_complete_inv s now storeId start endLogId saveLogs mgr1 hinv hJ hw h
  | push pushStatus1 h =>
    exact ⟨Step_push_inv s pushStatus1 hinv h, FirstBinlogLe_refl _⟩
  | other mgr1 hl hp =>
    obtain ⟨hb, hj, hn⟩ := hinv
    refine ⟨⟨?_, ?_, hn⟩, ?_⟩
    · intro i r l hr hl1 e he
      exact hb i r l (by rw [← hl]; exact hr) (by rw [← hp]; exact hl1) e he
    · intro job hjob
      obtain ⟨r, hr, hrun, e, sl, hjobeq, hbound⟩ := hj job hjob
      exact ⟨r, by simp only [hl]; exact hr, hrun, e, sl, hjobeq,
        fun l hl1 x hx => hbound l (by rw [← hp]; exact hl1) x hx⟩
    · intro i r hr
      exact ⟨r, by simp only [hl]; exact hr, Nat.le_refl _⟩

theorem Reach_inv (s s1 : Sys) (hinv : s.Inv) (h : Reach s s1) :
    s1.Inv ∧ FirstBinlogLe s.mgr s1.mgr := by
  unfold Reach at h
  induction h with
  | refl => exact ⟨hinv, FirstBinlogLe_refl _⟩
  | tail _ hstep ih =>
    obtain ⟨hi, hle⟩ := ih
    obtain ⟨hi1, hle1⟩ := Step_inv _ _ hi hstep
    exact ⟨hi1, FirstBinlogLe_trans _ _ _ hle hle1⟩


/-- C11. The states of the manager are those reached by steps (`Step`: a recycle
scan, the completion of a scheduled `recycleBinlog` on a store whose
`getTruncateLog(start, end)` answers `start ≤ newStart ≤ end`, master pushes
that do not move a `binlogPos` back, or anything that leaves the recycle and
push statuses alone) from an initial state (`Sys.Initial`: no recycle job
waits, no recycler runs, and every `firstBinlogId` is at most every
`binlogPos` of its store).
* A `startup` that returns ok on a manager without push or recycle statuses
  leaves an initial state.
* Let `s` be reached from an initial state and `s1` be reached from `s`. In
  `s1` the `firstBinlogId` of every store is at most every `binlogPos` of
  that store, and the `firstBinlogId` of every store is in `s1` at least what
  it is in `s`. -/
theorem firstBinlogId_monotone_and_bounded :
    (∀ (TXNID_UNINITED INSTANCE_NUM : Nat) (env : StartupEnv) (st : ReplManager) (s : Status)
      (st1 : ReplManager), st.pushStatus = [] → st.logRecycStatus = [] →
      startup TXNID_UNINITED INSTANCE_NUM env st = Run.ret (s, st1) → s.ok = true →
      Sys.Initial { mgr := st1, jobs := [] }) ∧
    (∀ s0 s s1 : Sys, s0.Initial → Reach s0 s → Reach s s1 →
      BoundedByPush s1.mgr ∧ FirstBinlogLe s.mgr s1.mgr) := by
  constructor
  · intro U N env st s st1 hp hl h hok
    obtain ⟨o, st0, _, _, _, _, _, hsucc⟩ := startup_ret _ _ _ _ _ _ h
    obtain ⟨_, _, hpush, hrec, _⟩ := hsucc hok
    refine ⟨rfl, ?_, ?_⟩
    · intro r hr
      rcases hrec r hr with hmem | hrun
      · rw [hl] at hmem; cases hmem
      · exact hrun
    · intro i r l _ hl1 e he
      simp only [hpush, hp, List.nil_append] at hl1
      have hmem := List.getElem?_mem hl1
      rw [List.eq_of_mem_replicate hmem] at he
      cases he
  · intro s0 s s1 hinit h0 h1
    obtain ⟨hinv, _⟩ := Reach_inv s0 s (Sys.inv_of_initial s0 hinit) h0
    obtain ⟨hinv1, hle⟩ := Reach_inv s s1 hinv h1
    exact ⟨hinv1.1, hle⟩

/-- Store 0 has clients at the positions 50 and 80 and `firstBinlogId = 10`. The
scan at time 100 schedules `recycleBinlog(0, 10, 50, false)`; the store
answers with new start 40, and when the job has run the `firstBinlogId` of the
three stores are 40, 20 and 5: none has gone back and each is at most every
`binlogPos` of its store. -/
theorem firstBinlogId_monotone_and_bounded_witness :
    Reach { mgr := managerTruncating, jobs := [] }
      { mgr := managerTruncated, jobs := [Job.recycleBinlog 1 20 UINT64_MAX true] } ∧
    managerTruncated.logRecycStatus.map (fun r => r.firstBinlogId) = [40, 20, 5] ∧
    BoundedByPush managerTruncated ∧ FirstBinlogLe managerTruncating managerTruncated := by
  have hinit : Sys.Initial { mgr := managerTruncating, jobs := [] } := by
    refine ⟨rfl, by decide, ?_⟩
    intro i r l hr hl e he
    rcases i with _ | _ | _ | i
    · cases hr; cases hl
      revert e; decide
    · cases hr; cases hl
      revert e; decide
    · cases hr; cases hl
      revert e; decide
    · cases hr
  have hscan : Step { mgr := managerTruncating, jobs := [] }
      { mgr := managerTruncatingScanned,
        jobs := [Job.recycleBinlog 0 10 50 false, Job.recycleBinlog 1 20 UINT64_MAX true] } :=
    Step.scan { mgr := managerTruncating, jobs := [] } 100 true managerTruncatingScanned
      [Job.recycleBinlog 0 10 50 false, Job.recycleBinlog 1 20 UINT64_MAX true] (by decide)
  have hwithin : TruncateLogWithin managerTruncatingScanned 0 10 50 := by
    intro kv td hkv htd
    cases hkv
    cases htd
    decide
  have hcomplete : Step
      { mgr := managerTruncatingScanned,
        jobs := [Job.recycleBinlog 0 10 50 false, Job.recycleBinlog 1 20 UINT64_MAX true] }
      { mgr := managerTruncated, jobs := [Job.recycleBinlog 1 20 UINT64_MAX true] } :=
    Step.complete
      { mgr := managerTruncatingScanned,
        jobs := [Job.recycleBinlog 0 10 50 false, Job.recycleBinlog 1 20 UINT64_MAX true] }
      150 0 10 50 false managerTruncated (by decide) hwithin (by decide)
  have hreach : Reach { mgr := managerTruncating, jobs := [] }
      { mgr := managerTruncated, jobs := [Job.recycleBinlog 1 20 UINT64_MAX true] } :=
    Relation.ReflTransGen.tail (Relation.ReflTransGen.single hscan) hcomplete
  have h := firstBinlogId_monotone_and_bounded.2 { mgr := managerTruncating, jobs := [] }
    { mgr := managerTruncating, jobs := [] }
    { mgr := managerTruncated, jobs := [Job.recycleBinlog 1 20 UINT64_MAX true] }
    hinit Relation.ReflTransGen.refl hreach
  exact ⟨hreach, by decide, h.1, h.2⟩


/-! ## The slave scan -/

theorem schedSlaveBody_cases (syncMeta : List StoreMeta) (now i : Nat) (sp : SPovStatus)
    (m : StoreMeta) (hm : syncMeta[i]? = some m) :
    ((sp.isRunning = true ∨ now < sp.nextSchedTime ∨ m.replState = ReplState.REPL_NONE) →
      schedSlaveBody syncMeta now i sp = Run.ret (false, sp, [])) ∧
    (sp.isRunning = false → sp.nextSchedTime ≤ now →
      (m.replState = ReplState.REPL_CONNECT →
        schedSlaveBody syncMeta now i sp =
          Run.ret (true, { sp with isRunning := true },
            [Job.slaveSyncRoutine Pool.fullReceiver i])) ∧
      (m.replState = ReplState.REPL_CONNECTED →
        schedSlaveBody syncMeta now i sp =
          Run.ret (true, { sp with isRunning := true },
            [Job.slaveSyncRoutine Pool.incrChecker i])) ∧
      (m.replState = ReplState.REPL_TRANSFER →
        schedSlaveBody syncMeta now i sp = Run.fatal)) := by
  constructor
  · intro hskip
    unfold schedSlaveBody
    by_cases h1 : (sp.isRunning || decide (now < sp.nextSchedTime)) = true
    · simp only [h1, if_true]
    · have hstate : m.replState = ReplState.REPL_NONE := by
        rcases hskip with h | h | h
        · simp [h] at h1
        · simp [h] at h1
        · exact h
      simp only [h1, hm, hstate, if_true, Bool.false_eq_true, if_false]
  · intro hrun hdue
    have h1 : ¬ (sp.isRunning || decide (now < sp.nextSchedTime)) = true := by
      simp [hrun, Nat.not_lt.mpr hdue]
    refine ⟨?_, ?_, ?_⟩ <;> intro hstate <;> unfold schedSlaveBody <;>
      simp [h1, hm, hstate, hrun, Nat.not_lt.mpr hdue]

theorem forEach_fatal {α : Type} (body : Nat → α → Run (Bool × α × List Job)) (l : List α) :
    ∀ (k : Nat), (∀ j a, l[j]? = some a → body (k + j) a ≠ Run.undefined) →
      (∃ j a, l[j]? = some a ∧ body (k + j) a = Run.fatal) →
      forEach body k l = Run.fatal := by
  induction l with
  | nil =>
    intro k _ ⟨j, a, h, _⟩
    simp at h
  | cons a rest ih =>
    intro k hdef ⟨j, x, hget, hfatal⟩
    unfold forEach
    cases hb : body k a with
    | fatal => rfl
    | undefined => exact absurd hb (hdef 0 a (List.getElem?_cons_zero))
    | ret r1 =>
      have hj : j ≠ 0 := by
        intro h0
        subst h0
        simp only [List.getElem?_cons_zero, Option.some.injEq] at hget
        subst hget
        rw [Nat.add_zero, hb] at hfatal
        cases hfatal
      obtain ⟨j1, hj1⟩ := Nat.exists_eq_succ_of_ne_zero hj
      subst hj1
      have hrest := ih (k + 1)
        (fun j2 a2 h2 => by
          have := hdef (j2 + 1) a2 (by simpa using h2)
          rwa [show k + (j2 + 1) = k + 1 + j2 by omega] at this)
        ⟨j1, x, by simpa using hget, by
          rwa [show k + (j1 + 1) = k + 1 + j1 by omega] at hfatal⟩
      simp only [hrest]

theorem schedSlaveBody_shape (syncMeta : List StoreMeta) (now i : Nat) (sp sp1 : SPovStatus)
    (d : Bool) (js : List Job) (h : schedSlaveBody syncMeta now i sp = Run.ret (d, sp1, js)) :
    (d = false ∧ js = []) ∨
    (d = true ∧ ∃ pool, js = [Job.slaveSyncRoutine pool i]) := by
  unfold schedSlaveBody at h
  split at h
  · simp only [Run.ret.injEq, Prod.mk.injEq] at h
    exact Or.inl ⟨h.1.symm, h.2.2.symm⟩
  · split at h
    · cases h
    · rename_i m _
      split at h
      · simp only [Run.ret.injEq, Prod.mk.injEq] at h
        exact Or.inl ⟨h.1.symm, h.2.2.symm⟩
      · split at h
        · simp only [Run.ret.injEq, Prod.mk.injEq] at h
          exact Or.inr ⟨h.1.symm, _, h.2.2.symm⟩
        · split at h
          · simp only [Run.ret.injEq, Prod.mk.injEq] at h
            exact Or.inr ⟨h.1.symm, _, h.2.2.symm⟩
          · split at h
            · cases h
            · rename_i h1 h2 h3 h4
              cases hs : m.replState <;> simp_all

/-- C21. On a manager that has a meta for every slave status, at time `now`.
* When some store is not running, due (`nextSchedTime ≤ now`) and in
  `REPL_TRANSFER`, the slave scan ends in the fatal error.
* When no store is, the scan returns `doSth`, the manager with new slave
  statuses and nothing else changed, and the jobs scheduled, and for every
  store `i`:
  - if `isRunning` is true, or `now < nextSchedTime`, or `replState` is
    `REPL_NONE`, the status of `i` is unchanged and no job is for `i`;
  - otherwise, if `replState` is `REPL_CONNECT`, the status of `i` has
    `isRunning = true` and is otherwise unchanged, and
    `slaveSyncRoutine(i)` on the pool `fullReceiver` is the one job for `i`;
  - otherwise, if `replState` is `REPL_CONNECTED`, the same with the pool
    `incrChecker`.
  No store has two jobs, and `doSth` is true exactly when a job was
  scheduled. -/
theorem schedSlaveInLock_contract (st : ReplManager) (now : Nat)
    (hlen : st.syncStatus.length ≤ st.syncMeta.length) :
    ((∃ (i : Nat) (sp : SPovStatus) (m : StoreMeta), st.syncStatus[i]? = some sp ∧
        st.syncMeta[i]? = some m ∧ sp.isRunning = false ∧ sp.nextSchedTime ≤ now ∧
        m.replState = ReplState.REPL_TRANSFER) →
      schedSlaveInLock st now = Run.fatal) ∧
    ((∀ (i : Nat) (sp : SPovStatus) (m : StoreMeta), st.syncStatus[i]? = some sp →
        st.syncMeta[i]? = some m → sp.isRunning = false → sp.nextSchedTime ≤ now →
        m.replState ≠ ReplState.REPL_TRANSFER) →
      ∃ (d : Bool) (syncStatus1 : List SPovStatus) (jobs : List Job),
        schedSlaveInLock st now = Run.ret (d, { st with syncStatus := syncStatus1 }, jobs) ∧
        (∀ (i : Nat) (sp : SPovStatus) (m : StoreMeta), st.syncStatus[i]? = some sp →
          st.syncMeta[i]? = some m →
          ((sp.isRunning = true ∨ now < sp.nextSchedTime ∨
              m.replState = ReplState.REPL_NONE) →
            syncStatus1[i]? = some sp ∧ ∀ job ∈ jobs, job.storeId ≠ i) ∧
          (sp.isRunning = false → sp.nextSchedTime ≤ now →
            (m.replState = ReplState.REPL_CONNECT →
              syncStatus1[i]? = some { sp with isRunning := true } ∧
              Job.slaveSyncRoutine Pool.fullReceiver i ∈ jobs ∧
              ∀ job ∈ jobs, job.storeId = i →
                job = Job.slaveSyncRoutine Pool.fullReceiver i) ∧
            (m.replState = ReplState.REPL_CONNECTED →
              syncStatus1[i]? = some { sp with isRunning := true } ∧
              Job.slaveSyncRoutine Pool.incrChecker i ∈ jobs ∧
              ∀ job ∈ jobs, job.storeId = i →
                job = Job.slaveSyncRoutine Pool.incrChecker i))) ∧
        syncStatus1.length = st.syncStatus.length ∧
        (jobs.map Job.storeId).Nodup ∧
        (d = true ↔ jobs ≠ [])) := by
  have hmeta : ∀ (j : Nat) (sp : SPovStatus), st.syncStatus[j]? = some sp →
      ∃ m, st.syncMeta[j]? = some m := by
    intro j sp hsp
    have hj : j < st.syncMeta.length :=
      Nat.lt_of_lt_of_le (lt_length_of_getElem? _ _ _ hsp) hlen
    exact ⟨_, List.getElem?_eq_getElem hj⟩
  have hskip_or : ∀ (sp : SPovStatus) (m : StoreMeta),
      (sp.isRunning = true ∨ now < sp.nextSchedTime ∨ m.replState = ReplState.REPL_NONE) ∨
      (sp.isRunning = false ∧ sp.nextSchedTime ≤ now ∧
        (m.replState = ReplState.REPL_CONNECT ∨ m.replState = ReplState.REPL_CONNECTED ∨
          m.replState = ReplState.REPL_TRANSFER)) := by
    intro sp m
    cases hr : sp.isRunning
    · by_cases hd : now < sp.nextSchedTime
      · exact Or.inl (Or.inr (Or.inl hd))
      · cases hs : m.replState
        · exact Or.inl (Or.inr (Or.inr rfl))
        · exact Or.inr ⟨rfl, Nat.not_lt.mp hd, Or.inl rfl⟩
        · exact Or.inr ⟨rfl, Nat.not_lt.mp hd, Or.inr (Or.inr rfl)⟩
        · exact Or.inr ⟨rfl, Nat.not_lt.mp hd, Or.inr (Or.inl rfl)⟩
    · exact Or.inl (Or.inl rfl)
  constructor
  · intro ⟨i, sp, m, hsp, hm, hrun, hdue, hstate⟩
    have hf : forEach (schedSlaveBody st.syncMeta now) 0 st.syncStatus = Run.fatal := by
      apply forEach_fatal
      · intro j a ha
        obtain ⟨m1, hm1⟩ := hmeta j a ha
        rw [Nat.zero_add]
        obtain ⟨hs, hd⟩ := schedSlaveBody_cases st.syncMeta now j a m1 hm1
        rcases hskip_or a m1 with h | ⟨h1, h2, h3 | h3 | h3⟩
        · rw [hs h]; exact fun h => by cases h
        · rw [(hd h1 h2).1 h3]; exact fun h => by cases h
        · rw [(hd h1 h2).2.1 h3]; exact fun h => by cases h
        · rw [(hd h1 h2).2.2 h3]; exact fun h => by cases h
      · refine ⟨i, sp, hsp, ?_⟩
        rw [Nat.zero_add]
        exact ((schedSlaveBody_cases st.syncMeta now i sp m hm).2 hrun hdue).2.2 hstate
    simp only [schedSlaveInLock, hf]
  · intro hno
    have htotal : ∃ r, forEach (schedSlaveBody st.syncMeta now) 0 st.syncStatus = Run.ret r := by
      apply forEach_total
      intro j a ha
      obtain ⟨m1, hm1⟩ := hmeta j a ha
      rw [Nat.zero_add]
      obtain ⟨hs, hd⟩ := schedSlaveBody_cases st.syncMeta now j a m1 hm1
      rcases hskip_or a m1 with h | ⟨h1, h2, h3 | h3 | h3⟩
      · exact ⟨_, hs h⟩
      · exact ⟨_, (hd h1 h2).1 h3⟩
      · exact ⟨_, (hd h1 h2).2.1 h3⟩
      · exact absurd h3 (hno j a m1 ha hm1 h1 h2)
    obtain ⟨⟨d, l1, jobs⟩, hf⟩ := htotal
    obtain ⟨hlen1, hall, hjobs, hd⟩ := forEach_ret _ _ _ _ _ _ hf
    have hindex : ∀ job ∈ jobs, ∃ (sp : SPovStatus) (dj : Bool) (sp1 : SPovStatus)
        (js : List Job), st.syncStatus[job.storeId]? = some sp ∧
        schedSlaveBody st.syncMeta now job.storeId sp = Run.ret (dj, sp1, js) ∧ job ∈ js := by
      intro job hjob
      obtain ⟨j, a, dj, a1, js, hget, hbody, _, hmem⟩ := hjobs job hjob
      rw [Nat.zero_add] at hbody
      have hid : job.storeId = j := by
        rcases schedSlaveBody_shape _ _ _ _ _ _ _ hbody with ⟨_, h⟩ | ⟨_, pool, h⟩
        · rw [h] at hmem; cases hmem
        · rw [h, List.mem_singleton] at hmem
          rw [hmem]
          rfl
      rw [hid]
      exact ⟨a, dj, a1, js, hget, hbody, hmem⟩
    refine ⟨d, l1, jobs, by simp only [schedSlaveInLock, hf], ?_, hlen1, ?_, ?_⟩
    · intro i sp m hsp hm
      obtain ⟨dj, a1, js, hbody, hget1, _, hsub⟩ := hall i sp hsp
      rw [Nat.zero_add] at hbody
      obtain ⟨hs, hdisp⟩ := schedSlaveBody_cases st.syncMeta now i sp m hm
      have honly : ∀ (J : Job) (dj1 : Bool) (sp1 : SPovStatus),
          schedSlaveBody st.syncMeta now i sp = Run.ret (dj1, sp1, [J]) →
          ∀ job ∈ jobs, job.storeId = i → job = J := by
        intro J dj1 sp1 hJ job hjob hid
        obtain ⟨sp2, dj2, sp3, js2, hget2, hbody2, hmem2⟩ := hindex job hjob
        rw [hid] at hget2 hbody2
        rw [hsp] at hget2
        cases hget2
        rw [hJ] at hbody2
        simp only [Run.ret.injEq, Prod.mk.injEq] at hbody2
        rw [← hbody2.2.2, List.mem_singleton] at hmem2
        exact hmem2
      constructor
      · intro hskip
        rw [hs hskip] at hbody
        simp only [Run.ret.injEq, Prod.mk.injEq] at hbody
        obtain ⟨_, h2, _⟩ := hbody
        subst h2
        refine ⟨hget1, ?_⟩
        intro job hjob hid
        obtain ⟨sp2, dj2, sp3, js2, hget2, hbody2, hmem2⟩ := hindex job hjob
        rw [hid] at hget2 hbody2
        rw [hsp] at hget2
        cases hget2
        rw [hs hskip] at hbody2
        simp only [Run.ret.injEq, Prod.mk.injEq] at hbody2
        rw [← hbody2.2.2] at hmem2
        cases hmem2
      · intro hrun hdue
        constructor
        · intro hstate
          have hb := (hdisp hrun hdue).1 hstate
          rw [hb] at hbody
          simp only [Run.ret.injEq, Prod.mk.injEq] at hbody
          obtain ⟨_, h2, h3⟩ := hbody
          subst h2 h3
          exact ⟨hget1, hsub _ (List.mem_singleton_self _), honly _ _ _ hb⟩
        · intro hstate
          have hb := (hdisp hrun hdue).2.1 hstate
          rw [hb] at hbody
          simp only [Run.ret.injEq, Prod.mk.injEq] at hbody
          obtain ⟨_, h2, h3⟩ := hbody
          subst h2 h3
          exact ⟨hget1, hsub _ (List.mem_singleton_self _), honly _ _ _ hb⟩
    · have hinc := (forEach_jobs_increasing (schedSlaveBody st.syncMeta now) Job.storeId
        (by
          intro i a d1 a1 js1 hb
          rcases schedSlaveBody_shape _ _ _ _ _ _ _ hb with ⟨_, h⟩ | ⟨_, pool, h⟩
          · exact Or.inl h
          · exact Or.inr ⟨_, h, rfl⟩)
        st.syncStatus 0 d l1 jobs hf).1
      exact hinc.imp (fun hlt => Nat.ne_of_lt hlt)
    · constructor
      · intro hdt
        obtain ⟨j, a, a1, js, hget, hbody⟩ := hd hdt
        obtain ⟨dj, a2, js2, hbody2, _, _, hsub⟩ := hall j a hget
        rw [hbody] at hbody2
        simp only [Run.ret.injEq, Prod.mk.injEq] at hbody2
        obtain ⟨_, _, hjs⟩ := hbody2
        subst hjs
        rcases schedSlaveBody_shape _ _ _ _ _ _ _ hbody with ⟨h, _⟩ | ⟨_, pool, h⟩
        · cases h
        · intro hnil
          have := hsub (Job.slaveSyncRoutine pool (0 + j)) (by rw [h]; exact List.mem_singleton_self _)
          rw [hnil] at this
          cases this
      · intro hne
        obtain ⟨job, hjob⟩ := List.exists_mem_of_ne_nil _ hne
        obtain ⟨j, a, dj, a1, js, hget, hbody, _, hmem⟩ := hjobs job hjob
        obtain ⟨dj2, a2, js2, hbody2, _, hdj, _⟩ := hall j a hget
        rw [hbody] at hbody2
        simp only [Run.ret.injEq, Prod.mk.injEq] at hbody2
        rcases schedSlaveBody_shape _ _ _ _ _ _ _ hbody with ⟨_, h⟩ | ⟨h, _⟩
        · rw [h] at hmem; cases hmem
        · exact hdj (by rw [← hbody2.1]; exact h)

/-- At time 100: with store 1 idle, due and in `TRANSFER` the scan is fatal; with
store 0 in `CONNECT` and store 1 in `CONNECTED`, both idle and due, and
store 2 without a source, the scan schedules store 0 on `fullReceiver` and
store 1 on `incrChecker`, leaves the status of store 2 alone and reports
that it did work. -/
theorem schedSlaveInLock_contract_witness :
    schedSlaveInLock managerScanTransfer 100 = Run.fatal ∧
    (∃ (d : Bool) (syncStatus1 : List SPovStatus) (jobs : List Job),
      schedSlaveInLock managerScanIdle 100 =
        Run.ret (d, { managerScanIdle with syncStatus := syncStatus1 }, jobs) ∧
      Job.slaveSyncRoutine Pool.fullReceiver 0 ∈ jobs ∧
      Job.slaveSyncRoutine Pool.incrChecker 1 ∈ jobs ∧
      syncStatus1[2]? = some spovIdle ∧ d = true) := by
  constructor
  · exact (schedSlaveInLock_contract managerScanTransfer 100 (by decide)).1
      ⟨1, { isRunning := false, sessionId := 2 }, metaInState 1 ReplState.REPL_TRANSFER,
        rfl, rfl, rfl, by decide, rfl⟩
  · obtain ⟨d, l1, jobs, hret, hper, _, _, hd⟩ :=
      (schedSlaveInLock_contract managerScanIdle 100 (by decide)).2 (by
        intro i sp m hsp hm _ _
        rcases i with _ | _ | _ | i
        · cases hm; decide
        · cases hm; decide
        · cases hm; decide
        · cases hsp)
    have h0 := ((hper 0 { isRunning := false, sessionId := 1 }
      (metaInState 0 ReplState.REPL_CONNECT) rfl rfl).2 rfl (by decide)).1 rfl
    have h1 := ((hper 1 { isRunning := false, sessionId := 2 }
      (metaInState 1 ReplState.REPL_CONNECTED) rfl rfl).2 rfl (by decide)).2 rfl
    have h2 := (hper 2 spovIdle (metaNoSource 2) rfl rfl).1 (Or.inr (Or.inr rfl))
    exact ⟨d, l1, jobs, hret, h0.2.1, h1.2.1, h2.1,
      hd.mpr (List.ne_nil_of_mem h0.2.1)⟩


/-! ## changeReplSource: the range check and the error paths -/

/-- C22. The wait predicate of `changeReplSource` reads `_syncStatus[storeId]`
before the check `storeId >= _syncMeta.size()`.
* For every manager and every `storeId` at or beyond the number of slave
  statuses, whatever the wait observes later, `changeReplSource` indexes
  `_syncStatus` out of range: it has no defined result, so it does not
  return `ERR_INTERNAL`.
* The check returns `ERR_INTERNAL` (`"invalid storeId"`) with the manager
  unchanged only for a `storeId` that has a slave status, not running, and no
  meta. -/
theorem changeReplSource_indexes_before_range_check (TXNID_UNINITED : Nat)
    (st : ReplManager) (later : List ReplManager) (storeId : Nat) (ip : String)
    (port sourceStoreId : Nat) :
    (st.syncStatus.length ≤ storeId →
      changeReplSource TXNID_UNINITED st later storeId ip port sourceStoreId = Run.undefined ∧
      ∀ st1, changeReplSource TXNID_UNINITED st later storeId ip port sourceStoreId ≠
        Run.ret ({ code := ErrorCodes.ERR_INTERNAL, msg := "invalid storeId" }, st1)) ∧
    (∀ sp : SPovStatus, st.syncStatus[storeId]? = some sp → sp.isRunning = false →
      st.syncMeta.length ≤ storeId →
      changeReplSource TXNID_UNINITED st later storeId ip port sourceStoreId =
        Run.ret ({ code := ErrorCodes.ERR_INTERNAL, msg := "invalid storeId" }, st)) := by
  constructor
  · intro hlen
    have hnone : st.syncStatus[storeId]? = none := List.getElem?_eq_none hlen
    have hpred : yieldPred storeId st = Run.undefined := by
      simp [yieldPred, hnone]
    have hwait : waitFor (yieldPred storeId) st later = Run.undefined := by
      cases later <;> simp [waitFor, hpred]
    have hres : changeReplSource TXNID_UNINITED st later storeId ip port sourceStoreId =
        Run.undefined := by
      simp only [changeReplSource, hwait]
    refine ⟨hres, ?_⟩
    intro st1 h
    rw [hres] at h
    cases h
  · intro sp hsp hrun hlen
    have hpred := yieldPred_of_idle storeId st sp hsp hrun
    have hwait := waitFor_of_true (yieldPred storeId) st later hpred
    simp [changeReplSource, hwait, hpred, hlen]

/-- On the manager of four stores, `changeReplSource` of store 4 has no defined
result; when the meta of store 3 is missing while its slave status exists,
`changeReplSource` of store 3 returns `ERR_INTERNAL`. -/
theorem changeReplSource_indexes_before_range_check_witness :
    changeReplSource 0 managerIdle [] 4 "10.0.0.1" 7000 5 = Run.undefined ∧
    changeReplSource 0 managerMetaMissing [] 3 "10.0.0.1" 7000 5 =
      Run.ret ({ code := ErrorCodes.ERR_INTERNAL, msg := "invalid storeId" },
        managerMetaMissing) :=
  ⟨((changeReplSource_indexes_before_range_check 0 managerIdle [] 4 "10.0.0.1" 7000 5).1
      (by decide)).1,
   (changeReplSource_indexes_before_range_check 0 managerMetaMissing [] 3 "10.0.0.1" 7000 5).2
      spovIdle rfl rfl (by decide)⟩



theorem changeReplSource_not_ok (TXNID_UNINITED : Nat) (st : ReplManager)
    (later : List ReplManager) (storeId : Nat) (ip : String) (port sourceStoreId : Nat)
    (b : Bool) (m : ReplManager) (s : Status) (st1 : ReplManager)
    (hw : waitFor (yieldPred storeId) st later = Run.ret (b, m))
    (h : changeReplSource TXNID_UNINITED st later storeId ip port sourceStoreId =
      Run.ret (s, st1)) :
    s = Status.OK ∨ (st1.syncMeta = m.syncMeta ∧ st1.svr.catalog = m.svr.catalog) := by
  unfold changeReplSource at h
  rw [hw] at h
  cases b with
  | false =>
    simp only [Run.ret.injEq, Prod.mk.injEq] at h
    right
    rw [← h.2]
    exact ⟨rfl, rfl⟩
  | true =>
    simp only at h
    repeat' (split at h)
    all_goals first
      | (cases h; done)
      | (simp only [Run.ret.injEq, Prod.mk.injEq] at h
         obtain ⟨h1, h2⟩ := h
         subst h2
         exact Or.inr ⟨rfl, rfl⟩)
      | (simp only [Run.ret.injEq, Prod.mk.injEq] at h
         exact Or.inl h.1.symm)

/-- C23. Let `m` be the state the wait of `changeReplSource` ends on (the state
at the call when the store is idle then). Whenever `changeReplSource` returns
a status that is not ok (the timeout, the invalid store id, `ERR_BUSY`, or
the status of a refused `setMode` in either branch), the metas and the
catalog, with the list of its `setStoreMeta` calls, are those of `m`; and
whenever it returns with a meta or the catalog changed, the status is OK. -/
theorem changeReplSource_error_keeps_metas (TXNID_UNINITED : Nat) (st : ReplManager)
    (later : List ReplManager) (storeId : Nat) (ip : String) (port sourceStoreId : Nat)
    (b : Bool) (m : ReplManager) (s : Status) (st1 : ReplManager)
    (hw : waitFor (yieldPred storeId) st later = Run.ret (b, m))
    (h : changeReplSource TXNID_UNINITED st later storeId ip port sourceStoreId =
      Run.ret (s, st1)) :
    (s.ok = false →
      st1.syncMeta = m.syncMeta ∧ st1.svr.catalog = m.svr.catalog ∧
      st1.svr.catalog.setCalls = m.svr.catalog.setCalls) ∧
    ((st1.syncMeta ≠ m.syncMeta ∨ st1.svr.catalog.setCalls ≠ m.svr.catalog.setCalls) →
      s = Status.OK) := by
  rcases changeReplSource_not_ok _ _ _ _ _ _ _ _ _ _ _ hw h with hok | ⟨hm, hc⟩
  · constructor
    · intro hs
      rw [hok] at hs
      cases hs
    · intro _
      exact hok
  · constructor
    · intro _
      exact ⟨hm, hc, by rw [hc]⟩
    · intro hne
      rcases hne with hne | hne
      · exact absurd hm hne
      · exact absurd (by rw [hc]) hne

/-- The four kinds of non-ok return on managers of four stores: store 2 still
running at the deadline (timeout), store 3 without a meta (invalid store id),
a source set on store 2 that has one (`ERR_BUSY`), and a refused `setMode`
when setting and when clearing the source of store 2. In each the metas and
the catalog are untouched. -/
theorem changeReplSource_error_keeps_metas_witness :
    (∃ s st1, changeReplSource 0 managerSlaveRunning [managerSlaveRunning] 2 "" 0 0 =
        Run.ret (s, st1) ∧ s.code = ErrorCodes.ERR_TIMEOUT ∧
      st1.syncMeta = managerSlaveRunning.syncMeta ∧
      st1.svr.catalog = managerSlaveRunning.svr.catalog) ∧
    (∃ s st1, changeReplSource 0 managerMetaMissing [] 3 "10.0.0.1" 7000 5 =
        Run.ret (s, st1) ∧ s.code = ErrorCodes.ERR_INTERNAL ∧
      st1.syncMeta = managerMetaMissing.syncMeta ∧
      st1.svr.catalog = managerMetaMissing.svr.catalog) ∧
    (∃ s st1, changeReplSource 0 managerSlave [] 2 "10.0.0.9" 7001 1 =
        Run.ret (s, st1) ∧ s.code = ErrorCodes.ERR_BUSY ∧
      st1.syncMeta = managerSlave.syncMeta ∧
      st1.svr.catalog = managerSlave.svr.catalog) ∧
    (∃ s st1, changeReplSource 0 managerModeRefused [] 2 "10.0.0.1" 7000 5 =
        Run.ret (s, st1) ∧ s = { code := ErrorCodes.ERR_INTERNAL, msg := "setMode failed" } ∧
      st1.syncMeta = managerModeRefused.syncMeta ∧
      st1.svr.catalog = managerModeRefused.svr.catalog) ∧
    (∃ s st1, changeReplSource 0 managerSlaveModeRefused [] 2 "" 0 0 =
        Run.ret (s, st1) ∧ s = { code := ErrorCodes.ERR_INTERNAL, msg := "setMode failed" } ∧
      st1.svr.cancelled = [42] ∧
      st1.syncMeta = managerSlaveModeRefused.syncMeta ∧
      st1.svr.catalog = managerSlaveModeRefused.svr.catalog) := by
  refine ⟨?_, ?_, ?_, ?_, ?_⟩
  · have h := (changeReplSource_error_keeps_metas 0 managerSlaveRunning [managerSlaveRunning]
      2 "" 0 0 false managerSlaveRunning
      { code := ErrorCodes.ERR_TIMEOUT, msg := "wait for yeild failed" } managerSlaveRunning
      (by decide) (by decide)).1 (by decide)
    exact ⟨{ code := ErrorCodes.ERR_TIMEOUT, msg := "wait for yeild failed" },
      managerSlaveRunning, by decide, rfl, h.1, h.2.1⟩
  · have h := (changeReplSource_error_keeps_metas 0 managerMetaMissing [] 3 "10.0.0.1" 7000 5
      true managerMetaMissing
      { code := ErrorCodes.ERR_INTERNAL, msg := "invalid storeId" } managerMetaMissing
      (by decide) (by decide)).1 (by decide)
    exact ⟨{ code := ErrorCodes.ERR_INTERNAL, msg := "invalid storeId" },
      managerMetaMissing, by decide, rfl, h.1, h.2.1⟩
  · have h := (changeReplSource_error_keeps_metas 0 managerSlave [] 2 "10.0.0.9" 7001 1
      true managerSlave
      { code := ErrorCodes.ERR_BUSY, msg := "explicit set sync source empty before change it" }
      managerSlave (by decide) (by decide)).1 (by decide)
    exact ⟨{ code := ErrorCodes.ERR_BUSY,
             msg := "explicit set sync source empty before change it" },
      managerSlave, by decide, rfl, h.1, h.2.1⟩
  · have h := (changeReplSource_error_keeps_metas 0 managerModeRefused [] 2 "10.0.0.1" 7000 5
      true managerModeRefused
      { code := ErrorCodes.ERR_INTERNAL, msg := "setMode failed" } managerModeRefused
      (by decide) (by decide)).1 (by decide)
    exact ⟨{ code := ErrorCodes.ERR_INTERNAL, msg := "setMode failed" },
      managerModeRefused, by decide, rfl, h.1, h.2.1⟩
  · have h := (changeReplSource_error_keeps_metas 0 managerSlaveModeRefused [] 2 "" 0 0
      true managerSlaveModeRefused
      { code := ErrorCodes.ERR_INTERNAL, msg := "setMode failed" }
      { managerSlaveModeRefused with
        svr := { managerSlaveModeRefused.svr with cancelled := [42] }
        syncStatus := [spovIdle, spovIdle, spovIdle, spovIdle] }
      (by decide) (by decide)).1 (by decide)
    exact ⟨{ code := ErrorCodes.ERR_INTERNAL, msg := "setMode failed" },
      { managerSlaveModeRefused with
        svr := { managerSlaveModeRefused.svr with cancelled := [42] }
        syncStatus := [spovIdle, spovIdle, spovIdle, spovIdle] },
      by decide, rfl, rfl, h.1, h.2.1⟩


/-! ## One worker per subject -/

theorem subject_storeId (a b : Job) (h : a.subject = b.subject) : a.storeId = b.storeId := by
  cases a <;> cases b <;> simp only [Job.subject, Subject.slave.injEq, Subject.master.injEq,
    Subject.recycle.injEq] at h <;> first | exact h | exact h.1 | cases h

/-- The jobs of a `forEach` loop run on pairwise distinct subjects when the jobs
of every body do and are for the store of its index. -/
theorem forEach_subjects_nodup {α : Type} (body : Nat → α → Run (Bool × α × List Job))
    (l : List α) :
    ∀ (k : Nat) (d : Bool) (l1 : List α) (jobs : List Job),
      (∀ i a d1 a1 js, a ∈ l → body i a = Run.ret (d1, a1, js) →
        (js.map Job.subject).Nodup ∧ ∀ job ∈ js, job.storeId = i) →
      forEach body k l = Run.ret (d, l1, jobs) →
      (jobs.map Job.subject).Nodup ∧ ∀ job ∈ jobs, k ≤ job.storeId := by
  induction l with
  | nil =>
    intro k d l1 jobs _ h
    simp only [forEach, Run.ret.injEq, Prod.mk.injEq] at h
    obtain ⟨_, _, h3⟩ := h
    subst h3
    exact ⟨List.nodup_nil, fun job hjob => by cases hjob⟩
  | cons a rest ih =>
    intro k d l1 jobs hbody h
    unfold forEach at h
    cases hb : body k a with
    | fatal => rw [hb] at h; cases h
    | undefined => rw [hb] at h; cases h
    | ret r1 =>
      rw [hb] at h
      cases hr : forEach body (k + 1) rest with
      | fatal => rw [hr] at h; cases h
      | undefined => rw [hr] at h; cases h
      | ret r2 =>
        rw [hr] at h
        simp only [Run.ret.injEq, Prod.mk.injEq] at h
        obtain ⟨_, _, h3⟩ := h
        subst h3
        obtain ⟨hnd2, hge⟩ := ih (k + 1) r2.1 r2.2.1 r2.2.2
          (fun i x d1 x1 js hx => hbody i x d1 x1 js (List.mem_cons_of_mem _ hx)) hr
        obtain ⟨hnd1, hid⟩ := hbody k a r1.1 r1.2.1 r1.2.2 (List.mem_cons_self _ _) hb
        constructor
        · rw [List.map_append]
          refine List.Nodup.append hnd1 hnd2 ?_
          intro sub h1 h2
          obtain ⟨j1, hj1, hs1⟩ := List.mem_map.mp h1
          obtain ⟨j2, hj2, hs2⟩ := List.mem_map.mp h2
          have hsame := subject_storeId j1 j2 (hs1.trans hs2.symm)
          have h4 := hid j1 hj1
          have h5 := hge j2 hj2
          omega
        · intro job hjob
          rcases List.mem_append.mp hjob with hj | hj
          · have := hid job hj
            omega
          · have := hge job hj
            omega

theorem schedSlaveBody_keep (syncMeta : List StoreMeta) (now i : Nat) (sp sp1 : SPovStatus)
    (d : Bool) (js : List Job) (h : schedSlaveBody syncMeta now i sp = Run.ret (d, sp1, js))
    (hjs : js = []) : sp1 = sp := by
  unfold schedSlaveBody at h
  repeat' (split at h)
  all_goals first
    | (cases h; done)
    | (simp only [Run.ret.injEq, Prod.mk.injEq] at h
       obtain ⟨_, h2, h3⟩ := h
       rw [hjs] at h3
       cases h3
       done)
    | (simp only [Run.ret.injEq, Prod.mk.injEq] at h
       exact h.2.1.symm)

theorem schedRecycLogBody_keep (pushStatus : List (List (Nat × MPovStatus))) (now i : Nat)
    (r r1 : RecycleBinlogStatus) (d : Bool) (js : List Job)
    (h : schedRecycLogBody pushStatus now i r = Run.ret (d, r1, js)) (hjs : js = []) :
    r1 = r := by
  unfold schedRecycLogBody at h
  repeat' (split at h)
  all_goals first
    | (cases h; done)
    | (simp only [Run.ret.injEq, Prod.mk.injEq] at h
       obtain ⟨_, h2, h3⟩ := h
       rw [hjs] at h3
       cases h3
       done)
    | (simp only [Run.ret.injEq, Prod.mk.injEq] at h
       exact h.2.1.symm)

theorem schedMasterEntry_shape (now i p : Nat) (e e1 : Nat × MPovStatus) (d : Bool)
    (js : List Job) (h : schedMasterEntry now i p e = Run.ret (d, e1, js)) :
    e1.1 = e.1 ∧ ((js = [] ∧ e1 = e) ∨ js = [Job.masterPushRoutine i e.1]) := by
  unfold schedMasterEntry at h
  split at h
  · simp only [Run.ret.injEq, Prod.mk.injEq] at h
    obtain ⟨_, h2, h3⟩ := h
    subst h2 h3
    exact ⟨rfl, Or.inl ⟨rfl, rfl⟩⟩
  · simp only [Run.ret.injEq, Prod.mk.injEq] at h
    obtain ⟨_, h2, h3⟩ := h
    subst h2 h3
    exact ⟨rfl, Or.inr rfl⟩

/-- The inner loop of the master scan on the push map of store `i`: its jobs are
for store `i`, their subjects are, in order, among the `(i, client)` pairs of
the map, and the flag of every client it schedules no job for is kept. -/
theorem schedMasterBody_inner (now i : Nat) (m : List (Nat × MPovStatus)) :
    ∀ (k : Nat) (d : Bool) (m1 : List (Nat × MPovStatus)) (js : List Job),
      forEach (schedMasterEntry now i) k m = Run.ret (d, m1, js) →
      (js.map Job.subject).Sublist (m.map (fun e => Subject.master i e.1)) ∧
      (∀ job ∈ js, job.storeId = i) ∧
      (∀ c, Subject.master i c ∉ js.map Job.subject →
        (mapFind m1 c).map (fun x => x.isRunning) =
          (mapFind m c).map (fun x => x.isRunning)) := by
  induction m with
  | nil =>
    intro k d m1 js h
    simp only [forEach, Run.ret.injEq, Prod.mk.injEq] at h
    obtain ⟨_, h2, h3⟩ := h
    subst h2 h3
    refine ⟨List.Sublist.refl _, ?_, fun _ _ => rfl⟩
    intro job hjob
    cases hjob
  | cons e rest ih =>
    intro k d m1 js h
    unfold forEach at h
    cases hb : schedMasterEntry now i k e with
    | fatal => rw [hb] at h; cases h
    | undefined => rw [hb] at h; cases h
    | ret r1 =>
      rw [hb] at h
      cases hr : forEach (schedMasterEntry now i) (k + 1) rest with
      | fatal => rw [hr] at h; cases h
      | undefined => rw [hr] at h; cases h
      | ret r2 =>
        rw [hr] at h
        obtain ⟨d1, e1, js1⟩ := r1
        obtain ⟨d2, m2, js2⟩ := r2
        simp only [Run.ret.injEq, Prod.mk.injEq] at h
        obtain ⟨_, h2, h3⟩ := h
        subst h2 h3
        obtain ⟨hsub, hid, hframe⟩ := ih (k + 1) d2 m2 js2 hr
        obtain ⟨hkey, hshape⟩ := schedMasterEntry_shape now i k e e1 d1 js1 hb
        obtain ⟨k0, v0⟩ := e
        obtain ⟨k1, v1⟩ := e1
        simp only at hkey
        subst hkey
        refine ⟨?_, ?_, ?_⟩
        · rcases hshape with ⟨hnil, _⟩ | hjob
          · rw [hnil, List.nil_append, List.map_cons]
            exact List.Sublist.cons _ hsub
          · rw [hjob, List.singleton_append, List.map_cons, List.map_cons]
            exact List.Sublist.cons₂ _ hsub
        · intro job hjob
          rcases List.mem_append.mp hjob with hj | hj
          · rcases hshape with ⟨hnil, _⟩ | hj1
            · rw [hnil] at hj; cases hj
            · rw [hj1, List.mem_singleton] at hj
              rw [hj]
              rfl
          · exact hid job hj
        · intro c hc
          have hc2 : Subject.master i c ∉ js2.map Job.subject := by
            intro hmem
            apply hc
            rw [List.map_append]
            exact List.mem_append_right _ hmem
          by_cases hk : k1 = c
          · subst hk
            rcases hshape with ⟨_, heq⟩ | hj1
            · simp only [Prod.mk.injEq] at heq
              simp [mapFind, heq.2]
            · exfalso
              apply hc
              rw [hj1]
              simp [Job.subject]
          · simp only [mapFind, hk, if_false]
            exact hframe c hc2

theorem length_eq_getElem?_none {α β : Type} (l : List α) (l1 : List β) (i : Nat)
    (hlen : l1.length = l.length) (h : l[i]? = none) : l1[i]? = none := by
  rw [List.getElem?_eq_none_iff] at h ⊢
  omega

theorem schedSlaveInLock_idle (st : ReplManager) (now : Nat) (d : Bool) (st1 : ReplManager)
    (jobs : List Job) (h : schedSlaveInLock st now = Run.ret (d, st1, jobs)) :
    st1.pushStatus = st.pushStatus ∧ (jobs.map Job.subject).Nodup ∧
    (∀ sub, sub ∉ jobs.map Job.subject → st1.isRunningOf sub = st.isRunningOf sub) := by
  unfold schedSlaveInLock at h
  cases hf : forEach (schedSlaveBody st.syncMeta now) 0 st.syncStatus with
  | fatal => rw [hf] at h; cases h
  | undefined => rw [hf] at h; cases h
  | ret r =>
    rw [hf] at h
    obtain ⟨d0, sps, js⟩ := r
    simp only [Run.ret.injEq, Prod.mk.injEq] at h
    obtain ⟨_, hst, hjs⟩ := h
    subst hst hjs
    obtain ⟨hlen, hall, _, _⟩ := forEach_ret _ _ _ _ _ _ hf
    refine ⟨rfl, ?_, ?_⟩
    · refine (forEach_subjects_nodup _ _ 0 d0 sps js ?_ hf).1
      intro i a d1 a1 js1 _ hb
      rcases schedSlaveBody_shape _ _ _ _ _ _ _ hb with ⟨_, hnil⟩ | ⟨_, pool, hj⟩
      · rw [hnil]
        exact ⟨List.nodup_nil, fun job hjob => by cases hjob⟩
      · rw [hj]
        refine ⟨List.nodup_singleton _, ?_⟩
        intro job hjob
        rw [List.mem_singleton] at hjob
        rw [hjob]
        rfl
    · intro sub hsub
      cases sub with
      | master i c => rfl
      | recycle i => rfl
      | slave i =>
        simp only [ReplManager.isRunningOf]
        cases hget : st.syncStatus[i]? with
        | none => rw [length_eq_getElem?_none _ _ i hlen hget]
        | some sp =>
          obtain ⟨dj, sp1, js1, hbody, hget1, _, hmem⟩ := hall i sp hget
          rw [Nat.zero_add] at hbody
          rw [hget1]
          rcases schedSlaveBody_shape _ _ _ _ _ _ _ hbody with ⟨_, hnil⟩ | ⟨_, pool, hj⟩
          · rw [schedSlaveBody_keep _ _ _ _ _ _ _ hbody hnil]
          · exfalso
            apply hsub
            exact List.mem_map.mpr ⟨Job.slaveSyncRoutine pool i,
              hmem _ (by rw [hj]; exact List.mem_singleton_self _), rfl⟩

theorem schedRecycLogInLock_idle (st : ReplManager) (now : Nat) (d : Bool)
    (st1 : ReplManager) (jobs : List Job)
    (h : schedRecycLogInLock st now = Run.ret (d, st1, jobs)) :
    st1.pushStatus = st.pushStatus ∧ (jobs.map Job.subject).Nodup ∧
    (∀ sub, sub ∉ jobs.map Job.subject → st1.isRunningOf sub = st.isRunningOf sub) := by
  unfold schedRecycLogInLock at h
  cases hf : forEach (schedRecycLogBody st.pushStatus now) 0 st.logRecycStatus with
  | fatal => rw [hf] at h; cases h
  | undefined => rw [hf] at h; cases h
  | ret r =>
    rw [hf] at h
    obtain ⟨d0, rs, js⟩ := r
    simp only [Run.ret.injEq, Prod.mk.injEq] at h
    obtain ⟨_, hst, hjs⟩ := h
    subst hst hjs
    obtain ⟨hlen, hall, _, _⟩ := forEach_ret _ _ _ _ _ _ hf
    refine ⟨rfl, ?_, ?_⟩
    · refine (forEach_subjects_nodup _ _ 0 d0 rs js ?_ hf).1
      intro i a d1 a1 js1 _ hb
      obtain ⟨_, _, h3⟩ := schedRecycLogBody_step _ _ _ _ _ _ _ hb
      rcases h3 with hnil | ⟨push, _, _, _, hj⟩
      · rw [hnil]
        exact ⟨List.nodup_nil, fun job hjob => by cases hjob⟩
      · rw [hj]
        refine ⟨List.nodup_singleton _, ?_⟩
        intro job hjob
        rw [List.mem_singleton] at hjob
        rw [hjob]
        rfl
    · intro sub hsub
      cases sub with
      | master i c => rfl
      | slave i => rfl
      | recycle i =>
        simp only [ReplManager.isRunningOf]
        cases hget : st.logRecycStatus[i]? with
        | none => rw [length_eq_getElem?_none _ _ i hlen hget]
        | some r =>
          obtain ⟨dj, r1, js1, hbody, hget1, _, hmem⟩ := hall i r hget
          rw [Nat.zero_add] at hbody
          rw [hget1]
          obtain ⟨_, _, h3⟩ := schedRecycLogBody_step _ _ _ _ _ _ _ hbody
          rcases h3 with hnil | ⟨push, _, _, _, hj⟩
          · rw [schedRecycLogBody_keep _ _ _ _ _ _ _ hbody hnil]
          · exfalso
            apply hsub
            have hjm := hmem _ (by rw [hj]; exact List.mem_singleton_self _)
            exact List.mem_map.mpr ⟨_, hjm, rfl⟩

theorem schedMasterInLock_idle (st : ReplManager) (now : Nat) (d : Bool)
    (st1 : ReplManager) (jobs : List Job)
    (h : schedMasterInLock st now = Run.ret (d, st1, jobs)) (hkeys : st.pushKeysDistinct) :
    (jobs.map Job.subject).Nodup ∧
    (∀ sub, sub ∉ jobs.map Job.subject → st1.isRunningOf sub = st.isRunningOf sub) := by
  unfold schedMasterInLock at h
  cases hf : forEach (schedMasterBody now) 0 st.pushStatus with
  | fatal => rw [hf] at h; cases h
  | undefined => rw [hf] at h; cases h
  | ret r =>
    rw [hf] at h
    obtain ⟨d0, ps, js⟩ := r
    simp only [Run.ret.injEq, Prod.mk.injEq] at h
    obtain ⟨_, hst, hjs⟩ := h
    subst hst hjs
    obtain ⟨hlen, hall, _, _⟩ := forEach_ret _ _ _ _ _ _ hf
    constructor
    · refine (forEach_subjects_nodup _ _ 0 d0 ps js ?_ hf).1
      intro i m d1 m1 js1 hm hb
      obtain ⟨hsub, hid, _⟩ := schedMasterBody_inner now i m 0 d1 m1 js1 hb
      refine ⟨List.Nodup.sublist hsub ?_, hid⟩
      have hmap : m.map (fun e => Subject.master i e.1) =
          (m.map Prod.fst).map (Subject.master i) := by
        rw [List.map_map]
        rfl
      rw [hmap]
      exact List.Nodup.map (fun a b hab => by cases hab; rfl) (hkeys m hm)
    · intro sub hsub
      cases sub with
      | slave i => rfl
      | recycle i => rfl
      | master i c =>
        simp only [ReplManager.isRunningOf]
        cases hget : st.pushStatus[i]? with
        | none => rw [length_eq_getElem?_none _ _ i hlen hget]
        | some m =>
          obtain ⟨dj, m1, js1, hbody, hget1, _, hmem⟩ := hall i m hget
          rw [Nat.zero_add] at hbody
          rw [hget1]
          obtain ⟨_, _, hframe⟩ := schedMasterBody_inner now i m 0 dj m1 js1 hbody
          have hc : Subject.master i c ∉ js1.map Job.subject := by
            intro hin
            apply hsub
            obtain ⟨job, hjob, hs⟩ := List.mem_map.mp hin
            exact List.mem_map.mpr ⟨job, hmem job hjob, hs⟩
          have hfr := hframe c hc
          dsimp only
          cases h1 : mapFind m1 c <;> cases h2 : mapFind m c <;> rw [h1, h2] at hfr <;>
            simp only [Option.map_none', Option.map_some', Option.some.injEq] at hfr
          · cases hfr
          · cases hfr
          · dsimp only
            rw [hfr]

/-- What every one of the three scans does on a manager whose push maps have
one entry per client id: the jobs run on pairwise distinct subjects that were
idle and are marked running, every other flag is kept, and the push maps
still have one entry per client id. -/
theorem controllerScans_dispatch (scan : ReplManager → Nat → Run (Bool × ReplManager × List Job))
    (hscan : scan ∈ controllerScans) (st : ReplManager) (now : Nat) (d : Bool)
    (st1 : ReplManager) (jobs : List Job) (hkeys : st.pushKeysDistinct)
    (h : scan st now = Run.ret (d, st1, jobs)) :
    (jobs.map Job.subject).Nodup ∧
    (∀ job ∈ jobs,
      st.isRunningOf job.subject = some false ∧ st1.isRunningOf job.subject = some true) ∧
    (∀ sub, sub ∉ jobs.map Job.subject → st1.isRunningOf sub = st.isRunningOf sub) ∧
    st1.pushKeysDistinct := by
  simp only [controllerScans, List.mem_cons, List.mem_singleton, List.not_mem_nil,
    or_false] at hscan
  rcases hscan with hs | hs | hs
  · subst hs
    obtain ⟨hp, hnd, hframe⟩ := schedSlaveInLock_idle st now d st1 jobs h
    refine ⟨hnd, schedSlaveInLock_flags st now d st1 jobs h, hframe, ?_⟩
    unfold ReplManager.pushKeysDistinct
    rw [hp]
    exact hkeys
  · subst hs
    obtain ⟨hnd, hframe⟩ := schedMasterInLock_idle st now d st1 jobs h hkeys
    exact ⟨hnd, schedMasterInLock_flags st now d st1 jobs h hkeys, hframe,
      schedMasterInLock_keys st now d st1 jobs h hkeys⟩
  · subst hs
    obtain ⟨hp, hnd, hframe⟩ := schedRecycLogInLock_idle st now d st1 jobs h
    refine ⟨hnd, schedRecycLogInLock_flags st now d st1 jobs h, hframe, ?_⟩
    unfold ReplManager.pushKeysDistinct
    rw [hp]
    exact hkeys

/-- The workers stay on pairwise distinct subjects, all marked running, when a
scan adds its jobs to them. -/
theorem dispatch_scan_inv (W : List Job) (st st1 : ReplManager) (js : List Job)
    (hnd : (W.map Job.subject).Nodup)
    (hrun : ∀ w ∈ W, st.isRunningOf w.subject = some true)
    (hjs : (js.map Job.subject).Nodup)
    (hflags : ∀ job ∈ js,
      st.isRunningOf job.subject = some false ∧ st1.isRunningOf job.subject = some true)
    (hframe : ∀ sub, sub ∉ js.map Job.subject → st1.isRunningOf sub = st.isRunningOf sub) :
    ((W ++ js).map Job.subject).Nodup ∧
    ∀ w ∈ W ++ js, st1.isRunningOf w.subject = some true := by
  have hdisj : ∀ w ∈ W, w.subject ∉ js.map Job.subject := by
    intro w hw hin
    obtain ⟨job, hjob, hs⟩ := List.mem_map.mp hin
    have h1 := (hflags job hjob).1
    rw [hs, hrun w hw] at h1
    cases h1
  constructor
  · rw [List.map_append]
    refine List.Nodup.append hnd hjs ?_
    intro sub h1 h2
    obtain ⟨w, hw, hs⟩ := List.mem_map.mp h1
    exact hdisj w hw (by rw [hs]; exact h2)
  · intro w hw
    rcases List.mem_append.mp hw with h1 | h1
    · rw [hframe _ (hdisj w h1)]
      exact hrun w h1
    · exact (hflags w h1).2

theorem DispatchStep_inv (s s1 : Dispatch) (hstep : DispatchStep s s1)
    (hnd : (s.workers.map Job.subject).Nodup)
    (hrun : ∀ w ∈ s.workers, s.mgr.isRunningOf w.subject = some true)
    (hkeys : s.mgr.pushKeysDistinct) :
    (s1.workers.map Job.subject).Nodup ∧
    (∀ w ∈ s1.workers, s1.mgr.isRunningOf w.subject = some true) ∧
    s1.mgr.pushKeysDistinct := by
  cases hstep with
  | slaveScan now d mgr1 jobs h =>
    obtain ⟨h1, h2, h3, h4⟩ := controllerScans_dispatch schedSlaveInLock
      (by simp [controllerScans]) s.mgr now d mgr1 jobs hkeys h
    obtain ⟨h5, h6⟩ := dispatch_scan_inv s.workers s.mgr mgr1 jobs hnd hrun h1 h2 h3
    exact ⟨h5, h6, h4⟩
  | masterScan now d mgr1 jobs h =>
    obtain ⟨h1, h2, h3, h4⟩ := controllerScans_dispatch schedMasterInLock
      (by simp [controllerScans]) s.mgr now d mgr1 jobs hkeys h
    obtain ⟨h5, h6⟩ := dispatch_scan_inv s.workers s.mgr mgr1 jobs hnd hrun h1 h2 h3
    exact ⟨h5, h6, h4⟩
  | recycleScan now d mgr1 jobs h =>
    obtain ⟨h1, h2, h3, h4⟩ := controllerScans_dispatch schedRecycLogInLock
      (by simp [controllerScans]) s.mgr now d mgr1 jobs hkeys h
    obtain ⟨h5, h6⟩ := dispatch_scan_inv s.workers s.mgr mgr1 jobs hnd hrun h1 h2 h3
    exact ⟨h5, h6, h4⟩
  | complete job mgr1 _ hk _ hothers =>
    refine ⟨List.Nodup.sublist ((List.erase_sublist _ _).map _) hnd, ?_, hk⟩
    intro w hw
    rw [hothers w hw]
    exact hrun w (List.mem_of_mem_erase hw)
  | other mgr1 hk hothers =>
    refine ⟨hnd, ?_, hk⟩
    intro w hw
    rw [hothers w hw]
    exact hrun w hw

theorem DispatchReach_inv (s s1 : Dispatch) (h : DispatchReach s s1)
    (hnd : (s.workers.map Job.subject).Nodup)
    (hrun : ∀ w ∈ s.workers, s.mgr.isRunningOf w.subject = some true)
    (hkeys : s.mgr.pushKeysDistinct) :
    (s1.workers.map Job.subject).Nodup ∧
    (∀ w ∈ s1.workers, s1.mgr.isRunningOf w.subject = some true) ∧
    s1.mgr.pushKeysDistinct := by
  unfold DispatchReach at h
  induction h with
  | refl => exact ⟨hnd, hrun, hkeys⟩
  | tail _ hstep ih =>
    obtain ⟨h1, h2, h3⟩ := ih
    exact DispatchStep_inv _ _ hstep h1 h2 h3

/-- C13. The subjects are the stores of the slave routines, the
`(store, client)` pairs of the push routines and the stores of the
recyclers; the push maps have one entry per client id (`pushKeysDistinct`,
they are `std::map`s).
* Each of the three scans, when it returns: schedules no two jobs on the same
  subject; schedules a job only on a subject whose `isRunning` flag was false
  before the scan, and leaves that flag true; leaves the flag of every other
  subject as it was; and run again on the resulting manager, at any time,
  schedules no job on a subject of the first run (`DispatchesOnlyIdle`).
* Any of the three scans run after any of the three scans, with nothing in
  between, schedules no job on a subject the first one scheduled a job on.
* In every state reached from a state without workers by scans, completions
  of workers and steps that leave the flags of the workers' subjects alone,
  no two workers run on the same subject, and the flag of the subject of
  every worker is true. -/
theorem scans_dispatch_only_idle :
    (∀ (st : ReplManager) (now : Nat),
      DispatchesOnlyIdle schedSlaveInLock st now ∧
      (st.pushKeysDistinct → DispatchesOnlyIdle schedMasterInLock st now) ∧
      DispatchesOnlyIdle schedRecycLogInLock st now) ∧
    (∀ scan1 ∈ controllerScans, ∀ scan2 ∈ controllerScans,
      ∀ (st : ReplManager) (now : Nat) (d : Bool) (st1 : ReplManager) (jobs : List Job)
        (now2 : Nat) (d2 : Bool) (st2 : ReplManager) (jobs2 : List Job),
      st.pushKeysDistinct → scan1 st now = Run.ret (d, st1, jobs) →
      scan2 st1 now2 = Run.ret (d2, st2, jobs2) →
      ∀ job ∈ jobs, ∀ job2 ∈ jobs2, job2.subject ≠ job.subject) ∧
    (∀ s0 s : Dispatch, s0.workers = [] → s0.mgr.pushKeysDistinct → DispatchReach s0 s →
      (s.workers.map Job.subject).Nodup ∧
      ∀ w ∈ s.workers, s.mgr.isRunningOf w.subject = some true) := by
  refine ⟨?_, ?_, ?_⟩
  · intro st now
    refine ⟨?_, ?_, ?_⟩
    · intro d st1 jobs h
      obtain ⟨_, hnd, hframe⟩ := schedSlaveInLock_idle st now d st1 jobs h
      refine ⟨hnd, schedSlaveInLock_flags st now d st1 jobs h, hframe, ?_⟩
      intro now2 d2 st2 jobs2 h2 job hjob job2 hjob2 heq
      have h1 := (schedSlaveInLock_flags st now d st1 jobs h job hjob).2
      have h3 := (schedSlaveInLock_flags st1 now2 d2 st2 jobs2 h2 job2 hjob2).1
      rw [heq, h1] at h3
      cases h3
    · intro hkeys d st1 jobs h
      obtain ⟨hnd, hframe⟩ := schedMasterInLock_idle st now d st1 jobs h hkeys
      refine ⟨hnd, schedMasterInLock_flags st now d st1 jobs h hkeys, hframe, ?_⟩
      intro now2 d2 st2 jobs2 h2 job hjob job2 hjob2 heq
      have hkeys1 := schedMasterInLock_keys st now d st1 jobs h hkeys
      have h1 := (schedMasterInLock_flags st now d st1 jobs h hkeys job hjob).2
      have h3 := (schedMasterInLock_flags st1 now2 d2 st2 jobs2 h2 hkeys1 job2 hjob2).1
      rw [heq, h1] at h3
      cases h3
    · intro d st1 jobs h
      obtain ⟨_, hnd, hframe⟩ := schedRecycLogInLock_idle st now d st1 jobs h
      refine ⟨hnd, schedRecycLogInLock_flags st now d st1 jobs h, hframe, ?_⟩
      intro now2 d2 st2 jobs2 h2 job hjob job2 hjob2 heq
      have h1 := (schedRecycLogInLock_flags st now d st1 jobs h job hjob).2
      have h3 := (schedRecycLogInLock_flags st1 now2 d2 st2 jobs2 h2 job2 hjob2).1
      rw [heq, h1] at h3
      cases h3
  · intro scan1 hs1 scan2 hs2 st now d st1 jobs now2 d2 st2 jobs2 hkeys h1 h2 job hjob
      job2 hjob2 heq
    obtain ⟨_, hf1, _, hkeys1⟩ := controllerScans_dispatch scan1 hs1 st now d st1 jobs hkeys h1
    obtain ⟨_, hf2, _, _⟩ := controllerScans_dispatch scan2 hs2 st1 now2 d2 st2 jobs2 hkeys1 h2
    have h3 := (hf1 job hjob).2
    have h4 := (hf2 job2 hjob2).1
    rw [heq, h3] at h4
    cases h4
  · intro s0 s hw hkeys hreach
    obtain ⟨h1, h2, _⟩ := DispatchReach_inv s0 s hreach
      (by rw [hw]; exact List.nodup_nil)
      (by intro w hmem; rw [hw] at hmem; cases hmem) hkeys
    exact ⟨h1, h2⟩

/-- The three scans on `managerScan` at time 100. The slave scan dispatches
store 0 only (store 1 is running, store 2 has no source); the master scan
dispatches the clients 5 and 6 of store 0 (client 9 of store 2 is running);
the recycle scan dispatches stores 0 and 1 (store 2 is not due). Every
dispatched subject was idle. After the three scans the five workers run on
five different subjects, all marked running, and a further slave scan
schedules nothing on the subject of the first one. -/
theorem scans_dispatch_only_idle_witness :
    (schedSlaveInLock managerScan 100 =
        Run.ret (true,
          { managerScan with
            syncStatus := [{ isRunning := true, sessionId := 1 },
              { isRunning := true, sessionId := 2 }, spovIdle] },
          [Job.slaveSyncRoutine Pool.fullReceiver 0]) ∧
      managerScan.isRunningOf (Subject.slave 0) = some false) ∧
    (∀ job ∈ [Job.masterPushRoutine 0 5, Job.masterPushRoutine 0 6],
      managerScan.isRunningOf job.subject = some false) ∧
    (∀ job ∈ [Job.recycleBinlog 0 10 50 false, Job.recycleBinlog 1 20 UINT64_MAX true],
      managerScan.isRunningOf job.subject = some false) ∧
    (DispatchReach { mgr := managerScan, workers := [] }
        { mgr := managerScanned,
          workers := [Job.slaveSyncRoutine Pool.fullReceiver 0, Job.masterPushRoutine 0 5,
            Job.masterPushRoutine 0 6, Job.recycleBinlog 0 10 50 false,
            Job.recycleBinlog 1 20 UINT64_MAX true] } ∧
      ([Job.slaveSyncRoutine Pool.fullReceiver 0, Job.masterPushRoutine 0 5,
        Job.masterPushRoutine 0 6, Job.recycleBinlog 0 10 50 false,
        Job.recycleBinlog 1 20 UINT64_MAX true].map Job.subject).Nodup ∧
      managerScanned.isRunningOf (Subject.master 0 6) = some true) ∧
    (∀ now2 d2 st2 jobs2,
      schedSlaveInLock
        { managerScan with
          syncStatus := [{ isRunning := true, sessionId := 1 },
            { isRunning := true, sessionId := 2 }, spovIdle] } now2 =
        Run.ret (d2, st2, jobs2) →
      ∀ job2 ∈ jobs2, job2.subject ≠ Subject.slave 0) := by
  have hkeys : managerScan.pushKeysDistinct := by
    unfold ReplManager.pushKeysDistinct; decide
  have hslave : schedSlaveInLock managerScan 100 =
      Run.ret (true,
        { managerScan with
          syncStatus := [{ isRunning := true, sessionId := 1 },
            { isRunning := true, sessionId := 2 }, spovIdle] },
        [Job.slaveSyncRoutine Pool.fullReceiver 0]) := by decide
  have h1 : DispatchStep { mgr := managerScan, workers := [] }
      { mgr := { managerScan with
          syncStatus := [{ isRunning := true, sessionId := 1 },
            { isRunning := true, sessionId := 2 }, spovIdle] },
        workers := [Job.slaveSyncRoutine Pool.fullReceiver 0] } :=
    DispatchStep.slaveScan { mgr := managerScan, workers := [] } 100 true _
      [Job.slaveSyncRoutine Pool.fullReceiver 0] hslave
  have h2 : DispatchStep
      { mgr := { managerScan with
          syncStatus := [{ isRunning := true, sessionId := 1 },
            { isRunning := true, sessionId := 2 }, spovIdle] },
        workers := [Job.slaveSyncRoutine Pool.fullReceiver 0] }
      { mgr := { managerScanned with logRecycStatus := managerScan.logRecycStatus },
        workers := [Job.slaveSyncRoutine Pool.fullReceiver 0, Job.masterPushRoutine 0 5,
          Job.masterPushRoutine 0 6] } :=
    DispatchStep.masterScan _ 100 true
      { managerScanned with logRecycStatus := managerScan.logRecycStatus }
      [Job.masterPushRoutine 0 5, Job.masterPushRoutine 0 6] (by decide)
  have h3 : DispatchStep
      { mgr := { managerScanned with logRecycStatus := managerScan.logRecycStatus },
        workers := [Job.slaveSyncRoutine Pool.fullReceiver 0, Job.masterPushRoutine 0 5,
          Job.masterPushRoutine 0 6] }
      { mgr := managerScanned,
        workers := [Job.slaveSyncRoutine Pool.fullReceiver 0, Job.masterPushRoutine 0 5,
          Job.masterPushRoutine 0 6, Job.recycleBinlog 0 10 50 false,
          Job.recycleBinlog 1 20 UINT64_MAX true] } :=
    DispatchStep.recycleScan _ 100 true managerScanned
      [Job.recycleBinlog 0 10 50 false, Job.recycleBinlog 1 20 UINT64_MAX true] (by decide)
  have hreach : DispatchReach { mgr := managerScan, workers := [] }
      { mgr := managerScanned,
        workers := [Job.slaveSyncRoutine Pool.fullReceiver 0, Job.masterPushRoutine 0 5,
          Job.masterPushRoutine 0 6, Job.recycleBinlog 0 10 50 false,
          Job.recycleBinlog 1 20 UINT64_MAX true] } :=
    Relation.ReflTransGen.tail
      (Relation.ReflTransGen.tail (Relation.ReflTransGen.single h1) h2) h3
  have hinv := scans_dispatch_only_idle.2.2 { mgr := managerScan, workers := [] } _ rfl hkeys
    hreach
  have hs := (scans_dispatch_only_idle.1 managerScan 100).1 true _ _ hslave
  refine ⟨⟨hslave, (hs.2.1 _ (List.mem_singleton_self _)).1⟩, ?_, ?_,
    ⟨hreach, hinv.1, hinv.2 (Job.masterPushRoutine 0 6) (by decide)⟩, ?_⟩
  · intro job hjob
    exact ((((scans_dispatch_only_idle.1 managerScan 100).2.1 hkeys) true
      { managerScan with
        pushStatus := [[(5, { isRunning := true, binlogPos := 50, clientId := 5 }),
            (6, { isRunning := true, binlogPos := 80, clientId := 6 })],
          [],
          [(9, { isRunning := true, binlogPos := 30, clientId := 9 })]] }
      [Job.masterPushRoutine 0 5, Job.masterPushRoutine 0 6] (by decide)).2.1 job hjob).1
  · intro job hjob
    exact (((scans_dispatch_only_idle.1 managerScan 100).2.2 true
      { managerScan with
        logRecycStatus := [{ isRunning := true, firstBinlogId := 10 },
          { isRunning := true, firstBinlogId := 20 },
          { isRunning := false, firstBinlogId := 5, nextSchedTime := 200 }] }
      [Job.recycleBinlog 0 10 50 false, Job.recycleBinlog 1 20 UINT64_MAX true]
      (by decide)).2.1 job hjob).1
  · intro now2 d2 st2 jobs2 hrun2 job2 hjob2
    exact hs.2.2.2 now2 d2 st2 jobs2 hrun2 _ (List.mem_singleton_self _) job2 hjob2

end tendisplus
